import Mathlib

/-!
# Guest agent: transport selection and network reconciliation

A shallow embedding of `channel.go` and `network.go`, and of `addDevice` as the
specification and `device_test.go` describe it.

Conventions of the embedding:

* A Go `error` is an `Option GoError` (`none` is `nil`); a Go pair `(v, err)` whose
  value is `nil` whenever `err` is not is an `Except GoError _`.
* System and netlink calls are the fields of an interface record over an abstract
  kernel state, so every theorem holds for every behaviour of the kernel.  Every
  call the code issues is appended, with its outcome, to a trace.
* A nil dereference is the `panic` outcome of `Res`.
* The mutexes of `network` are not modelled: one call runs at a time.
-/

namespace Agent

/-! ## Errors -/

/-- The gRPC status codes used by the agent. -/
inductive Code
  | InvalidArgument
  | NotFound
  | Internal
  deriving DecidableEq, Repr

/-- A Go error value.  `errno` is an error handed back by a system or library call;
`plain` is `fmt.Errorf(text)`;
`status` is `grpcStatus.Errorf(code, format, args...)` with string arguments;
`wrap` is the same with a trailing `%v` argument that is itself an error. -/
inductive GoError
  | errno (n : Nat)
  | plain (text : String)
  | status (code : Code) (format : String) (args : List String)
  | wrap (code : Code) (format : String) (args : List String) (cause : GoError)
  deriving DecidableEq, Repr

/-- The constant `unix.EAFNOSUPPORT`. -/
def EAFNOSUPPORT : GoError := GoError.errno 97

/-- The constant `syscall.ENOENT`. -/
def ENOENT : GoError := GoError.errno 2

/-- The library predicate `os.IsNotExist`. -/
def IsNotExist (err : GoError) : Bool := decide (err = ENOENT)

/-- The gRPC code of an error, when it is a status error. -/
def GoError.code? : GoError → Option Code
  | GoError.errno _ => none
  | GoError.plain _ => none
  | GoError.status c _ _ => some c
  | GoError.wrap c _ _ _ => some c

/-! ## channel.go: transport selection -/

/-- The two implementations of the `channel` interface. -/
inductive Channel
  | vSockChannel
  | serialChannel
  deriving DecidableEq, Repr

/-- The system calls issued while selecting the channel. -/
inductive SysCall
  | Socket
  | Close (fd : Nat)
  | Stat
  deriving DecidableEq, Repr

/-- The outcome of each system call `newChannel` may issue:
`unix.Socket(AF_VSOCK, SOCK_STREAM, 0)`, `unix.Close(fd)` and `os.Stat(vSockDevPath)`
(whose file info the code discards). -/
structure Sys where
  Socket : Except GoError Nat
  Close : Nat → Option GoError
  Stat : Option GoError

/-- Embedding of `isAFVSockSupported`: the returned pair and the calls issued. -/
def isAFVSockSupported (sys : Sys) (t : List SysCall) : (Bool × Option GoError) × List SysCall :=
  match sys.Socket with
  | Except.error err =>
    if err = EAFNOSUPPORT then ((false, none), t ++ [SysCall.Socket])
    else ((false, some err), t ++ [SysCall.Socket])
  | Except.ok fd =>
    match sys.Close fd with
    | some err => ((true, some err), t ++ [SysCall.Socket, SysCall.Close fd])
    | none => ((true, none), t ++ [SysCall.Socket, SysCall.Close fd])

/-- Embedding of `vSockPathExist`. -/
def vSockPathExist (sys : Sys) (t : List SysCall) : (Bool × Option GoError) × List SysCall :=
  match sys.Stat with
  | some err =>
    if IsNotExist err then ((false, none), t ++ [SysCall.Stat])
    else ((false, some err), t ++ [SysCall.Stat])
  | none => ((true, none), t ++ [SysCall.Stat])

/-- Embedding of `newChannel`: the returned `(channel, error)` pair and the calls issued. -/
def newChannel (sys : Sys) (t : List SysCall) : (Option Channel × Option GoError) × List SysCall :=
  match isAFVSockSupported sys t with
  | ((_, some err), t1) => ((none, some err), t1)
  | ((vSockSupported, none), t1) =>
    if vSockSupported then
      match vSockPathExist sys t1 with
      | ((_, some err), t2) => ((none, some err), t2)
      | ((exist, none), t2) =>
        if exist then ((some Channel.vSockChannel, none), t2)
        else ((some Channel.serialChannel, none), t2)
    else ((some Channel.serialChannel, none), t1)

/-! ## channel.go: the serial channel -/

/-- The library function `strings.Contains`. -/
def Contains (s substr : String) : Bool := decide (substr.toList <:+: s.toList)

/-- What `findVirtualSerialPath` reads from its surroundings.  The constants
`virtIOPath` and `devRootPath` are declared outside the three source files and
`filepath.Join` is a library function; `Open` is the error of `os.Open(virtIOPath)`,
`Readdirnames` the result of `dir.Readdirnames(0)` and `ReadFile` is `ioutil.ReadFile`,
each failing with an errno. -/
structure SerialEnv where
  virtIOPath : String
  devRootPath : String
  Join : List String → String
  Open : String → Option Nat
  Readdirnames : Except Nat (List String)
  ReadFile : String → Except Nat String

/-- The failure of `findVirtualSerialPath` when no port matches. -/
def portNotFound (serialName : String) : GoError :=
  GoError.status Code.NotFound "Could not find virtio port %s" [serialName]

/-- The loop of `findVirtualSerialPath` over the listed ports (lines 205 to 221). -/
def searchPorts (env : SerialEnv) (serialName : String) : List String → Except GoError String
  | [] => Except.error (portNotFound serialName)
  | port :: rest =>
    match env.ReadFile (env.Join [env.virtIOPath, port, "name"]) with
    | Except.error n =>
      if IsNotExist (GoError.errno n) = true then searchPorts env serialName rest
      else Except.error (GoError.errno n)
    | Except.ok content =>
      if Contains content serialName = true then Except.ok (env.Join [env.devRootPath, port])
      else searchPorts env serialName rest

/-- Embedding of `findVirtualSerialPath`. -/
def findVirtualSerialPath (env : SerialEnv) (serialName : String) : Except GoError String :=
  match env.Open env.virtIOPath with
  | some n => Except.error (GoError.errno n)
  | none =>
    match env.Readdirnames with
    | Except.error n => Except.error (GoError.errno n)
    | Except.ok ports => searchPorts env serialName ports

/-- A `syscall.EpollEvent`: `Events` is a `uint32`, `Fd` an `int32`. -/
structure EpollEvent where
  Events : Nat
  Fd : Int
  deriving DecidableEq, Repr

/-- The constant `syscall.EPOLLOUT`. -/
def EPOLLOUT : Nat := 4

/-- The constant `syscall.EPOLLERR`. -/
def EPOLLERR : Nat := 8

/-- The constant `syscall.EPOLLHUP`. -/
def EPOLLHUP : Nat := 16

/-- The conversion `int32(fd)` of a `uintptr`. -/
def int32OfUintptr (fd : Nat) : Int :=
  if fd % 2 ^ 32 < 2 ^ 31 then ((fd % 2 ^ 32 : Nat) : Int) else ((fd % 2 ^ 32 : Nat) : Int) - 2 ^ 32

/-- How a call of `wait` ends: it returns its `error`, or it is still blocked in
`EpollWait` when the kernel has delivered everything it had. -/
inductive WaitOutcome
  | returned (err : Option GoError)
  | blocked
  deriving DecidableEq, Repr

/-- One result of `syscall.EpollWait(epfd, events[:], -1)` with room for one event: an
error, no event, or one event. -/
abbrev EpollResult := Except GoError (Option EpollEvent)

/-- The loop of `serialChannel.wait` (lines 121 to 142), run against the results the
successive `EpollWait` calls deliver. -/
def waitLoop (fd : Nat) : List EpollResult → WaitOutcome
  | [] => WaitOutcome.blocked
  | Except.error err :: _ => WaitOutcome.returned (some err)
  | Except.ok none :: rest => waitLoop fd rest
  | Except.ok (some ev) :: rest =>
    if ev.Fd = int32OfUintptr fd then
      if ev.Events &&& EPOLLOUT ≠ 0 then WaitOutcome.returned none
      else if ev.Events &&& EPOLLERR ≠ 0 then
        WaitOutcome.returned (some (GoError.plain "serial port IO failure"))
      else if ev.Events &&& EPOLLHUP ≠ 0 then waitLoop fd rest
      else waitLoop fd rest
    else waitLoop fd rest

/-- The outcome of the set-up calls of `wait`: `EpollCreate1(EPOLL_CLOEXEC)` and
`EpollCtl(epfd, EPOLL_CTL_ADD, fd, &event)`. -/
structure EpollSys where
  EpollCreate1 : Except GoError Nat
  EpollCtl : Nat → Nat → Option GoError

/-- Embedding of `serialChannel.wait`; `fd` is the value of `c.serialConn.Fd()`.  The
deferred `Close` and `EPOLL_CTL_DEL` do not change the returned error. -/
def serialChannel.wait (sys : EpollSys) (fd : Nat) (results : List EpollResult) : WaitOutcome :=
  if fd ≤ 0 then WaitOutcome.returned (some (GoError.plain "serial port IO closed"))
  else
    match sys.EpollCreate1 with
    | Except.error err => WaitOutcome.returned (some err)
    | Except.ok epfd =>
      match sys.EpollCtl epfd fd with
      | some err => WaitOutcome.returned (some err)
      | none => waitLoop fd results

/-! ## network.go: data model

The protocol types `pb.IPAddress`, `pb.Interface` and `pb.Route` and the netlink types
are declared outside the three source files; they are given here with the fields the
agent reads or writes.  Lists of protocol messages hold non-nil entries, as the
protocol decoder delivers them. -/

/-- Protocol message `pb.IPAddress`. -/
structure IPAddress where
  Family : Nat
  Address : String
  Mask : String
  deriving DecidableEq, Repr

/-- Protocol message `pb.Interface`; `Mtu` is a `uint64`. -/
structure Interface where
  Device : String
  Name : String
  IPAddresses : List IPAddress
  Mtu : Nat
  HwAddr : String
  deriving DecidableEq, Repr

/-- Protocol message `pb.Route`; `Scope` is a `uint32`. -/
structure Route where
  Dest : String
  Gateway : String
  Device : String
  Source : String
  Scope : Nat
  deriving DecidableEq, Repr

/-- An address of type `net.IP`. -/
structure NetIP where
  bytes : List Nat
  deriving DecidableEq, Repr

/-- A network of type `net.IPNet`. -/
structure NetIPNet where
  IP : NetIP
  Mask : List Nat
  deriving DecidableEq, Repr

/-- An address of type `netlink.Addr`. -/
structure Addr where
  IP : NetIP
  Mask : List Nat
  deriving DecidableEq, Repr

/-- The attributes `netlink.LinkAttrs`; `HardwareAddr` is kept as the text that
`HardwareAddr.String()` renders, `Flags` is the `net.Flags` bit set. -/
structure LinkAttrs where
  Index : Int
  MTU : Int
  Name : String
  HardwareAddr : String
  Flags : Nat
  deriving DecidableEq, Repr

/-- A `netlink.Link`: every link type of the netlink library embeds its attributes. -/
structure Link where
  attrs : LinkAttrs
  deriving DecidableEq, Repr

/-- The method `Link.Attrs()`: the library returns the address of the embedded
attributes, so the pointer is never nil. -/
def Link.Attrs (link : Link) : Option LinkAttrs := some link.attrs

/-- The constant `net.FlagUp`. -/
def FlagUp : Nat := 1

/-- A `netlink.Route`, with the fields the agent sets; `Scope` is a `uint8`. -/
structure NlRoute where
  LinkIndex : Int
  Dst : Option NetIPNet
  Src : Option NetIP
  Gw : Option NetIP
  Scope : Nat
  deriving DecidableEq, Repr

/-- A `*netlink.Handle`. -/
structure Handle where
  id : Nat
  deriving DecidableEq, Repr

/-- The pure library functions the agent calls: `netlink.ParseAddr`, `net.ParseCIDR`
(network part), `net.ParseIP` (nil when the text is no address), the `String()`
renderings and the first component of `IPMask.Size()`. -/
structure NetLib where
  ParseAddr : String → Except GoError Addr
  ParseCIDR : String → Except GoError NetIPNet
  ParseIP : String → Option NetIP
  IPString : NetIP → String
  IPNetString : NetIPNet → String
  MaskSize : List Nat → Nat

/-- The netlink calls the agent issues. -/
inductive Call
  | NewHandle
  | Delete (h : Handle)
  | LinkList
  | LinkByIndex (index : Int)
  | LinkByName (name : String)
  | LinkSetUp (link : Link)
  | LinkSetDown (link : Link)
  | LinkSetName (link : Link) (name : String)
  | LinkSetMTU (link : Link) (mtu : Int)
  | LinkDel (link : Link)
  | AddrList (link : Link)
  | AddrDel (link : Link) (addr : Addr)
  | AddrAdd (link : Link) (addr : Addr)
  | RouteList
  | RouteAdd (route : NlRoute)
  | RouteDel (route : NlRoute)
  deriving DecidableEq, Repr

/-- The kernel as seen through netlink, over an abstract kernel state `K`: each call
returns its result and the next kernel state.  Address and route listings are the
`FAMILY_V4` and `FAMILY_ALL` listings the agent asks for.  All handles address the
same network namespace, so the calls do not depend on the handle. -/
structure Netlink (K : Type) where
  NewHandle : K → Except GoError Handle × K
  Delete : Handle → K → K
  LinkList : K → Except GoError (List Link) × K
  LinkByIndex : Int → K → Except GoError Link × K
  LinkByName : String → K → Except GoError Link × K
  LinkSetUp : Link → K → Option GoError × K
  LinkSetDown : Link → K → Option GoError × K
  LinkSetName : Link → String → K → Option GoError × K
  LinkSetMTU : Link → Int → K → Option GoError × K
  LinkDel : Link → K → Option GoError × K
  AddrList : Link → K → Except GoError (List Addr) × K
  AddrDel : Link → Addr → K → Option GoError × K
  AddrAdd : Link → Addr → K → Option GoError × K
  RouteList : K → Except GoError (List NlRoute) × K
  RouteAdd : NlRoute → K → Option GoError × K
  RouteDel : NlRoute → K → Option GoError × K

/-- One issued call and the error it returned (`none` when it succeeded). -/
structure Event where
  call : Call
  err : Option GoError
  deriving DecidableEq, Repr

/-- The state a network operation runs in: the kernel, the trace of calls issued so
far, and the sandbox fields `network.routes` and `network.ifaces`. -/
structure State (K : Type) where
  kernel : K
  trace : List Event
  routes : List Route
  ifaces : List (String × Interface)
  deriving DecidableEq

/-- Outcome of a function that may dereference nil: a normal return with the state
reached, or a panic with the state at the panic. -/
inductive Res (α σ : Type)
  | ret (a : α) (s : σ)
  | panic (s : σ)
  deriving DecidableEq

/-- The error of a `(value, error)` result. -/
def errOf {α : Type} : Except GoError α → Option GoError
  | Except.error err => some err
  | Except.ok _ => none

/-- Issue a call that returns `(value, error)` and record it. -/
def invoke {K α : Type} (c : Call) (r : Except GoError α × K) (s : State K) :
    Except GoError α × State K :=
  (r.1, { s with kernel := r.2, trace := s.trace ++ [Event.mk c (errOf r.1)] })

/-- Issue a call that returns only an `error` and record it. -/
def invokeErr {K : Type} (c : Call) (r : Option GoError × K) (s : State K) :
    Option GoError × State K :=
  (r.1, { s with kernel := r.2, trace := s.trace ++ [Event.mk c r.1] })

/-- The deferred `netHandle.Delete()`. -/
def deleteHandle {K : Type} (nl : Netlink K) (h : Handle) (s : State K) : State K :=
  { s with kernel := nl.Delete h s.kernel, trace := s.trace ++ [Event.mk (Call.Delete h) none] }

/-- Run the deferred `netHandle.Delete()` after an outcome, also after a panic. -/
def thenDelete {K α : Type} (nl : Netlink K) (h : Handle) : Res α (State K) → Res α (State K)
  | Res.ret a s => Res.ret a (deleteHandle nl h s)
  | Res.panic s => Res.panic (deleteHandle nl h s)

/-- The conversion `int(x)` of a `uint64`. -/
def uint64ToInt (x : Nat) : Int :=
  if x % 2 ^ 64 < 2 ^ 63 then ((x % 2 ^ 64 : Nat) : Int) else ((x % 2 ^ 64 : Nat) : Int) - 2 ^ 64

/-- The conversion `uint64(x)` of an `int`. -/
def intToUint64 (x : Int) : Nat := (x % 2 ^ 64).toNat

/-! ## network.go: interfaces -/

/-- The search loop of `linkByHwAddr`: the first link that has attributes and whose
hardware address renders as `hwAddr`. -/
def findByHwAddr (hwAddr : String) : List Link → Option Link
  | [] => none
  | link :: rest =>
    match link.Attrs with
    | none => findByHwAddr hwAddr rest
    | some lAttrs =>
      if lAttrs.HardwareAddr = hwAddr then some link else findByHwAddr hwAddr rest

/-- Embedding of `linkByHwAddr`. -/
def linkByHwAddr {K : Type} (nl : Netlink K) (hwAddr : String) (s : State K) :
    Except GoError Link × State K :=
  match invoke Call.LinkList (nl.LinkList s.kernel) s with
  | (Except.error err, s1) => (Except.error err, s1)
  | (Except.ok links, s1) =>
    match findByHwAddr hwAddr links with
    | some link => (Except.ok link, s1)
    | none =>
      (Except.error (GoError.status Code.NotFound
        "Could not find the link corresponding to HwAddr %q" [hwAddr]), s1)

/-- First loop of `updateLink`: delete each listed address, stopping at the first failure. -/
def delAddrs {K : Type} (nl : Netlink K) (link : Link) :
    List Addr → State K → Option GoError × State K
  | [], s => (none, s)
  | linkIP :: rest, s =>
    match invokeErr (Call.AddrDel link linkIP) (nl.AddrDel link linkIP s.kernel) s with
    | (some err, s1) =>
      (some (GoError.wrap Code.Internal "Could not delete existing addresses: %v" [] err), s1)
    | (none, s1) => delAddrs nl link rest s1

/-- The text `fmt.Sprintf("%s/%s", addr.Address, addr.Mask)`. -/
def netlinkAddrStr (addr : IPAddress) : String := addr.Address ++ "/" ++ addr.Mask

/-- Second loop of `updateLink`: parse and add each requested address, stopping at the
first failure. -/
def addAddrs {K : Type} (nl : Netlink K) (lib : NetLib) (link : Link) :
    List IPAddress → State K → Option GoError × State K
  | [], s => (none, s)
  | addr :: rest, s =>
    match lib.ParseAddr (netlinkAddrStr addr) with
    | Except.error err =>
      (some (GoError.wrap Code.Internal "Could not parse %q: %v" [netlinkAddrStr addr] err), s)
    | Except.ok netlinkAddr =>
      match invokeErr (Call.AddrAdd link netlinkAddr) (nl.AddrAdd link netlinkAddr s.kernel) s with
      | (some err, s1) =>
        (some (GoError.wrap Code.Internal "Could not add %s to interface %v: %v"
          [netlinkAddrStr addr] err), s1)
      | (none, s1) => addAddrs nl lib link rest s1

/-- Embedding of `updateLink`. -/
def updateLink {K : Type} (nl : Netlink K) (lib : NetLib) (link : Link) (iface : Interface)
    (s : State K) : Option GoError × State K :=
  match invoke (Call.AddrList link) (nl.AddrList link s.kernel) s with
  | (Except.error err, s1) =>
    (some (GoError.wrap Code.Internal
      "Could not check initial addresses for the link: %v" [] err), s1)
  | (Except.ok linkIPs, s1) =>
    match delAddrs nl link linkIPs s1 with
    | (some err, s2) => (some err, s2)
    | (none, s2) =>
      match addAddrs nl lib link iface.IPAddresses s2 with
      | (some err, s3) => (some err, s3)
      | (none, s3) =>
        match invokeErr (Call.LinkSetName link iface.Name)
            (nl.LinkSetName link iface.Name s3.kernel) s3 with
        | (some err, s4) =>
          (some (GoError.wrap Code.Internal "Could not set name %s for interface %v: %v"
            [iface.Name] err), s4)
        | (none, s4) =>
          match invokeErr (Call.LinkSetMTU link (uint64ToInt iface.Mtu))
              (nl.LinkSetMTU link (uint64ToInt iface.Mtu) s4.kernel) s4 with
          | (some err, s5) =>
            (some (GoError.wrap Code.Internal "Could not set MTU %d for interface %v: %v"
              [toString iface.Mtu] err), s5)
          | (none, s5) => (none, s5)

/-- Embedding of `getInterface`. -/
def getInterface {K : Type} (nl : Netlink K) (lib : NetLib) (link : Link) (s : State K) :
    Res (Option Interface × Option GoError) (State K) :=
  match link.Attrs with
  | none => Res.panic s
  | some linkAttrs =>
    match invoke (Call.AddrList link) (nl.AddrList link s.kernel) s with
    | (Except.error err, s1) => Res.ret (none, some err) s1
    | (Except.ok addrs, s1) =>
      Res.ret (some
        { Device := ""
          Name := linkAttrs.Name
          IPAddresses := addrs.map (fun addr =>
            { Family := 0, Address := lib.IPString addr.IP,
              Mask := toString (lib.MaskSize addr.Mask) })
          Mtu := intToUint64 linkAttrs.MTU
          HwAddr := linkAttrs.HardwareAddr }, none) s1

/-- The body of `updateInterface` after the link is resolved (lines 235 to 248): set the
link down when it is up, then `updateLink`; the value is the named result `err`. -/
def updateInterfaceBody {K : Type} (nl : Netlink K) (lib : NetLib) (link : Link)
    (iface : Interface) (s : State K) : Option GoError × State K :=
  match link.Attrs with
  | some lAttrs =>
    if lAttrs.Flags &&& FlagUp = FlagUp then
      match invokeErr (Call.LinkSetDown link) (nl.LinkSetDown link s.kernel) s with
      | (some err, s1) => (some err, s1)
      | (none, s1) => updateLink nl lib link iface s1
    else updateLink nl lib link iface s
  | none => updateLink nl lib link iface s

/-- The last part of the deferred function of `updateInterface` (lines 225 to 232):
set the link up and keep the earlier error when there is one; the value is `err`. -/
def restoreUp {K : Type} (nl : Netlink K) (link : Link) (err : Option GoError)
    (s : State K) : Option GoError × State K :=
  match invokeErr (Call.LinkSetUp link) (nl.LinkSetUp link s.kernel) s with
  | (retErr, s1) =>
    match err with
    | none => (retErr, s1)
    | some e => (some e, s1)

/-- The deferred function of `updateInterface` (lines 219 to 233), run with the value
`err` of the body. -/
def updateInterfaceDeferred {K : Type} (nl : Netlink K) (lib : NetLib) (link : Link)
    (iface : Interface) (err : Option GoError) (s : State K) :
    Res (Option Interface × Option GoError) (State K) :=
  match err with
  | some e =>
    match getInterface nl lib link s with
    | Res.panic s1 => Res.panic s1
    | Res.ret (resultingIfc, _) s1 =>
      Res.ret (resultingIfc, (restoreUp nl link (some e) s1).1) (restoreUp nl link (some e) s1).2
  | none =>
    Res.ret (some iface, (restoreUp nl link none s).1) (restoreUp nl link none s).2

/-- The part of `updateInterface` that runs once a handle is at hand (lines 199 to 250). -/
def updateInterfaceWith {K : Type} (nl : Netlink K) (lib : NetLib) (iface : Interface)
    (s : State K) : Res (Option Interface × Option GoError) (State K) :=
  if iface.HwAddr ≠ "" then
    match linkByHwAddr nl iface.HwAddr s with
    | (Except.error err, s1) =>
      Res.ret (none, some (GoError.wrap Code.Internal "updateInterface: %v" [] err)) s1
    | (Except.ok link, s1) =>
      updateInterfaceDeferred nl lib link iface
        (updateInterfaceBody nl lib link iface s1).1 (updateInterfaceBody nl lib link iface s1).2
  else
    Res.ret (none, some (GoError.status Code.InvalidArgument "Interface HwAddr empty" [])) s

/-- Embedding of `sandbox.updateInterface`; `netHandle` and `iface` are pointers. -/
def updateInterface {K : Type} (nl : Netlink K) (lib : NetLib) (netHandle : Option Handle)
    (iface : Option Interface) (s : State K) :
    Res (Option Interface × Option GoError) (State K) :=
  match iface with
  | none =>
    Res.ret (none, some (GoError.status Code.InvalidArgument "Provided interface is nil" [])) s
  | some iface =>
    match netHandle with
    | some _ => updateInterfaceWith nl lib iface s
    | none =>
      match invoke Call.NewHandle (nl.NewHandle s.kernel) s with
      | (Except.error err, s1) => Res.ret (none, some err) s1
      | (Except.ok h, s1) => thenDelete nl h (updateInterfaceWith nl lib iface s1)

/-- The part of `removeInterface` that runs once a handle is at hand (lines 158 to 177).
The argument `iface` is a pointer that the code dereferences unchecked; the map entry
is deleted by its key `iface.Name`. -/
def removeInterfaceWith {K : Type} (nl : Netlink K) (iface : Option Interface) (s : State K) :
    Res (Option Interface × Option GoError) (State K) :=
  match iface with
  | none => Res.panic s
  | some iface =>
    match linkByHwAddr nl iface.HwAddr s with
    | (Except.error err, s1) =>
      Res.ret (none, some (GoError.wrap Code.Internal "removeInterface: %v" [] err)) s1
    | (Except.ok link, s1) =>
      match invokeErr (Call.LinkSetDown link) (nl.LinkSetDown link s1.kernel) s1 with
      | (some err, s2) => Res.ret (some iface, some err) s2
      | (none, s2) =>
        match invokeErr (Call.LinkDel link) (nl.LinkDel link s2.kernel) s2 with
        | (some err, s3) => Res.ret (some iface, some err) s3
        | (none, s3) =>
          Res.ret (none, none)
            { s3 with ifaces := s3.ifaces.filter (fun p => decide (p.1 ≠ iface.Name)) }

/-- Embedding of `sandbox.removeInterface`; `netHandle` and `iface` are pointers. -/
def removeInterface {K : Type} (nl : Netlink K) (netHandle : Option Handle)
    (iface : Option Interface) (s : State K) :
    Res (Option Interface × Option GoError) (State K) :=
  match netHandle with
  | some _ => removeInterfaceWith nl iface s
  | none =>
    match invoke Call.NewHandle (nl.NewHandle s.kernel) s with
    | (Except.error err, s1) => Res.ret (none, some err) s1
    | (Except.ok h, s1) => thenDelete nl h (removeInterfaceWith nl iface s1)

/-! ## network.go: routes -/

/-- A value passed to `reflect.DeepEqual` by the agent: a `pb.Route` or a `*pb.Route`. -/
inductive GoValue
  | route (r : Route)
  | routePtr (p : Option Route)
  deriving DecidableEq, Repr

/-- The library function `reflect.DeepEqual`: values of distinct types are never deeply
equal; structs are equal when their fields are; pointers are equal when both are nil
or their targets are deeply equal. -/
def DeepEqual : GoValue → GoValue → Bool
  | GoValue.route a, GoValue.route b => decide (a = b)
  | GoValue.routePtr a, GoValue.routePtr b => decide (a = b)
  | _, _ => false

/-- The removal loop of `updateRoute` (lines 467 to 472): each tracked `pb.Route` is
compared with the `*pb.Route` argument, and the first equal entry is cut out. -/
def removeTracked (route : Option Route) : List Route → List Route
  | [] => []
  | sandboxRoute :: rest =>
    if DeepEqual (GoValue.route sandboxRoute) (GoValue.routePtr route) = true then rest
    else sandboxRoute :: removeTracked route rest

/-- The destination of `updateRoute` (lines 434 to 442): nil for "default" and "". -/
def routeDst (lib : NetLib) (dest : String) : Except GoError (Option NetIPNet) :=
  if dest = "default" ∨ dest = "" then Except.ok none
  else
    match lib.ParseCIDR dest with
    | Except.error err => Except.error err
    | Except.ok dst => Except.ok (some dst)

/-- The `netlink.Route` built by `updateRoute` (lines 444 to 450); `netlink.Scope` is a
`uint8`. -/
def netRoute (lib : NetLib) (route : Route) (linkIndex : Int) (dst : Option NetIPNet) : NlRoute :=
  { LinkIndex := linkIndex
    Dst := dst
    Src := lib.ParseIP route.Source
    Gw := lib.ParseIP route.Gateway
    Scope := route.Scope % 256 }

/-- The part of `updateRoute` that runs once a handle is at hand (lines 419 to 475). -/
def updateRouteWith {K : Type} (nl : Netlink K) (lib : NetLib) (route : Option Route)
    (add : Bool) (s : State K) : Option GoError × State K :=
  match route with
  | none => (some (GoError.status Code.InvalidArgument "Provided route is nil" []), s)
  | some route =>
    match invoke (Call.LinkByName route.Device) (nl.LinkByName route.Device s.kernel) s with
    | (Except.error err, s1) =>
      (some (GoError.wrap Code.Internal "Could not find link from device %s: %v"
        [route.Device] err), s1)
    | (Except.ok link, s1) =>
      match link.Attrs with
      | none =>
        (some (GoError.status Code.Internal
          "Could not get link\x27s attributes for device %s" [route.Device]), s1)
      | some linkAttrs =>
        match routeDst lib route.Dest with
        | Except.error err =>
          (some (GoError.wrap Code.Internal "Could not parse route destination %s: %v"
            [route.Dest] err), s1)
        | Except.ok dst =>
          if add = true then
            match invokeErr (Call.RouteAdd (netRoute lib route linkAttrs.Index dst))
                (nl.RouteAdd (netRoute lib route linkAttrs.Index dst) s1.kernel) s1 with
            | (some err, s2) =>
              (some (GoError.wrap Code.Internal "Could not add route dest(%s)/gw(%s)/dev(%s): %v"
                [route.Dest, route.Gateway, route.Device] err), s2)
            | (none, s2) => (none, { s2 with routes := s2.routes ++ [route] })
          else
            match invokeErr (Call.RouteDel (netRoute lib route linkAttrs.Index dst))
                (nl.RouteDel (netRoute lib route linkAttrs.Index dst) s1.kernel) s1 with
            | (some err, s2) =>
              (some (GoError.wrap Code.Internal
                "Could not remove route dest(%s)/gw(%s)/dev(%s): %v"
                [route.Dest, route.Gateway, route.Device] err), s2)
            | (none, s2) => (none, { s2 with routes := removeTracked (some route) s2.routes })

/-- Embedding of `sandbox.updateRoute`; `netHandle` and `route` are pointers. -/
def updateRoute {K : Type} (nl : Netlink K) (lib : NetLib) (netHandle : Option Handle)
    (route : Option Route) (add : Bool) (s : State K) : Option GoError × State K :=
  match netHandle with
  | some _ => updateRouteWith nl lib route add s
  | none =>
    match invoke Call.NewHandle (nl.NewHandle s.kernel) s with
    | (Except.error err, s1) => (some err, s1)
    | (Except.ok h, s1) =>
      ((updateRouteWith nl lib route add s1).1, deleteHandle nl h (updateRouteWith nl lib route add s1).2)

/-- The loop of `getCurrentRoutes` (lines 379 to 402) over the listed routes, with the
routes gathered so far. -/
def gatherRoutes {K : Type} (nl : Netlink K) (lib : NetLib) :
    List NlRoute → List Route → State K → Res (Option (List Route) × Option GoError) (State K)
  | [], routes, s => Res.ret (some routes, none) s
  | route :: rest, routes, s =>
    match invoke (Call.LinkByIndex route.LinkIndex) (nl.LinkByIndex route.LinkIndex s.kernel) s with
    | (Except.error err, s1) => Res.ret (some routes, some err) s1
    | (Except.ok link, s1) =>
      match link.Attrs with
      | none => Res.panic s1
      | some attrs =>
        gatherRoutes nl lib rest (routes ++
          [{ Dest := match route.Dst with
              | some dst => lib.IPNetString dst
              | none => ""
             Gateway := match route.Gw with
              | some gw => lib.IPString gw
              | none => ""
             Source := match route.Src with
              | some src => lib.IPString src
              | none => ""
             Scope := route.Scope
             Device := attrs.Name }]) s1

/-- Embedding of `getCurrentRoutes`.  With a nil handle the new handle is bound in the
inner scope only, so `RouteList` is then invoked through the nil handle. -/
def getCurrentRoutes {K : Type} (nl : Netlink K) (lib : NetLib) (netHandle : Option Handle)
    (s : State K) : Res (Option (List Route) × Option GoError) (State K) :=
  match netHandle with
  | none =>
    match invoke Call.NewHandle (nl.NewHandle s.kernel) s with
    | (Except.error err, s1) => Res.ret (none, some err) s1
    | (Except.ok h, s1) => Res.panic (deleteHandle nl h s1)
  | some _ =>
    match invoke Call.RouteList (nl.RouteList s.kernel) s with
    | (Except.error err, s1) => Res.ret (some [], some err) s1
    | (Except.ok finalRouteList, s1) => gatherRoutes nl lib finalRouteList [] s1

/-- The delete pass of `updateRoutes` (lines 312 to 326); the value is `err`.  The
error of `LinkByIndex` is discarded, and with an error the returned link is nil. -/
def deleteInitRoutes {K : Type} (nl : Netlink K) :
    List NlRoute → State K → Res (Option GoError) (State K)
  | [], s => Res.ret none s
  | initRoute :: rest, s =>
    match invoke (Call.LinkByIndex initRoute.LinkIndex)
        (nl.LinkByIndex initRoute.LinkIndex s.kernel) s with
    | (Except.error _, s1) => Res.panic s1
    | (Except.ok link, s1) =>
      match link.Attrs with
      | none => Res.panic s1
      | some attrs =>
        if attrs.Name = "lo" ∨ attrs.Name = "::1" then deleteInitRoutes nl rest s1
        else
          match invokeErr (Call.RouteDel initRoute) (nl.RouteDel initRoute s1.kernel) s1 with
          | (some err, s2) => Res.ret (some err) s2
          | (none, s2) => deleteInitRoutes nl rest s2

/-- One apply pass of `updateRoutes` (lines 333 to 344 with `sel` the test
`Gateway == ""`, lines 346 to 356 with `sel` the test `Gateway != ""`). -/
def applyRoutes {K : Type} (nl : Netlink K) (lib : NetLib) (netHandle : Handle)
    (sel : Route → Bool) : List Route → State K → Option GoError × State K
  | [], s => (none, s)
  | reqRoute :: rest, s =>
    if sel reqRoute = true then
      match updateRoute nl lib (some netHandle) (some reqRoute) true s with
      | (some err, s1) => (some err, s1)
      | (none, s1) => applyRoutes nl lib netHandle sel rest s1
    else applyRoutes nl lib netHandle sel rest s

/-- The test `reqRoute.Gateway == ""` of the first pass. -/
def noGateway (r : Route) : Bool := decide (r.Gateway = "")

/-- The test `reqRoute.Gateway != ""` of the second pass. -/
def hasGateway (r : Route) : Bool := decide (r.Gateway ≠ "")

/-- The body of `updateRoutes` (lines 308 to 358) with a handle at hand; the value is
the pair of named results at the return. -/
def updateRoutesBody {K : Type} (nl : Netlink K) (lib : NetLib) (netHandle : Handle)
    (requestedRoutes : List Route) (s : State K) :
    Res (Option (List Route) × Option GoError) (State K) :=
  match invoke Call.RouteList (nl.RouteList s.kernel) s with
  | (Except.error err, s1) => Res.ret (none, some err) s1
  | (Except.ok initRouteList, s1) =>
    match deleteInitRoutes nl initRouteList s1 with
    | Res.panic s2 => Res.panic s2
    | Res.ret (some err) s2 => Res.ret (none, some err) s2
    | Res.ret none s2 =>
      match applyRoutes nl lib netHandle noGateway requestedRoutes s2 with
      | (some err, s3) => Res.ret (none, some err) s3
      | (none, s3) =>
        match applyRoutes nl lib netHandle hasGateway requestedRoutes s3 with
        | (some err, s4) => Res.ret (none, some err) s4
        | (none, s4) => Res.ret (some requestedRoutes, none) s4

/-- The deferred function of `updateRoutes` (lines 296 to 300): with an error the
result is replaced by what `getCurrentRoutes` returns, whose own error is dropped. -/
def updateRoutesDeferred {K : Type} (nl : Netlink K) (lib : NetLib) (netHandle : Handle) :
    Res (Option (List Route) × Option GoError) (State K) →
    Res (Option (List Route) × Option GoError) (State K)
  | Res.panic s => Res.panic s
  | Res.ret (resultingRoutes, none) s => Res.ret (resultingRoutes, none) s
  | Res.ret (_, some err) s =>
    match getCurrentRoutes nl lib (some netHandle) s with
    | Res.panic s1 => Res.panic s1
    | Res.ret (resultingRoutes, _) s1 => Res.ret (resultingRoutes, some err) s1

/-- Embedding of `sandbox.updateRoutes`; `requestedRoutes` is a non-nil `*pb.Routes`,
given by its `Routes` field. -/
def updateRoutes {K : Type} (nl : Netlink K) (lib : NetLib) (netHandle : Option Handle)
    (requestedRoutes : List Route) (s : State K) :
    Res (Option (List Route) × Option GoError) (State K) :=
  match netHandle with
  | some h => updateRoutesDeferred nl lib h (updateRoutesBody nl lib h requestedRoutes s)
  | none =>
    match invoke Call.NewHandle (nl.NewHandle s.kernel) s with
    | (Except.error err, s1) => Res.ret (none, some err) s1
    | (Except.ok h, s1) =>
      thenDelete nl h (updateRoutesDeferred nl lib h (updateRoutesBody nl lib h requestedRoutes s1))

/-! ## Reading outcomes and traces -/

/-- The state an outcome ends in. -/
def Res.state {α σ : Type} : Res α σ → σ
  | Res.ret _ s => s
  | Res.panic s => s

/-- The returned value of an outcome, `none` for a panic. -/
def Res.value? {α σ : Type} : Res α σ → Option α
  | Res.ret a _ => some a
  | Res.panic _ => none

/-- The events a run added to the trace, given the state it started from. -/
def newEvents {K : Type} (s s1 : State K) : List Event := s1.trace.drop s.trace.length

/-- The arguments of the `RouteAdd` calls among some events, in order. -/
def routeAdds : List Event → List NlRoute
  | [] => []
  | e :: rest =>
    match e.call with
    | Call.RouteAdd r => r :: routeAdds rest
    | _ => routeAdds rest

/-- The arguments of the `RouteDel` calls among some events, in order. -/
def routeDels : List Event → List NlRoute
  | [] => []
  | e :: rest =>
    match e.call with
    | Call.RouteDel r => r :: routeDels rest
    | _ => routeDels rest

/-! ## A concrete kernel

A small executable kernel used to evaluate the embedding on concrete inputs: it keeps
links, routes and addresses, and fails with `EIO` every call listed in `failing`. -/

/-- State of the concrete kernel. -/
structure Sim where
  links : List Link
  routes : List NlRoute
  addrs : List (Int × Addr)
  failing : List Call
  deriving DecidableEq, Repr

/-- The errno `EIO`. -/
def EIO : GoError := GoError.errno 5

/-- The errno `ENODEV`. -/
def ENODEV : GoError := GoError.errno 19

/-- An error-only call of the concrete kernel: fail when listed, else apply `f`. -/
def Sim.run (c : Call) (f : Sim → Sim) (k : Sim) : Option GoError × Sim :=
  if c ∈ k.failing then (some EIO, k) else (none, f k)

/-- A value-returning call of the concrete kernel. -/
def Sim.ask {α : Type} (c : Call) (f : Sim → Except GoError α) (k : Sim) : Except GoError α × Sim :=
  if c ∈ k.failing then (Except.error EIO, k) else (f k, k)

/-- Look a link up by a predicate on its attributes. -/
def Sim.find (p : LinkAttrs → Bool) (k : Sim) : Except GoError Link :=
  match k.links.find? (fun l => p l.attrs) with
  | some l => Except.ok l
  | none => Except.error ENODEV

/-- Rewrite the attributes of the link with the index of `link`. -/
def Sim.setAttrs (link : Link) (f : LinkAttrs → LinkAttrs) (k : Sim) : Sim :=
  { k with links := k.links.map (fun l =>
      if l.attrs.Index = link.attrs.Index then Link.mk (f l.attrs) else l) }

/-- The concrete kernel as a netlink implementation. -/
def simNetlink : Netlink Sim where
  NewHandle := Sim.ask Call.NewHandle (fun _ => Except.ok (Handle.mk 1))
  Delete := fun _ k => k
  LinkList := Sim.ask Call.LinkList (fun k => Except.ok k.links)
  LinkByIndex := fun i => Sim.ask (Call.LinkByIndex i) (Sim.find (fun a => decide (a.Index = i)))
  LinkByName := fun n => Sim.ask (Call.LinkByName n) (Sim.find (fun a => decide (a.Name = n)))
  LinkSetUp := fun l => Sim.run (Call.LinkSetUp l)
    (Sim.setAttrs l (fun a => { a with Flags := a.Flags ||| FlagUp }))
  LinkSetDown := fun l => Sim.run (Call.LinkSetDown l)
    (Sim.setAttrs l (fun a => { a with Flags := a.Flags - (a.Flags &&& FlagUp) }))
  LinkSetName := fun l n => Sim.run (Call.LinkSetName l n)
    (Sim.setAttrs l (fun a => { a with Name := n }))
  LinkSetMTU := fun l m => Sim.run (Call.LinkSetMTU l m)
    (Sim.setAttrs l (fun a => { a with MTU := m }))
  LinkDel := fun l => Sim.run (Call.LinkDel l)
    (fun k => { k with links := k.links.filter (fun x => decide (x.attrs.Index ≠ l.attrs.Index)) })
  AddrList := fun l => Sim.ask (Call.AddrList l)
    (fun k => Except.ok ((k.addrs.filter (fun p => decide (p.1 = l.attrs.Index))).map Prod.snd))
  AddrDel := fun l a => Sim.run (Call.AddrDel l a)
    (fun k => { k with addrs := k.addrs.erase (l.attrs.Index, a) })
  AddrAdd := fun l a => Sim.run (Call.AddrAdd l a)
    (fun k => { k with addrs := k.addrs ++ [(l.attrs.Index, a)] })
  RouteList := Sim.ask Call.RouteList (fun k => Except.ok k.routes)
  RouteAdd := fun r => Sim.run (Call.RouteAdd r) (fun k => { k with routes := k.routes ++ [r] })
  RouteDel := fun r => Sim.run (Call.RouteDel r) (fun k => { k with routes := k.routes.erase r })

/-- The errno `EINVAL`, returned by the table parsers for a text they do not know. -/
def EINVAL : GoError := GoError.errno 22

/-- A library that parses by table: the network "10.0.0.0/24", the address
"10.0.0.2/24" and the addresses "10.0.0.1" and "10.0.0.2"; every other text is
rejected. -/
def tableLib : NetLib where
  ParseAddr := fun t =>
    if t = "10.0.0.2/24" then Except.ok { IP := NetIP.mk [10, 0, 0, 2], Mask := [255, 255, 255, 0] }
    else Except.error EINVAL
  ParseCIDR := fun t =>
    if t = "10.0.0.0/24" then Except.ok { IP := NetIP.mk [10, 0, 0, 0], Mask := [255, 255, 255, 0] }
    else Except.error EINVAL
  ParseIP := fun t =>
    if t = "10.0.0.1" then some (NetIP.mk [10, 0, 0, 1])
    else if t = "10.0.0.2" then some (NetIP.mk [10, 0, 0, 2])
    else none
  IPString := fun ip => ".".intercalate (ip.bytes.map toString)
  IPNetString := fun n =>
    ".".intercalate (n.IP.bytes.map toString) ++ "/" ++
      toString ((n.Mask.filter (fun b => decide (b = 255))).length * 8)
  MaskSize := fun m => (m.filter (fun b => decide (b = 255))).length * 8

/-- The link `eth0` of the concrete examples: index 2, down. -/
def eth0 : Link :=
  Link.mk { Index := 2, MTU := 1500, Name := "eth0", HardwareAddr := "02:00:ca:fe:00:01", Flags := 0 }

/-- The loopback link of the concrete examples. -/
def lo : Link :=
  Link.mk { Index := 1, MTU := 65536, Name := "lo", HardwareAddr := "", Flags := 1 }

/-- A handle passed in by the caller in the concrete examples. -/
def h0 : Handle := Handle.mk 0

/-- A start state over the concrete kernel with an empty trace and empty sandbox. -/
def simState (k : Sim) : State Sim := { kernel := k, trace := [], routes := [], ifaces := [] }

/-- An on-link route through `eth0`. -/
def routeDirect : Route :=
  { Dest := "10.0.0.0/24", Gateway := "", Device := "eth0", Source := "", Scope := 253 }

/-- A default route through the gateway 10.0.0.1 on `eth0`. -/
def routeViaGw : Route :=
  { Dest := "default", Gateway := "10.0.0.1", Device := "eth0", Source := "", Scope := 0 }

/-- A route whose destination text is no network prefix. -/
def routeBadDest : Route :=
  { Dest := "bogus", Gateway := "", Device := "eth0", Source := "", Scope := 0 }

/-- The order in which the two passes of `updateRoutes` visit the requested routes:
those without a gateway in input order, then those with a gateway in input order. -/
def twoPass (requestedRoutes : List Route) : List Route :=
  requestedRoutes.filter noGateway ++ requestedRoutes.filter hasGateway

/-- A `RouteAdd` argument renders a requested route: it is the `netlink.Route` that
`updateRoute` builds from the route, for the link index it carries. -/
def Renders (lib : NetLib) (nr : NlRoute) (r : Route) : Prop :=
  ∃ dst, routeDst lib r.Dest = Except.ok dst ∧ nr = netRoute lib r nr.LinkIndex dst

/-- A concrete kernel with the links `lo` and `eth0`, one route on each, and no
failing call. -/
def simTwoLinks : Sim :=
  { links := [lo, eth0]
    routes := [{ LinkIndex := 1, Dst := none, Src := none, Gw := none, Scope := 254 },
               { LinkIndex := 2, Dst := none, Src := none, Gw := none, Scope := 0 }]
    addrs := []
    failing := [] }

/-- Two calls of `updateRoutes` in succession with the same input: the second starts in
the state the first ended in. -/
def updateRoutesTwice {K : Type} (nl : Netlink K) (lib : NetLib) (netHandle : Option Handle)
    (requestedRoutes : List Route) (s : State K) :
    Res (Option (List Route) × Option GoError) (State K) :=
  updateRoutes nl lib netHandle requestedRoutes
    (updateRoutes nl lib netHandle requestedRoutes s).state

/-- A concrete kernel whose first listed route names the link index 7, which no link
has; the second route is on `eth0`. -/
def simDangling : Sim :=
  { links := [lo, eth0]
    routes := [{ LinkIndex := 7, Dst := none, Src := none, Gw := none, Scope := 0 },
               { LinkIndex := 2, Dst := none, Src := none, Gw := none, Scope := 0 }]
    addrs := []
    failing := [] }

/-- A request that names an interface by name only: no hardware address. -/
def ifaceNameOnly : Interface :=
  { Device := "eth0", Name := "eth0", IPAddresses := [], Mtu := 1500, HwAddr := "" }

/-- A request for the link `eth0` by its hardware address: a new name, MTU and address. -/
def ifaceRequest : Interface :=
  { Device := "eth0", Name := "net0", Mtu := 1400, HwAddr := "02:00:ca:fe:00:01"
    IPAddresses := [{ Family := 0, Address := "10.0.0.2", Mask := "24" }] }

/-- The state in which a call has a handle at hand: the start state when a handle was
passed in, the state after a successful `NewHandle` when none was. -/
def handleReady {K : Type} (nl : Netlink K) (netHandle : Option Handle) (s s0 : State K) : Prop :=
  (∃ h, netHandle = some h ∧ s0 = s) ∨
  (netHandle = none ∧ ∃ h, invoke Call.NewHandle (nl.NewHandle s.kernel) s = (Except.ok h, s0))

/-- A concrete kernel with the links `lo` and `eth0` on which setting `eth0` up fails. -/
def simNoSetUp : Sim :=
  { links := [lo, eth0], routes := [], addrs := [], failing := [Call.LinkSetUp eth0] }

/-- A concrete kernel with the links `lo` and `eth0` on which renaming `eth0` to "net0"
fails. -/
def simNoRename : Sim :=
  { links := [lo, eth0], routes := [], addrs := [], failing := [Call.LinkSetName eth0 "net0"] }

/-- A run stops at its first failed call: an event with an error has no event after it. -/
def FailStops : List Event → Prop
  | [] => True
  | e :: rest => (e.err ≠ none → rest = []) ∧ FailStops rest

/-- The handle a call works with and the state in which it has it at hand: the handle
passed in and the start state, or the handle a successful `NewHandle` returned and
the state after that call. -/
def handleReadyWith {K : Type} (nl : Netlink K) (netHandle : Option Handle) (s : State K)
    (h : Handle) (s0 : State K) : Prop :=
  (netHandle = some h ∧ s0 = s) ∨
  (netHandle = none ∧ invoke Call.NewHandle (nl.NewHandle s.kernel) s = (Except.ok h, s0))

/-- A concrete kernel with the links `lo` and `eth0` and a route on each, on which
deleting the route on `eth0` fails. -/
def simNoRouteDel : Sim :=
  { simTwoLinks with
    failing := [Call.RouteDel { LinkIndex := 2, Dst := none, Src := none, Gw := none, Scope := 0 }] }

/-- The state of the concrete examples after the initial `RouteList` of `updateRoutes`
on the kernel `k`. -/
def simListed (k : Sim) : State Sim :=
  (invoke Call.RouteList (simNetlink.RouteList (simState k).kernel) (simState k)).2

/-- The state of the concrete examples after the delete pass on the kernel `k`. -/
def simDeleted (k : Sim) : State Sim :=
  (deleteInitRoutes simNetlink k.routes (simListed k)).state

/-- The state of the concrete examples after the delete pass and the application of
`routeDirect` on the kernel `k`. -/
def simApplied (k : Sim) : State Sim :=
  (applyRoutes simNetlink tableLib h0 (fun _ => true) [routeDirect] (simDeleted k)).2

/-- The error `updateRoute` returns for `routeBadDest` with the table library. -/
def badDestError : GoError :=
  GoError.wrap Code.Internal "Could not parse route destination %s: %v" ["bogus"] EINVAL

/-- A concrete kernel with the links `lo` and `eth0` on which no handle can be made. -/
def simNoHandle : Sim :=
  { links := [lo, eth0], routes := [], addrs := [], failing := [Call.NewHandle] }

/-- The error `updateInterface` returns for a request without hardware address. -/
def hwAddrEmptyError : GoError :=
  GoError.status Code.InvalidArgument "Interface HwAddr empty" []

/-- The error `updateLink` returns on the concrete kernel that cannot rename `eth0`. -/
def renameError : GoError :=
  GoError.wrap Code.Internal "Could not set name %s for interface %v: %v" ["net0"] EIO

/-- The state of the concrete examples after `linkByHwAddr` for `ifaceRequest` on the
kernel `k`. -/
def simResolved (k : Sim) : State Sim :=
  (linkByHwAddr simNetlink ifaceRequest.HwAddr (simState k)).2

/-- A request naming a hardware address that no link of the concrete kernels has. -/
def ifaceUnknown : Interface :=
  { Device := "eth9", Name := "eth9", IPAddresses := [], Mtu := 1500,
    HwAddr := "02:00:ca:fe:00:99" }

/-- The failure `linkByHwAddr` produces when no link has the hardware address. -/
def linkNotFound (hwAddr : String) : GoError :=
  GoError.status Code.NotFound "Could not find the link corresponding to HwAddr %q" [hwAddr]

/-- The path of the "name" file of a port. -/
def portNamePath (env : SerialEnv) (port : String) : String :=
  env.Join [env.virtIOPath, port, "name"]

/-- The search passes over a port: its "name" file does not exist, or it was read and
does not contain the channel name. -/
def portPassedOver (env : SerialEnv) (serialName port : String) : Prop :=
  env.ReadFile (portNamePath env port) = Except.error 2 ∨
  ∃ content, env.ReadFile (portNamePath env port) = Except.ok content ∧
    Contains content serialName = false

/-- A port matches: its "name" file was read and contains the channel name. -/
def portMatches (env : SerialEnv) (serialName port : String) : Prop :=
  ∃ content, env.ReadFile (portNamePath env port) = Except.ok content ∧
    Contains content serialName = true

/-- Reading the "name" file of a port fails with an errno other than `ENOENT`. -/
def portBroken (env : SerialEnv) (port : String) (n : Nat) : Prop :=
  env.ReadFile (portNamePath env port) = Except.error n ∧ n ≠ 2

/-- A concrete surrounding for the serial search: three ports, the first without a
"name" file, the second named for another channel, the third for the agent channel;
a fourth port whose "name" file cannot be read. -/
def serialEnv (ports : List String) : SerialEnv where
  virtIOPath := "/sys/class/virtio-ports"
  devRootPath := "/dev"
  Join := fun parts => "/".intercalate parts
  Open := fun _ => none
  Readdirnames := Except.ok ports
  ReadFile := fun path =>
    if path = "/sys/class/virtio-ports/vport0p1/name" then Except.ok "org.qemu.guest_agent.0\n"
    else if path = "/sys/class/virtio-ports/vport0p2/name" then Except.ok "agent.channel.0\n"
    else if path = "/sys/class/virtio-ports/vport0p3/name" then Except.error 13
    else Except.error 2

/-- An `EpollWait` result after which the loop of `wait` keeps waiting: no event, an
event for another descriptor, or an event on the serial descriptor with neither the
output-ready nor the error bit (such as a hang-up alone). -/
def keepsWaiting (fd : Nat) : EpollResult → Bool
  | Except.error _ => false
  | Except.ok none => true
  | Except.ok (some ev) =>
    decide (ev.Fd ≠ int32OfUintptr fd) ||
      (decide (ev.Events &&& EPOLLOUT = 0) && decide (ev.Events &&& EPOLLERR = 0))

/-- The failure `wait` returns for an error event. -/
def serialFailure : GoError := GoError.plain "serial port IO failure"

/-- Set-up calls that succeed, for the concrete examples of `wait`. -/
def epollReady : EpollSys where
  EpollCreate1 := Except.ok 3
  EpollCtl := fun _ _ => none

/-! ## Device handling

The file that defines `addDevice` is not among the source files; its test file is.  The
handler type and the handler table are taken from the test file, `addDevice` from the
specification. -/

/-- Protocol message `pb.Device`, with the fields the tests set; the field `Type` is
written `Type_`. -/
structure Device where
  Id : String
  Type_ : String
  VmPath : String
  ContainerPath : String
  Options : List String
  deriving DecidableEq, Repr

/-- The type `deviceHandler` of the test file: a handler gets the device, the OCI spec
and the sandbox, may change the latter two (the abstract state `σ`) and returns an
`error`. -/
abbrev deviceHandler (σ : Type) := Device → σ → Option GoError × σ

/-- The state `addDevice` runs in: the OCI spec and sandbox, and the types of the
devices whose handler was invoked so far. -/
structure DevState (σ : Type) where
  st : σ
  invoked : List String

/-- The invalid-argument failure of a validation step of `addDevice`. -/
def invalidDevice (what : String) : GoError :=
  GoError.status Code.InvalidArgument "invalid device: %s" [what]

/-- Modelled from the spec: `addDevice`, whose source file is missing.  The spec (4.2
and 8) says it validates one descriptor (non-nil, type present, container-path
present, id or vm-path present), looks up `deviceHandlerList[device.type]` and invokes
it; a missing handler and every violated requirement is an invalid-argument failure
returned before any handler is invoked, and the failure of the handler propagates
unchanged.  The order of the checks and the texts of the failures are not given by
the spec. -/
def addDevice {σ : Type} (deviceHandlerList : String → Option (deviceHandler σ))
    (device : Option Device) (s : DevState σ) : Option GoError × DevState σ :=
  match device with
  | none => (some (invalidDevice "nil device"), s)
  | some d =>
    if d.Type_ = "" then (some (invalidDevice "missing type"), s)
    else if d.Id = "" ∧ d.VmPath = "" then (some (invalidDevice "missing id and vm-path"), s)
    else if d.ContainerPath = "" then (some (invalidDevice "missing container-path"), s)
    else
      match deviceHandlerList d.Type_ with
      | none => (some (invalidDevice "unknown device type"), s)
      | some devHandler =>
        ((devHandler d s.st).1,
          { st := (devHandler d s.st).2, invoked := s.invoked ++ [d.Type_] })

/-- The requirements of `addDevice` on a descriptor, as the claim lists them: non-nil,
type non-empty and present in the handler table, container-path non-empty, and id or
vm-path non-empty. -/
def validDevice {σ : Type} (deviceHandlerList : String → Option (deviceHandler σ)) :
    Option Device → Bool
  | none => false
  | some d =>
    decide (d.Type_ ≠ "") && (deviceHandlerList d.Type_).isSome &&
      decide (d.ContainerPath ≠ "") && (decide (d.Id ≠ "") || decide (d.VmPath ≠ ""))

/-- The handler `noopDeviceHandlerReturnNil` of the test file. -/
def noopDeviceHandlerReturnNil : deviceHandler Unit := fun _ st => (none, st)

/-- The handler table of `TestAddDevice`: the tag "noop" with the handler that returns
nil. -/
def noopHandlerList : String → Option (deviceHandler Unit) :=
  fun tag => if tag = "noop" then some noopDeviceHandlerReturnNil else none

/-- A device with every field empty, as `&pb.Device{}`. -/
def emptyDevice : Device :=
  { Id := "", Type_ := "", VmPath := "", ContainerPath := "", Options := [] }

/-- The table of `TestAddDevice`: each device with the expected `expectError`. -/
def testAddDeviceData : List (Option Device × Bool) :=
  [ (none, true),
    (some emptyDevice, true),
    (some { emptyDevice with Id := "foo" }, true),
    (some { emptyDevice with Id := "foo" }, true),
    (some { emptyDevice with VmPath := "/foo", ContainerPath := "/foo" }, true),
    (some { emptyDevice with Type_ := "noop", ContainerPath := "/foo" }, true),
    (some { emptyDevice with Type_ := "noop", VmPath := "/foo" }, true),
    (some { emptyDevice with Type_ := "noop", VmPath := "/foo", ContainerPath := "/foo" }, false),
    (some { emptyDevice with Id := "foo", Type_ := "noop", ContainerPath := "/foo" }, false),
    (some { emptyDevice with Id := "foo", Type_ := "noop", VmPath := "/foo",
                             ContainerPath := "/foo" }, false),
    (some { emptyDevice with Id := "foo", Type_ := "noop", VmPath := "/foo",
                             ContainerPath := "/foo" }, false),
    (some { emptyDevice with Type_ := "noop", VmPath := "/foo", ContainerPath := "/foo" }, false) ]

/-- A concrete kernel on which `eth0` carries the address 10.0.0.1/24. -/
def simWithAddr : Sim :=
  { links := [lo, eth0], routes := []
    addrs := [(2, { IP := NetIP.mk [10, 0, 0, 1], Mask := [255, 255, 255, 0] })]
    failing := [] }

/-- The `pb.Route` that `getCurrentRoutes` builds for a kernel route (lines 380 to 399),
given the name of the link of the route. -/
def renderRoute (lib : NetLib) (route : NlRoute) (device : String) : Route :=
  { Dest := match route.Dst with
      | some dst => lib.IPNetString dst
      | none => ""
    Gateway := match route.Gw with
      | some gw => lib.IPString gw
      | none => ""
    Source := match route.Src with
      | some src => lib.IPString src
      | none => ""
    Scope := route.Scope
    Device := device }

/-- What the kernel reports for listed routes: each route, in order, in protocol format
with the name of the link that `LinkByIndex` returns for its link index, up to the
first lookup that fails. -/
def reportedRoutes {K : Type} (nl : Netlink K) (lib : NetLib) : List NlRoute → K → List Route
  | [], _ => []
  | route :: rest, k =>
    match nl.LinkByIndex route.LinkIndex k with
    | (Except.ok link, k1) =>
      renderRoute lib route link.attrs.Name :: reportedRoutes nl lib rest k1
    | (Except.error _, _) => []

/-- The routing table of the kernel in the state `k`, in protocol format: the routes
`RouteList` returns, as `reportedRoutes` renders them; empty when the listing fails. -/
def kernelTable {K : Type} (nl : Netlink K) (lib : NetLib) (k : K) : List Route :=
  match nl.RouteList k with
  | (Except.ok finalRouteList, k1) => reportedRoutes nl lib finalRouteList k1
  | (Except.error _, _) => []

/-- The `RouteAdd` arguments the kernel receives when the given routes are applied in
order from the kernel state `k`: each route as the `netlink.Route` of `updateRoute`
with the index of the link that `LinkByName` returns for its device, the kernel moving
on through every call; the list ends at the first route that is not added. -/
def appliedAdds {K : Type} (nl : Netlink K) (lib : NetLib) : List Route → K → List NlRoute
  | [], _ => []
  | r :: rest, k =>
    match nl.LinkByName r.Device k with
    | (Except.error _, _) => []
    | (Except.ok link, k1) =>
      match routeDst lib r.Dest with
      | Except.error _ => []
      | Except.ok dst =>
        match nl.RouteAdd (netRoute lib r link.attrs.Index dst) k1 with
        | (some _, _) => []
        | (none, k2) => netRoute lib r link.attrs.Index dst :: appliedAdds nl lib rest k2

/-- A concrete kernel with the links `lo` and `eth0` on which setting the MTU of `eth0`
to 1400 fails. -/
def simNoMTU : Sim :=
  { links := [lo, eth0], routes := [], addrs := [], failing := [Call.LinkSetMTU eth0 1400] }

/-- The error `updateLink` returns on the concrete kernel that cannot set the MTU. -/
def mtuError : GoError :=
  GoError.wrap Code.Internal "Could not set MTU %d for interface %v: %v" ["1400"] EIO

/-! ## Transport selection: theorems -/

/-- C1: `newChannel` selects the vsock channel exactly when the socket-family probe
reports `(true, nil)` and the device-path probe reports `(true, nil)`; it selects the
serial channel exactly when the family probe reports unsupported (and then `os.Stat` is
never issued) or the family is supported and the device path does not exist; it returns
an error and no channel exactly when a probe that was consulted returned that error; and
an `EAFNOSUPPORT` socket error is reported as unsupported, not as an error. -/
theorem newChannel_selection (sys : Sys) (t : List SysCall) :
    ((newChannel sys t).1 = (some Channel.vSockChannel, none) ↔
        (isAFVSockSupported sys t).1 = (true, none) ∧
        (vSockPathExist sys (isAFVSockSupported sys t).2).1 = (true, none))
    ∧ ((isAFVSockSupported sys t).1 = (false, none) →
        newChannel sys t = ((some Channel.serialChannel, none), t ++ [SysCall.Socket]))
    ∧ ((newChannel sys t).1 = (some Channel.serialChannel, none) ↔
        (isAFVSockSupported sys t).1 = (false, none) ∨
        ((isAFVSockSupported sys t).1 = (true, none) ∧
          (vSockPathExist sys (isAFVSockSupported sys t).2).1 = (false, none)))
    ∧ (∀ err, (newChannel sys t).1 = (none, some err) ↔
        (isAFVSockSupported sys t).1.2 = some err ∨
        ((isAFVSockSupported sys t).1 = (true, none) ∧
          (vSockPathExist sys (isAFVSockSupported sys t).2).1.2 = some err))
    ∧ ((newChannel sys t).1.1 = none ↔ (newChannel sys t).1.2 ≠ none)
    ∧ (sys.Socket = Except.error EAFNOSUPPORT →
        (isAFVSockSupported sys t).1 = (false, none)) := by
  unfold newChannel isAFVSockSupported vSockPathExist
  rcases hs : sys.Socket with err | fd
  · by_cases he : err = EAFNOSUPPORT
    · simp [he]
    · simp [he]
  · rcases hc : sys.Close fd with _ | cerr
    · rcases hst : sys.Stat with _ | serr
      · simp [hc, hst]
      · by_cases hn : IsNotExist serr = true
        · simp [hc, hst, hn]
        · simp [hc, hst, hn]
    · simp [hc]

/-! ## Routes: theorems -/

/-- `reflect.DeepEqual` never equates a `pb.Route` with a `*pb.Route`. -/
theorem DeepEqual_route_routePtr (a : Route) (p : Option Route) :
    DeepEqual (GoValue.route a) (GoValue.routePtr p) = false := rfl

/-- The removal loop leaves every tracked list as it is. -/
theorem removeTracked_eq (route : Option Route) (l : List Route) :
    removeTracked route l = l := by
  induction l with
  | nil => rfl
  | cons a rest ih => simp [removeTracked, DeepEqual_route_routePtr, ih]

/-- What `updateRoute(route, add=true)` does with a handle at hand: either it succeeds,
having issued `LinkByName` and `RouteAdd` successfully and appended the route to the
tracked list, or it fails with an internal error, the tracked list unchanged, because a
call failed or the destination did not parse; no `RouteAdd` succeeded then. -/
theorem updateRouteWith_add_spec {K : Type} (nl : Netlink K) (lib : NetLib) (r : Route)
    (s : State K) :
    ∃ evs, (updateRouteWith nl lib (some r) true s).2.trace = s.trace ++ evs ∧
      routeDels evs = [] ∧
      (((updateRouteWith nl lib (some r) true s).1 = none ∧
          (updateRouteWith nl lib (some r) true s).2.routes = s.routes ++ [r] ∧
          (∀ e ∈ evs, e.err = none) ∧
          ∃ idx dst, routeDst lib r.Dest = Except.ok dst ∧
            routeAdds evs = [netRoute lib r idx dst])
        ∨ (∃ err, (updateRouteWith nl lib (some r) true s).1 = some err ∧
          (updateRouteWith nl lib (some r) true s).2.routes = s.routes ∧
          err.code? = some Code.Internal ∧
          ((∃ e ∈ evs, e.err ≠ none) ∨ ∃ perr, routeDst lib r.Dest = Except.error perr) ∧
          (∀ e ∈ evs, e.err = none → ∀ nr, e.call ≠ Call.RouteAdd nr))) := by
  unfold updateRouteWith
  simp only [invoke, invokeErr, Link.Attrs]
  rcases hl : nl.LinkByName r.Device s.kernel with ⟨res, k⟩
  cases res with
  | error e =>
    refine ⟨[Event.mk (Call.LinkByName r.Device) (some e)], ?_, ?_, Or.inr ?_⟩
    · simp [errOf]
    · simp [routeDels]
    · simp [errOf, GoError.code?]
  | ok link =>
    rcases hd : routeDst lib r.Dest with perr | dst
    · refine ⟨[Event.mk (Call.LinkByName r.Device) none], ?_, ?_, Or.inr ?_⟩
      · simp [errOf]
      · simp [routeDels]
      · simp [errOf, GoError.code?]
    · rcases ha : nl.RouteAdd (netRoute lib r link.attrs.Index dst) k with ⟨aerr, k2⟩
      cases aerr with
      | none =>
        refine ⟨[Event.mk (Call.LinkByName r.Device) none,
          Event.mk (Call.RouteAdd (netRoute lib r link.attrs.Index dst)) none], ?_, ?_, Or.inl ?_⟩
        · simp [errOf, ha]
        · simp [routeDels]
        · simp only [errOf, ha, routeAdds]
          simp
          exact ⟨_, rfl⟩
      | some e =>
        refine ⟨[Event.mk (Call.LinkByName r.Device) none,
          Event.mk (Call.RouteAdd (netRoute lib r link.attrs.Index dst)) (some e)], ?_, ?_, Or.inr ?_⟩
        · simp [errOf, ha]
        · simp [routeDels]
        · simp [errOf, ha, GoError.code?]

theorem routeAdds_append (a b : List Event) : routeAdds (a ++ b) = routeAdds a ++ routeAdds b := by
  induction a with
  | nil => rfl
  | cons e rest ih =>
    simp only [List.cons_append, routeAdds]
    split <;> simp [ih]

theorem routeDels_append (a b : List Event) : routeDels (a ++ b) = routeDels a ++ routeDels b := by
  induction a with
  | nil => rfl
  | cons e rest ih =>
    simp only [List.cons_append, routeDels]
    split <;> simp [ih]

/-- A pass with a selector applies, in order, the routes the selector keeps. -/
theorem applyRoutes_filter {K : Type} (nl : Netlink K) (lib : NetLib) (h : Handle)
    (sel : Route → Bool) (l : List Route) (s : State K) :
    applyRoutes nl lib h sel l s = applyRoutes nl lib h (fun _ => true) (l.filter sel) s := by
  induction l generalizing s with
  | nil => rfl
  | cons r rest ih =>
    by_cases hsel : sel r = true
    · simp only [applyRoutes, hsel, List.filter_cons_of_pos, if_true]
      rcases updateRoute nl lib (some h) (some r) true s with ⟨e, s1⟩
      cases e with
      | none => exact ih s1
      | some e => rfl
    · rw [List.filter_cons_of_neg hsel]
      simp only [applyRoutes, hsel]
      simpa using ih s

/-- Applying a concatenation: the first part, then, when it succeeded, the second. -/
theorem applyRoutes_append {K : Type} (nl : Netlink K) (lib : NetLib) (h : Handle)
    (a b : List Route) (s : State K) :
    applyRoutes nl lib h (fun _ => true) (a ++ b) s =
      match applyRoutes nl lib h (fun _ => true) a s with
      | (some err, s1) => (some err, s1)
      | (none, s1) => applyRoutes nl lib h (fun _ => true) b s1 := by
  induction a generalizing s with
  | nil => rfl
  | cons r rest ih =>
    simp only [List.cons_append, applyRoutes, if_true]
    rcases updateRoute nl lib (some h) (some r) true s with ⟨e, s1⟩
    cases e with
    | none => exact ih s1
    | some e => rfl

/-- Applying a sequence of routes: either all are applied, every call succeeding, the
tracked list growing by the sequence and the `RouteAdd` calls rendering it in order; or
the run stops with an internal error at a failed call or an unparsable destination,
the tracked list having grown by a prefix of the sequence. -/
theorem applyRoutes_spec {K : Type} (nl : Netlink K) (lib : NetLib) (h : Handle)
    (seq : List Route) (s : State K) :
    ∃ evs, (applyRoutes nl lib h (fun _ => true) seq s).2.trace = s.trace ++ evs ∧
      routeDels evs = [] ∧
      (((applyRoutes nl lib h (fun _ => true) seq s).1 = none ∧
          (applyRoutes nl lib h (fun _ => true) seq s).2.routes = s.routes ++ seq ∧
          (∀ e ∈ evs, e.err = none) ∧
          List.Forall₂ (Renders lib) (routeAdds evs) seq)
        ∨ (∃ err, (applyRoutes nl lib h (fun _ => true) seq s).1 = some err ∧
          err.code? = some Code.Internal ∧
          ((∃ e ∈ evs, e.err ≠ none) ∨
            ∃ r ∈ seq, ∃ perr, routeDst lib r.Dest = Except.error perr) ∧
          ∃ pre, pre <+: seq ∧
            (applyRoutes nl lib h (fun _ => true) seq s).2.routes = s.routes ++ pre)) := by
  induction seq generalizing s with
  | nil =>
    refine ⟨[], by simp [applyRoutes], rfl, Or.inl ?_⟩
    simp [applyRoutes, routeAdds]
  | cons r rest ih =>
    obtain ⟨evs1, ht1, hd1, h1⟩ := updateRouteWith_add_spec nl lib r s
    simp only [applyRoutes, if_true, updateRoute]
    rcases hu : updateRouteWith nl lib (some r) true s with ⟨e, s1⟩
    rw [hu] at ht1 h1
    cases e with
    | some e =>
      rcases h1 with ⟨hn, _⟩ | ⟨err, he, hr, hc, hcause, _⟩
      · simp at hn
      · simp only [Option.some.injEq] at he
        subst he
        refine ⟨evs1, ht1, hd1, Or.inr ⟨e, rfl, hc, ?_, [], List.nil_prefix, by simpa using hr⟩⟩
        rcases hcause with hx | ⟨perr, hp⟩
        · exact Or.inl hx
        · exact Or.inr ⟨r, List.mem_cons_self _ _, perr, hp⟩
    | none =>
      rcases h1 with ⟨_, hr, hok, idx, dst, hdst, hadds⟩ | ⟨err, he, _⟩
      · obtain ⟨evs2, ht2, hd2, h2⟩ := ih s1
        refine ⟨evs1 ++ evs2, ?_, ?_, ?_⟩
        · simp only at ht1
          rw [ht2, ht1, List.append_assoc]
        · rw [routeDels_append, hd1, hd2]; rfl
        · rcases h2 with ⟨hn2, hr2, hok2, hf2⟩ | ⟨err, he2, hc2, hcause2, pre, hpre, hr2⟩
          · refine Or.inl ⟨hn2, ?_, ?_, ?_⟩
            · simp only at hr
              rw [hr2, hr, List.append_assoc]; rfl
            · intro e he
              rcases List.mem_append.mp he with h' | h'
              · exact hok e h'
              · exact hok2 e h'
            · rw [routeAdds_append, hadds]
              exact List.Forall₂.cons ⟨dst, hdst, rfl⟩ hf2
          · refine Or.inr ⟨err, he2, hc2, ?_, r :: pre, ?_, ?_⟩
            · rcases hcause2 with ⟨e, he, hne⟩ | ⟨r2, hr2m, perr, hp⟩
              · exact Or.inl ⟨e, List.mem_append.mpr (Or.inr he), hne⟩
              · exact Or.inr ⟨r2, List.mem_cons_of_mem _ hr2m, perr, hp⟩
            · exact (List.prefix_cons_inj r).mpr hpre
            · simp only at hr
              rw [hr2, hr, List.append_assoc]; rfl
      · simp at he

/-- The loop of `getCurrentRoutes` returns; it only looks links up and leaves the
tracked list alone. -/
theorem gatherRoutes_spec {K : Type} (nl : Netlink K) (lib : NetLib) (l : List NlRoute)
    (acc : List Route) (s : State K) :
    ∃ v sf evs, gatherRoutes nl lib l acc s = Res.ret v sf ∧ sf.trace = s.trace ++ evs ∧
      sf.routes = s.routes ∧ routeAdds evs = [] ∧ routeDels evs = [] := by
  induction l generalizing acc s with
  | nil => exact ⟨_, s, [], rfl, by simp, rfl, rfl, rfl⟩
  | cons route rest ih =>
    simp only [gatherRoutes, invoke, Link.Attrs]
    rcases hl : nl.LinkByIndex route.LinkIndex s.kernel with ⟨res, k⟩
    cases res with
    | error e =>
      exact ⟨_, _, [Event.mk (Call.LinkByIndex route.LinkIndex) (some e)], rfl, rfl, rfl, rfl, rfl⟩
    | ok link =>
      simp only []
      obtain ⟨v, sf, evs, hg, ht, hr, ha, hd⟩ := ih
        (acc ++
          [{ Dest := match route.Dst with
              | some dst => lib.IPNetString dst
              | none => ""
             Gateway := match route.Gw with
              | some gw => lib.IPString gw
              | none => ""
             Source := match route.Src with
              | some src => lib.IPString src
              | none => ""
             Scope := route.Scope
             Device := link.attrs.Name }])
        { s with kernel := k, trace := s.trace ++ [Event.mk (Call.LinkByIndex route.LinkIndex) none] }
      refine ⟨v, sf, Event.mk (Call.LinkByIndex route.LinkIndex) none :: evs, ?_, ?_, hr, ?_, ?_⟩
      · simpa [errOf] using hg
      · simpa using ht
      · simpa [routeAdds] using ha
      · simpa [routeDels] using hd

/-- With a handle at hand `getCurrentRoutes` returns; it issues no route change and
leaves the tracked list alone. -/
theorem getCurrentRoutes_spec {K : Type} (nl : Netlink K) (lib : NetLib) (h : Handle)
    (s : State K) :
    ∃ v sf evs, getCurrentRoutes nl lib (some h) s = Res.ret v sf ∧ sf.trace = s.trace ++ evs ∧
      sf.routes = s.routes ∧ routeAdds evs = [] ∧ routeDels evs = [] := by
  simp only [getCurrentRoutes, invoke]
  rcases hl : nl.RouteList s.kernel with ⟨res, k⟩
  cases res with
  | error e => exact ⟨_, _, [Event.mk Call.RouteList (some e)], rfl, rfl, rfl, rfl, rfl⟩
  | ok l =>
    simp only []
    obtain ⟨v, sf, evs, hg, ht, hr, ha, hd⟩ := gatherRoutes_spec nl lib l []
      { s with kernel := k, trace := s.trace ++ [Event.mk Call.RouteList none] }
    refine ⟨v, sf, Event.mk Call.RouteList none :: evs, ?_, ?_, hr, ?_, ?_⟩
    · simpa [errOf] using hg
    · simpa using ht
    · simpa [routeAdds] using ha
    · simpa [routeDels] using hd

/-- The delete pass: it adds no route and leaves the tracked list alone; when it
completes every call succeeded; when it stops with an error the last call is the
failed `RouteDel` of a listed route and every earlier call succeeded; it panics only
after a failed call. -/
theorem deleteInitRoutes_spec {K : Type} (nl : Netlink K) (l : List NlRoute) (s : State K) :
    ∃ evs, (deleteInitRoutes nl l s).state.trace = s.trace ++ evs ∧
      (deleteInitRoutes nl l s).state.routes = s.routes ∧ routeAdds evs = [] ∧
      ((deleteInitRoutes nl l s).value? = some none → ∀ e ∈ evs, e.err = none) ∧
      (∀ err, (deleteInitRoutes nl l s).value? = some (some err) →
        ∃ pre r, r ∈ l ∧ evs = pre ++ [Event.mk (Call.RouteDel r) (some err)] ∧
          ∀ e ∈ pre, e.err = none) ∧
      ((deleteInitRoutes nl l s).value? = none → ∃ e ∈ evs, e.err ≠ none) := by
  induction l generalizing s with
  | nil =>
    refine ⟨[], by simp [deleteInitRoutes, Res.state], rfl, rfl, ?_, ?_, ?_⟩ <;>
      simp [deleteInitRoutes, Res.value?]
  | cons r rest ih =>
    simp only [deleteInitRoutes, invoke, invokeErr, Link.Attrs]
    rcases hl : nl.LinkByIndex r.LinkIndex s.kernel with ⟨res, k⟩
    cases res with
    | error e =>
      refine ⟨[Event.mk (Call.LinkByIndex r.LinkIndex) (some e)], rfl, rfl, rfl, ?_, ?_, ?_⟩ <;>
        simp [Res.value?, errOf]
    | ok link =>
      simp only []
      by_cases hlo : link.attrs.Name = "lo" ∨ link.attrs.Name = "::1"
      · simp only [hlo, if_true]
        obtain ⟨evs, ht, hr, ha, hok, herr, hp⟩ := ih
          { s with kernel := k, trace := s.trace ++ [Event.mk (Call.LinkByIndex r.LinkIndex) none] }
        refine ⟨Event.mk (Call.LinkByIndex r.LinkIndex) none :: evs, ?_, hr, ?_, ?_, ?_, ?_⟩
        · simpa [errOf] using ht
        · simpa [routeAdds] using ha
        · intro hv e he
          rcases List.mem_cons.mp he with h' | h'
          · rw [h']
          · exact hok (by simpa [errOf] using hv) e h'
        · intro err hv
          obtain ⟨pre, r2, hm, he, hpre⟩ := herr err (by simpa [errOf] using hv)
          refine ⟨Event.mk (Call.LinkByIndex r.LinkIndex) none :: pre, r2,
            List.mem_cons_of_mem _ hm, by simp [he], ?_⟩
          intro e he
          rcases List.mem_cons.mp he with h' | h'
          · rw [h']
          · exact hpre e h'
        · intro hv
          obtain ⟨e, he, hne⟩ := hp (by simpa [errOf] using hv)
          exact ⟨e, List.mem_cons_of_mem _ he, hne⟩
      · simp only [hlo, if_false]
        rcases hdel : nl.RouteDel r k with ⟨derr, k2⟩
        cases derr with
        | some e =>
          refine ⟨[Event.mk (Call.LinkByIndex r.LinkIndex) none,
            Event.mk (Call.RouteDel r) (some e)], ?_, rfl, rfl, ?_, ?_, ?_⟩
          · simp [Res.state, errOf, hdel]
          · simp [Res.value?, hdel]
          · intro err hv
            simp only [Res.value?, hdel, Option.some.injEq] at hv
            subst hv
            exact ⟨[Event.mk (Call.LinkByIndex r.LinkIndex) none], r, List.mem_cons_self _ _,
              rfl, by simp⟩
          · simp [Res.value?, hdel]
        | none =>
          simp only [hdel, errOf]
          obtain ⟨evs, ht, hr, ha, hok, herr, hp⟩ := ih
            { s with kernel := k2, trace := s.trace ++
                [Event.mk (Call.LinkByIndex r.LinkIndex) none] ++ [Event.mk (Call.RouteDel r) none] }
          refine ⟨Event.mk (Call.LinkByIndex r.LinkIndex) none ::
            Event.mk (Call.RouteDel r) none :: evs, ?_, hr, ?_, ?_, ?_, ?_⟩
          · simpa using ht
          · simpa [routeAdds] using ha
          · intro hv e he
            rcases List.mem_cons.mp he with h' | h'
            · rw [h']
            · rcases List.mem_cons.mp h' with h'' | h''
              · rw [h'']
              · exact hok hv e h''
          · intro err hv
            obtain ⟨pre, r2, hm, he, hpre⟩ := herr err hv
            refine ⟨Event.mk (Call.LinkByIndex r.LinkIndex) none ::
              Event.mk (Call.RouteDel r) none :: pre, r2,
              List.mem_cons_of_mem _ hm, by simp [he], ?_⟩
            intro e he
            rcases List.mem_cons.mp he with h' | h'
            · rw [h']
            · rcases List.mem_cons.mp h' with h'' | h''
              · rw [h'']
              · exact hpre e h''
          · intro hv
            obtain ⟨e, he, hne⟩ := hp hv
            exact ⟨e, List.mem_cons_of_mem _ (List.mem_cons_of_mem _ he), hne⟩

/-- The deferred function after a failed body: the result is what `getCurrentRoutes`
returns, the error is kept, no route is changed any more. -/
theorem updateRoutesDeferred_err {K : Type} (nl : Netlink K) (lib : NetLib) (h : Handle)
    (res : Option (List Route)) (err : GoError) (s1 : State K) :
    ∃ rs cerr sf evs, getCurrentRoutes nl lib (some h) s1 = Res.ret (rs, cerr) sf ∧
      updateRoutesDeferred nl lib h (Res.ret (res, some err) s1) = Res.ret (rs, some err) sf ∧
      sf.trace = s1.trace ++ evs ∧ sf.routes = s1.routes ∧
      routeAdds evs = [] ∧ routeDels evs = [] := by
  obtain ⟨⟨rs, cerr⟩, sf, evs, hg, ht, hr, ha, hd⟩ := getCurrentRoutes_spec nl lib h s1
  refine ⟨rs, cerr, sf, evs, hg, ?_, ht, hr, ha, hd⟩
  simp [updateRoutesDeferred, hg]

/-- The two passes of `updateRoutes` apply the sequence `twoPass`. -/
theorem applyRoutes_twoPass {K : Type} (nl : Netlink K) (lib : NetLib) (h : Handle)
    (req : List Route) (s : State K) :
    applyRoutes nl lib h (fun _ => true) (twoPass req) s =
      match applyRoutes nl lib h noGateway req s with
      | (some err, s1) => (some err, s1)
      | (none, s1) => applyRoutes nl lib h hasGateway req s1 := by
  rw [twoPass, applyRoutes_append, applyRoutes_filter nl lib h noGateway]
  rcases applyRoutes nl lib h (fun _ => true) (List.filter noGateway req) s with ⟨e, s1⟩
  cases e with
  | none => simp only []; rw [applyRoutes_filter nl lib h hasGateway]
  | some e => rfl

/-- The body of `updateRoutes` in terms of the sequence `twoPass`. -/
theorem updateRoutesBody_eq {K : Type} (nl : Netlink K) (lib : NetLib) (h : Handle)
    (req : List Route) (s : State K) :
    updateRoutesBody nl lib h req s =
      match invoke Call.RouteList (nl.RouteList s.kernel) s with
      | (Except.error err, s1) => Res.ret (none, some err) s1
      | (Except.ok initRouteList, s1) =>
        match deleteInitRoutes nl initRouteList s1 with
        | Res.panic s2 => Res.panic s2
        | Res.ret (some err) s2 => Res.ret (none, some err) s2
        | Res.ret none s2 =>
          match applyRoutes nl lib h (fun _ => true) (twoPass req) s2 with
          | (some err, s3) => Res.ret (none, some err) s3
          | (none, s3) => Res.ret (some req, none) s3 := by
  unfold updateRoutesBody
  rcases invoke Call.RouteList (nl.RouteList s.kernel) s with ⟨res, s1⟩
  cases res with
  | error e => rfl
  | ok l =>
    simp only []
    rcases deleteInitRoutes nl l s1 with ⟨e, s2⟩ | s2
    · cases e with
      | some e => rfl
      | none =>
        simp only []
        rw [applyRoutes_twoPass]
        rcases applyRoutes nl lib h noGateway req s2 with ⟨e3, s3⟩
        cases e3 with
        | some e3 => rfl
        | none => rfl
    · rfl

theorem mem_of_mem_twoPass {r : Route} {req : List Route} (hr : r ∈ twoPass req) : r ∈ req := by
  rcases List.mem_append.mp hr with h | h
  · exact (List.mem_filter.mp h).1
  · exact (List.mem_filter.mp h).1

/-- A run of `updateRoutes` with a handle at hand: either it returns the requested
routes with no error, every call having succeeded, the tracked list grown by `twoPass`
and the `RouteAdd` calls rendering `twoPass` in order; or a call failed or a requested
destination does not parse. -/
theorem updateRoutesWith_spec {K : Type} (nl : Netlink K) (lib : NetLib) (h : Handle)
    (req : List Route) (s : State K) :
    ∃ evs,
      (updateRoutesDeferred nl lib h (updateRoutesBody nl lib h req s)).state.trace =
        s.trace ++ evs ∧
      (((updateRoutesDeferred nl lib h (updateRoutesBody nl lib h req s)).value? =
            some (some req, none) ∧
          (updateRoutesDeferred nl lib h (updateRoutesBody nl lib h req s)).state.routes =
            s.routes ++ twoPass req ∧
          (∀ e ∈ evs, e.err = none) ∧
          List.Forall₂ (Renders lib) (routeAdds evs) (twoPass req))
        ∨ ((∃ e ∈ evs, e.err ≠ none) ∨
            ∃ r ∈ req, ∃ perr, routeDst lib r.Dest = Except.error perr)) := by
  rw [updateRoutesBody_eq]
  simp only [invoke]
  rcases hl : nl.RouteList s.kernel with ⟨res, k⟩
  cases res with
  | error e =>
    simp only []
    obtain ⟨rs, cerr, sf, evs, _, hd, ht, _⟩ := updateRoutesDeferred_err nl lib h none e
      { s with kernel := k, trace := s.trace ++ [Event.mk Call.RouteList (errOf (Except.error e))] }
    refine ⟨Event.mk Call.RouteList (some e) :: evs, ?_, Or.inr (Or.inl ?_)⟩
    · rw [hd]; simpa [Res.state, errOf] using ht
    · exact ⟨_, List.mem_cons_self _ _, by simp⟩
  | ok l =>
    simp only []
    obtain ⟨evs1, ht1, hr1, ha1, hok1, herr1, hp1⟩ := deleteInitRoutes_spec nl l
      { s with kernel := k, trace := s.trace ++ [Event.mk Call.RouteList (errOf (Except.ok l))] }
    rcases hdel : deleteInitRoutes nl l
      { s with kernel := k, trace := s.trace ++ [Event.mk Call.RouteList (errOf (Except.ok l))] }
      with ⟨e, s2⟩ | s2
    · rw [hdel] at ht1 hr1 hok1 herr1
      simp only [Res.state, Res.value?] at ht1 hr1 hok1 herr1
      cases e with
      | some e =>
        simp only []
        obtain ⟨rs, cerr, sf, evs, _, hd, ht, _⟩ := updateRoutesDeferred_err nl lib h none e s2
        obtain ⟨pre, r, _, hev, _⟩ := herr1 e rfl
        refine ⟨Event.mk Call.RouteList none :: (evs1 ++ evs), ?_, Or.inr (Or.inl ?_)⟩
        · rw [hd]; simp [Res.state, ht, ht1, errOf]
        · refine ⟨Event.mk (Call.RouteDel r) (some e), ?_, by simp⟩
          simp [hev]
      | none =>
        simp only []
        obtain ⟨evs2, ht2, _, h2⟩ := applyRoutes_spec nl lib h (twoPass req) s2
        rcases hap : applyRoutes nl lib h (fun _ => true) (twoPass req) s2 with ⟨e3, s3⟩
        rw [hap] at ht2 h2
        simp only at ht2 h2
        cases e3 with
        | none =>
          rcases h2 with ⟨_, hr2, hok2, hf2⟩ | ⟨err, he, _⟩
          · refine ⟨Event.mk Call.RouteList none :: (evs1 ++ evs2), ?_, Or.inl ⟨rfl, ?_, ?_, ?_⟩⟩
            · simp [updateRoutesDeferred, Res.state, ht2, ht1, errOf]
            · simp only [updateRoutesDeferred, Res.state]
              rw [hr2, hr1]
            · intro e he
              rcases List.mem_cons.mp he with h' | h'
              · rw [h']
              · rcases List.mem_append.mp h' with h'' | h''
                · exact hok1 rfl e h''
                · exact hok2 e h''
            · have : routeAdds (Event.mk Call.RouteList none :: (evs1 ++ evs2)) = routeAdds evs2 := by
                simp [routeAdds, routeAdds_append, ha1]
              rw [this]
              exact hf2
          · simp at he
        | some e3 =>
          simp only []
          obtain ⟨rs, cerr, sf, evs, _, hd, ht, _⟩ := updateRoutesDeferred_err nl lib h none e3 s3
          refine ⟨Event.mk Call.RouteList none :: (evs1 ++ evs2 ++ evs), ?_, Or.inr ?_⟩
          · rw [hd]; simp [Res.state, ht, ht2, ht1, errOf]
          · rcases h2 with ⟨hn, _⟩ | ⟨err, _, _, hcause, _⟩
            · simp at hn
            · rcases hcause with ⟨e, he, hne⟩ | ⟨r, hr, perr, hp⟩
              · refine Or.inl ⟨e, ?_, hne⟩
                simp [he]
              · exact Or.inr ⟨r, mem_of_mem_twoPass hr, perr, hp⟩
    · rw [hdel] at ht1 hp1
      simp only [Res.state, Res.value?] at ht1 hp1
      obtain ⟨e, he, hne⟩ := hp1 trivial
      refine ⟨Event.mk Call.RouteList none :: evs1, ?_, Or.inr (Or.inl ⟨e, ?_, hne⟩)⟩
      · simp [updateRoutesDeferred, Res.state, ht1, errOf]
      · simp [he]

/-- The same for `updateRoutes` itself, with or without a handle passed in. -/
theorem updateRoutes_spec {K : Type} (nl : Netlink K) (lib : NetLib) (netHandle : Option Handle)
    (req : List Route) (s : State K) :
    ∃ evs,
      (updateRoutes nl lib netHandle req s).state.trace = s.trace ++ evs ∧
      (((updateRoutes nl lib netHandle req s).value? = some (some req, none) ∧
          (updateRoutes nl lib netHandle req s).state.routes = s.routes ++ twoPass req ∧
          (∀ e ∈ evs, e.err = none) ∧
          List.Forall₂ (Renders lib) (routeAdds evs) (twoPass req))
        ∨ ((∃ e ∈ evs, e.err ≠ none) ∨
            ∃ r ∈ req, ∃ perr, routeDst lib r.Dest = Except.error perr)) := by
  cases netHandle with
  | some h => exact updateRoutesWith_spec nl lib h req s
  | none =>
    simp only [updateRoutes, invoke]
    rcases hn : nl.NewHandle s.kernel with ⟨res, k⟩
    cases res with
    | error e =>
      refine ⟨[Event.mk Call.NewHandle (some e)], rfl, Or.inr (Or.inl ⟨_, List.mem_cons_self _ _, ?_⟩)⟩
      simp
    | ok h =>
      simp only []
      obtain ⟨evs, ht, hcases⟩ := updateRoutesWith_spec nl lib h req
        { s with kernel := k, trace := s.trace ++ [Event.mk Call.NewHandle (errOf (Except.ok h))] }
      rcases hR : updateRoutesDeferred nl lib h (updateRoutesBody nl lib h req
        { s with kernel := k, trace := s.trace ++ [Event.mk Call.NewHandle (errOf (Except.ok h))] })
        with ⟨v, sf⟩ | sf
      · rw [hR] at ht hcases
        simp only [Res.state, Res.value?] at ht hcases
        refine ⟨Event.mk Call.NewHandle none :: (evs ++ [Event.mk (Call.Delete h) none]), ?_, ?_⟩
        · simp [thenDelete, Res.state, deleteHandle, ht, errOf]
        · rcases hcases with ⟨hv, hr, hok, hf⟩ | hbad
          · refine Or.inl ⟨by simpa [thenDelete, Res.value?] using hv,
              by simpa [thenDelete, Res.state, deleteHandle] using hr, ?_, ?_⟩
            · intro e he
              simp only [List.mem_cons, List.mem_append, List.mem_singleton, List.not_mem_nil,
                or_false] at he
              rcases he with h' | h' | h'
              · rw [h']
              · exact hok e h'
              · rw [h']
            · have : routeAdds (Event.mk Call.NewHandle none ::
                  (evs ++ [Event.mk (Call.Delete h) none])) = routeAdds evs := by
                simp [routeAdds, routeAdds_append]
              rw [this]; exact hf
          · refine Or.inr ?_
            rcases hbad with ⟨e, he, hne⟩ | hp
            · exact Or.inl ⟨e, by simp [he], hne⟩
            · exact Or.inr hp
      · rw [hR] at ht hcases
        simp only [Res.state, Res.value?] at ht hcases
        refine ⟨Event.mk Call.NewHandle none :: (evs ++ [Event.mk (Call.Delete h) none]), ?_, ?_⟩
        · simp [thenDelete, Res.state, deleteHandle, ht, errOf]
        · rcases hcases with ⟨hv, _⟩ | hbad
          · simp at hv
          · refine Or.inr ?_
            rcases hbad with ⟨e, he, hne⟩ | hp
            · exact Or.inl ⟨e, by simp [he], hne⟩
            · exact Or.inr hp

theorem hasGateway_eq_not : hasGateway = fun r => !noGateway r := by
  funext r
  simp [hasGateway, noGateway]

theorem twoPass_perm (req : List Route) : (twoPass req).Perm req := by
  rw [twoPass, hasGateway_eq_not]
  exact List.filter_append_perm noGateway req

theorem newEvents_of_trace {K : Type} {s s1 : State K} {evs : List Event}
    (h : s1.trace = s.trace ++ evs) : newEvents s s1 = evs := by
  simp [newEvents, h]

/-- C2, counterexample: with every kernel call succeeding, a requested route whose
destination is no network prefix is not applied and `updateRoutes` returns an error
with the re-read (empty) table instead of the requested routes. -/
theorem updateRoutes_unparsable_counterexample :
    (∀ e ∈ (updateRoutes simNetlink tableLib (some h0) [routeBadDest]
        (simState { links := [lo, eth0], routes := [], addrs := [], failing := [] })).state.trace,
      e.err = none) ∧
    (updateRoutes simNetlink tableLib (some h0) [routeBadDest]
        (simState { links := [lo, eth0], routes := [], addrs := [], failing := [] })).value? =
      some (some [], some (GoError.wrap Code.Internal
        "Could not parse route destination %s: %v" ["bogus"] EINVAL)) ∧
    routeAdds (updateRoutes simNetlink tableLib (some h0) [routeBadDest]
        (simState { links := [lo, eth0], routes := [], addrs := [], failing := [] })).state.trace
      = [] := by
  decide

/-- C2, amended: when every kernel call of the run succeeds and every requested
destination is "default", empty or parses as a network prefix, `updateRoutes` returns
the requested routes with no error; its `RouteAdd` calls render, in order, the
requested routes without a gateway in input order followed by those with a gateway in
input order; that sequence is a rearrangement of the request, so every requested route
is applied exactly once; and the tracked list is the list before the call followed by
that sequence. -/
theorem updateRoutes_two_pass {K : Type} (nl : Netlink K) (lib : NetLib)
    (netHandle : Option Handle) (req : List Route) (s : State K)
    (hparse : ∀ r ∈ req, (routeDst lib r.Dest).isOk = true)
    (hok : ∀ e ∈ newEvents s (updateRoutes nl lib netHandle req s).state, e.err = none) :
    (updateRoutes nl lib netHandle req s).value? = some (some req, none) ∧
    List.Forall₂ (Renders lib)
      (routeAdds (newEvents s (updateRoutes nl lib netHandle req s).state)) (twoPass req) ∧
    (twoPass req).Perm req ∧
    (updateRoutes nl lib netHandle req s).state.routes = s.routes ++ twoPass req := by
  obtain ⟨evs, ht, hcases⟩ := updateRoutes_spec nl lib netHandle req s
  rw [newEvents_of_trace ht] at hok ⊢
  rcases hcases with ⟨hv, hr, _, hf⟩ | ⟨e, he, hne⟩ | ⟨r, hr, perr, hp⟩
  · exact ⟨hv, hf, twoPass_perm req, hr⟩
  · exact absurd (hok e he) hne
  · have := hparse r hr
    rw [hp] at this
    simp [Except.isOk, Except.toBool] at this

/-- C2, witness: a request listing the gateway route first, on the concrete kernel. -/
theorem updateRoutes_two_pass_witness :
    (∀ r ∈ [routeViaGw, routeDirect], (routeDst tableLib r.Dest).isOk = true) ∧
    (∀ e ∈ newEvents (simState simTwoLinks)
        (updateRoutes simNetlink tableLib none [routeViaGw, routeDirect]
          (simState simTwoLinks)).state, e.err = none) ∧
    ((updateRoutes simNetlink tableLib none [routeViaGw, routeDirect]
        (simState simTwoLinks)).value? = some (some [routeViaGw, routeDirect], none) ∧
      List.Forall₂ (Renders tableLib)
        (routeAdds (newEvents (simState simTwoLinks)
          (updateRoutes simNetlink tableLib none [routeViaGw, routeDirect]
            (simState simTwoLinks)).state)) (twoPass [routeViaGw, routeDirect]) ∧
      (twoPass [routeViaGw, routeDirect]).Perm [routeViaGw, routeDirect] ∧
      (updateRoutes simNetlink tableLib none [routeViaGw, routeDirect]
        (simState simTwoLinks)).state.routes =
        (simState simTwoLinks).routes ++ twoPass [routeViaGw, routeDirect]) :=
  ⟨by decide, by decide,
    updateRoutes_two_pass simNetlink tableLib none [routeViaGw, routeDirect]
      (simState simTwoLinks) (by decide) (by decide)⟩

/-- C3, counterexample: two successive calls with the same one-route request, every
kernel call succeeding, leave the route twice in the tracked list, while one call
leaves it once. -/
theorem updateRoutes_twice_counterexample :
    (∀ e ∈ (updateRoutesTwice simNetlink tableLib (some h0) [routeDirect]
        (simState simTwoLinks)).state.trace, e.err = none) ∧
    (updateRoutes simNetlink tableLib (some h0) [routeDirect]
        (simState simTwoLinks)).state.routes = [routeDirect] ∧
    (updateRoutesTwice simNetlink tableLib (some h0) [routeDirect]
        (simState simTwoLinks)).state.routes = [routeDirect, routeDirect] ∧
    (updateRoutesTwice simNetlink tableLib (some h0) [routeDirect]
        (simState simTwoLinks)).state.routes ≠
      (updateRoutes simNetlink tableLib (some h0) [routeDirect]
        (simState simTwoLinks)).state.routes := by
  decide

/-- C3, amended: when every kernel call of two successive calls with the same input
succeeds and every requested destination parses, each call appends the two-pass
sequence of the request to the tracked list: after the second call the tracked list is
the list after the first call followed by that sequence again, longer by the number of
requested routes, and equal to the list after one call only for an empty request. -/
theorem updateRoutes_twice_appends {K : Type} (nl : Netlink K) (lib : NetLib)
    (netHandle : Option Handle) (req : List Route) (s : State K)
    (hparse : ∀ r ∈ req, (routeDst lib r.Dest).isOk = true)
    (hok : ∀ e ∈ newEvents s (updateRoutesTwice nl lib netHandle req s).state, e.err = none) :
    (updateRoutes nl lib netHandle req s).state.routes = s.routes ++ twoPass req ∧
    (updateRoutesTwice nl lib netHandle req s).state.routes =
      (updateRoutes nl lib netHandle req s).state.routes ++ twoPass req ∧
    (updateRoutesTwice nl lib netHandle req s).state.routes.length =
      (updateRoutes nl lib netHandle req s).state.routes.length + req.length ∧
    ((updateRoutesTwice nl lib netHandle req s).state.routes =
      (updateRoutes nl lib netHandle req s).state.routes ↔ req = []) := by
  obtain ⟨evs1, ht1, hc1⟩ := updateRoutes_spec nl lib netHandle req s
  obtain ⟨evs2, ht2, hc2⟩ := updateRoutes_spec nl lib netHandle req
    (updateRoutes nl lib netHandle req s).state
  have ht : (updateRoutesTwice nl lib netHandle req s).state.trace = s.trace ++ (evs1 ++ evs2) := by
    rw [updateRoutesTwice, ht2, ht1, List.append_assoc]
  rw [newEvents_of_trace ht] at hok
  have hnoparse : ¬ ∃ r ∈ req, ∃ perr, routeDst lib r.Dest = Except.error perr := by
    rintro ⟨r, hr, perr, hp⟩
    have := hparse r hr
    rw [hp] at this
    simp [Except.isOk, Except.toBool] at this
  have hlen : (twoPass req).length = req.length := (twoPass_perm req).length_eq
  rcases hc1 with ⟨_, hr1, _, _⟩ | ⟨e, he, hne⟩ | hp
  · rcases hc2 with ⟨_, hr2, _, _⟩ | ⟨e, he, hne⟩ | hp
    · have hr2' : (updateRoutesTwice nl lib netHandle req s).state.routes =
          (updateRoutes nl lib netHandle req s).state.routes ++ twoPass req := hr2
      refine ⟨hr1, hr2', ?_, ?_⟩
      · rw [hr2', List.length_append, hlen]
      · rw [hr2']
        constructor
        · intro heq
          have h0 : (twoPass req).length = 0 := by
            have := congrArg List.length heq
            rw [List.length_append] at this
            omega
          rw [hlen] at h0
          exact List.length_eq_zero.mp h0
        · intro hnil
          subst hnil
          simp [twoPass]
    · exact absurd (hok e (List.mem_append.mpr (Or.inr he))) hne
    · exact absurd hp hnoparse
  · exact absurd (hok e (List.mem_append.mpr (Or.inl he))) hne
  · exact absurd hp hnoparse

/-- C3, witness: the gateway-first request applied twice on the concrete kernel. -/
theorem updateRoutes_twice_appends_witness :
    (∀ r ∈ [routeViaGw, routeDirect], (routeDst tableLib r.Dest).isOk = true) ∧
    (∀ e ∈ newEvents (simState simTwoLinks)
        (updateRoutesTwice simNetlink tableLib (some h0) [routeViaGw, routeDirect]
          (simState simTwoLinks)).state, e.err = none) ∧
    (updateRoutesTwice simNetlink tableLib (some h0) [routeViaGw, routeDirect]
        (simState simTwoLinks)).state.routes =
      (updateRoutes simNetlink tableLib (some h0) [routeViaGw, routeDirect]
        (simState simTwoLinks)).state.routes ++ twoPass [routeViaGw, routeDirect] :=
  ⟨by decide, by decide,
    (updateRoutes_twice_appends simNetlink tableLib (some h0) [routeViaGw, routeDirect]
      (simState simTwoLinks) (by decide) (by decide)).2.1⟩

/-- C4, the code at the failing input: a route added with `updateRoute(add=true)` and
then removed with the same descriptor, both kernel calls succeeding, is still in the
tracked list, because the removal loop compares a `pb.Route` with a `*pb.Route`. -/
theorem updateRoute_remove_keeps_route :
    (updateRoute simNetlink tableLib (some h0) (some routeDirect) true
        (simState simTwoLinks)).1 = none ∧
    (updateRoute simNetlink tableLib (some h0) (some routeDirect) true
        (simState simTwoLinks)).2.routes = [routeDirect] ∧
    (updateRoute simNetlink tableLib (some h0) (some routeDirect) false
        (updateRoute simNetlink tableLib (some h0) (some routeDirect) true
          (simState simTwoLinks)).2).1 = none ∧
    (updateRoute simNetlink tableLib (some h0) (some routeDirect) false
        (updateRoute simNetlink tableLib (some h0) (some routeDirect) true
          (simState simTwoLinks)).2).2.routes = [routeDirect] := by
  decide

/-- C10, the code at the failing input: with a first listed route whose link index
resolves to no link, `updateRoutes` panics right after the failed `LinkByIndex`; the
route on `eth0` listed after it is never deleted and no requested route is applied. -/
theorem updateRoutes_dangling_index_panics :
    (updateRoutes simNetlink tableLib (some h0) [routeDirect] (simState simDangling)).value? = none ∧
    (updateRoutes simNetlink tableLib (some h0) [routeDirect] (simState simDangling)).state.trace =
      [Event.mk Call.RouteList none, Event.mk (Call.LinkByIndex 7) (some ENODEV)] ∧
    (updateRoutes simNetlink tableLib (some h0) [routeDirect]
      (simState simDangling)).state.kernel.routes = simDangling.routes := by
  decide

/-- The loop of `getCurrentRoutes` returns the routes gathered so far followed by what
the kernel reports for the listed routes. -/
theorem gatherRoutes_table {K : Type} (nl : Netlink K) (lib : NetLib) (l : List NlRoute)
    (acc : List Route) (s : State K) :
    ∃ cerr sf, gatherRoutes nl lib l acc s =
      Res.ret (some (acc ++ reportedRoutes nl lib l s.kernel), cerr) sf := by
  induction l generalizing acc s with
  | nil => exact ⟨none, s, by simp [gatherRoutes, reportedRoutes]⟩
  | cons route rest ih =>
    simp only [gatherRoutes, invoke, Link.Attrs, reportedRoutes]
    rcases hl : nl.LinkByIndex route.LinkIndex s.kernel with ⟨res, k⟩
    cases res with
    | error e =>
      refine ⟨some e, { s with kernel := k, trace := s.trace ++
        [Event.mk (Call.LinkByIndex route.LinkIndex) (some e)] }, ?_⟩
      simp [errOf]
    | ok link =>
      simp only []
      obtain ⟨cerr, sf, hg⟩ := ih (acc ++ [renderRoute lib route link.attrs.Name])
        { s with kernel := k, trace := s.trace ++ [Event.mk (Call.LinkByIndex route.LinkIndex) none] }
      refine ⟨cerr, sf, ?_⟩
      simp only [renderRoute, errOf, List.append_assoc, List.singleton_append] at hg ⊢
      exact hg

/-- With a handle at hand `getCurrentRoutes` returns the routing table of the kernel. -/
theorem getCurrentRoutes_table {K : Type} (nl : Netlink K) (lib : NetLib) (h : Handle)
    (s : State K) :
    ∃ cerr sf, getCurrentRoutes nl lib (some h) s =
      Res.ret (some (kernelTable nl lib s.kernel), cerr) sf := by
  simp only [getCurrentRoutes, invoke, kernelTable]
  rcases hl : nl.RouteList s.kernel with ⟨res, k⟩
  cases res with
  | error e =>
    exact ⟨some e, { s with kernel := k, trace := s.trace ++
      [Event.mk Call.RouteList (errOf (Except.error e))] }, rfl⟩
  | ok l =>
    simp only []
    obtain ⟨cerr, sf, hg⟩ := gatherRoutes_table nl lib l []
      { s with kernel := k, trace := s.trace ++ [Event.mk Call.RouteList (errOf (Except.ok l))] }
    exact ⟨cerr, sf, by simpa using hg⟩

/-- When a sequence of routes was applied, the `RouteAdd` calls issued are the ones the
kernel receives for that sequence, one for each route. -/
theorem applyRoutes_adds {K : Type} (nl : Netlink K) (lib : NetLib) (h : Handle)
    (seq : List Route) (s s1 : State K)
    (hap : applyRoutes nl lib h (fun _ => true) seq s = (none, s1)) :
    routeAdds (newEvents s s1) = appliedAdds nl lib seq s.kernel ∧
    (appliedAdds nl lib seq s.kernel).length = seq.length := by
  induction seq generalizing s with
  | nil =>
    simp only [applyRoutes] at hap
    have : s1 = s := (Prod.mk.inj hap).2.symm
    subst this
    simp [newEvents, routeAdds, appliedAdds]
  | cons r rest ih =>
    simp only [applyRoutes, if_true, updateRoute, updateRouteWith, invoke, invokeErr,
      Link.Attrs] at hap
    simp only [appliedAdds]
    rcases hl : nl.LinkByName r.Device s.kernel with ⟨res, k⟩
    rw [hl] at hap
    cases res with
    | error e => simp at hap
    | ok link =>
      simp only [] at hap ⊢
      rcases hd : routeDst lib r.Dest with perr | dst
      · rw [hd] at hap; simp at hap
      · rw [hd] at hap
        simp only [] at hap ⊢
        rcases ha : nl.RouteAdd (netRoute lib r link.attrs.Index dst) k with ⟨aerr, k2⟩
        rw [ha] at hap
        cases aerr with
        | some e => simp at hap
        | none =>
          simp only [errOf] at hap ⊢
          obtain ⟨hadds, hlen⟩ := ih _ hap
          obtain ⟨evs2, ht2, _⟩ := applyRoutes_spec nl lib h rest
            { kernel := k2,
              trace := s.trace ++ [Event.mk (Call.LinkByName r.Device) none] ++
                [Event.mk (Call.RouteAdd (netRoute lib r link.attrs.Index dst)) none],
              routes := s.routes ++ [r], ifaces := s.ifaces }
          rw [hap] at ht2
          simp only at ht2
          rw [newEvents_of_trace ht2] at hadds
          have ht : s1.trace = s.trace ++ (Event.mk (Call.LinkByName r.Device) none ::
              Event.mk (Call.RouteAdd (netRoute lib r link.attrs.Index dst)) none :: evs2) := by
            rw [ht2]; simp
          rw [newEvents_of_trace ht]
          refine ⟨?_, by simp [hlen]⟩
          simp only [routeAdds]
          rw [hadds]

/-- With a handle at hand `updateRoutes` is its body and deferred function, followed
by the deferred `Delete` when the handle was created by the call. -/
theorem updateRoutes_of_ready {K : Type} (nl : Netlink K) (lib : NetLib)
    (netHandle : Option Handle) (req : List Route) (s s0 : State K) (h : Handle)
    (hacq : handleReadyWith nl netHandle s h s0) :
    (updateRoutes nl lib netHandle req s).value? =
      (updateRoutesDeferred nl lib h (updateRoutesBody nl lib h req s0)).value? ∧
    (updateRoutes nl lib netHandle req s).state.routes =
      (updateRoutesDeferred nl lib h (updateRoutesBody nl lib h req s0)).state.routes ∧
    s0.routes = s.routes ∧
    ∃ post, (updateRoutes nl lib netHandle req s).state.trace =
        (updateRoutesDeferred nl lib h (updateRoutesBody nl lib h req s0)).state.trace ++ post ∧
      (post = [] ∨ post = [Event.mk (Call.Delete h) none]) := by
  rcases hacq with ⟨hn, hs⟩ | ⟨hn, hinv⟩
  · subst hn; subst hs
    exact ⟨rfl, rfl, rfl, [], by simp [updateRoutes], Or.inl rfl⟩
  · subst hn
    have hs0 : s0.routes = s.routes := by
      have := congrArg (fun p => p.2.routes) hinv
      simpa [invoke] using this.symm
    simp only [updateRoutes, hinv]
    rcases updateRoutesDeferred nl lib h (updateRoutesBody nl lib h req s0) with ⟨v, sf⟩ | sf
    · exact ⟨rfl, rfl, hs0, [Event.mk (Call.Delete h) none], rfl, Or.inr rfl⟩
    · exact ⟨rfl, rfl, hs0, [Event.mk (Call.Delete h) none], rfl, Or.inr rfl⟩

/-- C9: when the initial listing succeeded and a `RouteDel` of the delete pass fails,
or the delete pass completed and applying a route of the two-pass sequence fails after
the routes before it were applied, `updateRoutes` returns that error together with the
routing table of the kernel in the state of the failure, as `getCurrentRoutes` reads
it: the routes `RouteList` returns, each with the name of the link `LinkByIndex`
returns for it.  After the failure it issues no `RouteAdd` and no `RouteDel` (only the
re-read and the deferred `Delete` of a handle it created); the `RouteAdd` calls before
the failure are the ones the kernel receives for the routes applied before it; and the
tracked list is the list before the call followed by the routes applied before the
failure. -/
theorem updateRoutes_abort {K : Type} (nl : Netlink K) (lib : NetLib)
    (netHandle : Option Handle) (req : List Route) (s s0 s1 : State K) (h : Handle)
    (initRouteList : List NlRoute)
    (hacq : handleReadyWith nl netHandle s h s0)
    (hlist : invoke Call.RouteList (nl.RouteList s0.kernel) s0 = (Except.ok initRouteList, s1)) :
    (∀ err s2, deleteInitRoutes nl initRouteList s1 = Res.ret (some err) s2 →
      ∃ (rs : Option (List Route)) (cerr : Option GoError) (sf : State K) (evs post : List Event)
          (r : NlRoute) (pre : List Event),
        getCurrentRoutes nl lib (some h) s2 = Res.ret (rs, cerr) sf ∧
        (updateRoutes nl lib netHandle req s).value? = some (rs, some err) ∧
        s2.trace = pre ++ [Event.mk (Call.RouteDel r) (some err)] ∧ r ∈ initRouteList ∧
        (updateRoutes nl lib netHandle req s).state.trace = s2.trace ++ evs ++ post ∧
        routeAdds evs = [] ∧ routeDels evs = [] ∧
        (post = [] ∨ post = [Event.mk (Call.Delete h) none]) ∧
        routeAdds (newEvents s0 s2) = [] ∧
        (updateRoutes nl lib netHandle req s).state.routes = s.routes ∧
        rs = some (kernelTable nl lib s2.kernel)) ∧
    (∀ pre r post err s2 s3 s4, deleteInitRoutes nl initRouteList s1 = Res.ret none s2 →
      twoPass req = pre ++ r :: post →
      applyRoutes nl lib h (fun _ => true) pre s2 = (none, s3) →
      updateRoute nl lib (some h) (some r) true s3 = (some err, s4) →
      ∃ (rs : Option (List Route)) (cerr : Option GoError) (sf : State K) (evs tail : List Event),
        getCurrentRoutes nl lib (some h) s4 = Res.ret (rs, cerr) sf ∧
        (updateRoutes nl lib netHandle req s).value? = some (rs, some err) ∧
        (updateRoutes nl lib netHandle req s).state.trace = s4.trace ++ evs ++ tail ∧
        routeAdds evs = [] ∧ routeDels evs = [] ∧
        (tail = [] ∨ tail = [Event.mk (Call.Delete h) none]) ∧
        List.Forall₂ (Renders lib) (routeAdds (newEvents s2 s3)) pre ∧
        (∀ e ∈ newEvents s3 s4, e.err = none → ∀ nr, e.call ≠ Call.RouteAdd nr) ∧
        (updateRoutes nl lib netHandle req s).state.routes = s.routes ++ pre ∧
        rs = some (kernelTable nl lib s4.kernel) ∧
        routeAdds (newEvents s2 s3) = appliedAdds nl lib pre s2.kernel) := by
  obtain ⟨hval, hrts, hs0, post, htr, hpost⟩ := updateRoutes_of_ready nl lib netHandle req s s0 h hacq
  have hs1 : s1.routes = s0.routes ∧ s1.trace = s0.trace ++ [Event.mk Call.RouteList none] := by
    have h1 := congrArg (fun p => p.2.routes) hlist
    have h2 := congrArg (fun p => p.2.trace) hlist
    have h3 := congrArg (fun p => errOf p.1) hlist
    simp only [invoke, errOf] at h1 h2 h3
    rw [h3] at h2
    exact ⟨h1.symm, h2.symm⟩
  obtain ⟨evs1, ht1, hr1, ha1, _, herr1, _⟩ := deleteInitRoutes_spec nl initRouteList s1
  rw [hval, hrts, htr, updateRoutesBody_eq, hlist]
  simp only []
  constructor
  · intro err s2 hdel
    rw [hdel] at ht1 hr1 herr1 ⊢
    simp only [Res.state, Res.value?] at ht1 hr1 herr1
    obtain ⟨pre, r, hmem, hev, _⟩ := herr1 err rfl
    obtain ⟨rs, cerr, sf, evs, hg, hd, ht, hr, ha, hdl⟩ :=
      updateRoutesDeferred_err nl lib h none err s2
    refine ⟨rs, cerr, sf, evs, post, r, s1.trace ++ pre, hg, ?_, ?_, hmem, ?_, ha, hdl, hpost,
      ?_, ?_, ?_⟩
    · simp [hd, Res.value?]
    · rw [ht1, hev, List.append_assoc]
    · simp [hd, Res.state, ht]
    · have : s2.trace = s0.trace ++ (Event.mk Call.RouteList none :: evs1) := by
        rw [ht1, hs1.2]; simp
      rw [newEvents_of_trace this]
      simpa [routeAdds] using ha1
    · simp only [hd, Res.state]
      rw [hr, hr1, hs1.1, hs0]
    · obtain ⟨cerr2, sf2, hg2⟩ := getCurrentRoutes_table nl lib h s2
      rw [hg] at hg2
      exact (Prod.mk.inj (Res.ret.inj hg2).1).1
  · intro pre r post' err s2 s3 s4 hdel hsplit hpre hfail
    rw [hdel] at hr1 ⊢
    simp only [Res.state] at hr1
    have happ : applyRoutes nl lib h (fun _ => true) (twoPass req) s2 = (some err, s4) := by
      rw [hsplit, applyRoutes_append, hpre]
      simp only [applyRoutes, if_true, hfail]
    simp only [happ]
    obtain ⟨rs, cerr, sf, evs, hg, hd, ht, hr, ha, hdl⟩ :=
      updateRoutesDeferred_err nl lib h none err s4
    obtain ⟨evsP, htP, _, hP⟩ := applyRoutes_spec nl lib h pre s2
    rw [hpre] at htP hP
    simp only at htP hP
    obtain ⟨evsF, htF, _, hF⟩ := updateRouteWith_add_spec nl lib r s3
    have hfail' : updateRouteWith nl lib (some r) true s3 = (some err, s4) := hfail
    rw [hfail'] at htF hF
    simp only at htF hF
    rcases hP with ⟨_, hrP, _, hfP⟩ | ⟨e, he, _⟩
    swap
    · simp at he
    rcases hF with ⟨hn, _⟩ | ⟨e, _, hrF, _, _, hnoadd⟩
    · simp at hn
    refine ⟨rs, cerr, sf, evs, post, hg, ?_, ?_, ha, hdl, hpost, ?_, ?_, ?_, ?_,
      (applyRoutes_adds nl lib h pre s2 s3 hpre).1⟩
    · simp [hd, Res.value?]
    · simp [hd, Res.state, ht]
    · rw [newEvents_of_trace htP]; exact hfP
    · rw [newEvents_of_trace htF]; exact hnoadd
    · simp only [hd, Res.state]
      rw [hr, hrF, hrP, hr1, hs1.1, hs0]
    · obtain ⟨cerr2, sf2, hg2⟩ := getCurrentRoutes_table nl lib h s4
      rw [hg] at hg2
      exact (Prod.mk.inj (Res.ret.inj hg2).1).1

/-- C9, witness: on one concrete kernel the deletion of the route on `eth0` fails and
the returned table still holds both kernel routes; on another the delete pass
completes, `routeDirect` is applied and `routeBadDest` fails, and the returned table
holds the loopback route and the route just added. -/
theorem updateRoutes_abort_witness :
    (handleReadyWith simNetlink (some h0) (simState simNoRouteDel) h0 (simState simNoRouteDel) ∧
      invoke Call.RouteList (simNetlink.RouteList (simState simNoRouteDel).kernel)
          (simState simNoRouteDel) = (Except.ok simNoRouteDel.routes, simListed simNoRouteDel) ∧
      deleteInitRoutes simNetlink simNoRouteDel.routes (simListed simNoRouteDel) =
        Res.ret (some EIO) (simDeleted simNoRouteDel) ∧
      ∃ (rs : Option (List Route)) (cerr : Option GoError) (sf : State Sim)
          (evs post : List Event) (r : NlRoute) (pre : List Event),
        getCurrentRoutes simNetlink tableLib (some h0) (simDeleted simNoRouteDel) =
          Res.ret (rs, cerr) sf ∧
        (updateRoutes simNetlink tableLib (some h0) [routeDirect]
          (simState simNoRouteDel)).value? = some (rs, some EIO) ∧
        (simDeleted simNoRouteDel).trace = pre ++ [Event.mk (Call.RouteDel r) (some EIO)] ∧
        r ∈ simNoRouteDel.routes ∧
        (updateRoutes simNetlink tableLib (some h0) [routeDirect]
            (simState simNoRouteDel)).state.trace =
          (simDeleted simNoRouteDel).trace ++ evs ++ post ∧
        routeAdds evs = [] ∧ routeDels evs = [] ∧
        (post = [] ∨ post = [Event.mk (Call.Delete h0) none]) ∧
        routeAdds (newEvents (simState simNoRouteDel) (simDeleted simNoRouteDel)) = [] ∧
        (updateRoutes simNetlink tableLib (some h0) [routeDirect]
          (simState simNoRouteDel)).state.routes = (simState simNoRouteDel).routes ∧
        rs = some (kernelTable simNetlink tableLib (simDeleted simNoRouteDel).kernel)) ∧
    (handleReadyWith simNetlink (some h0) (simState simTwoLinks) h0 (simState simTwoLinks) ∧
      invoke Call.RouteList (simNetlink.RouteList (simState simTwoLinks).kernel)
          (simState simTwoLinks) = (Except.ok simTwoLinks.routes, simListed simTwoLinks) ∧
      deleteInitRoutes simNetlink simTwoLinks.routes (simListed simTwoLinks) =
        Res.ret none (simDeleted simTwoLinks) ∧
      twoPass [routeDirect, routeBadDest] = [routeDirect] ++ routeBadDest :: [] ∧
      applyRoutes simNetlink tableLib h0 (fun _ => true) [routeDirect] (simDeleted simTwoLinks) =
        (none, simApplied simTwoLinks) ∧
      updateRoute simNetlink tableLib (some h0) (some routeBadDest) true (simApplied simTwoLinks) =
        (some badDestError,
          (updateRoute simNetlink tableLib (some h0) (some routeBadDest) true
            (simApplied simTwoLinks)).2) ∧
      ∃ (rs : Option (List Route)) (cerr : Option GoError) (sf : State Sim)
          (evs tail : List Event),
        getCurrentRoutes simNetlink tableLib (some h0)
            (updateRoute simNetlink tableLib (some h0) (some routeBadDest) true
              (simApplied simTwoLinks)).2 = Res.ret (rs, cerr) sf ∧
        (updateRoutes simNetlink tableLib (some h0) [routeDirect, routeBadDest]
          (simState simTwoLinks)).value? = some (rs, some badDestError) ∧
        (updateRoutes simNetlink tableLib (some h0) [routeDirect, routeBadDest]
            (simState simTwoLinks)).state.trace =
          (updateRoute simNetlink tableLib (some h0) (some routeBadDest) true
            (simApplied simTwoLinks)).2.trace ++ evs ++ tail ∧
        routeAdds evs = [] ∧ routeDels evs = [] ∧
        (tail = [] ∨ tail = [Event.mk (Call.Delete h0) none]) ∧
        List.Forall₂ (Renders tableLib)
          (routeAdds (newEvents (simDeleted simTwoLinks) (simApplied simTwoLinks)))
          [routeDirect] ∧
        (∀ e ∈ newEvents (simApplied simTwoLinks)
            (updateRoute simNetlink tableLib (some h0) (some routeBadDest) true
              (simApplied simTwoLinks)).2,
          e.err = none → ∀ nr, e.call ≠ Call.RouteAdd nr) ∧
        (updateRoutes simNetlink tableLib (some h0) [routeDirect, routeBadDest]
          (simState simTwoLinks)).state.routes = (simState simTwoLinks).routes ++ [routeDirect] ∧
        rs = some (kernelTable simNetlink tableLib
          (updateRoute simNetlink tableLib (some h0) (some routeBadDest) true
            (simApplied simTwoLinks)).2.kernel) ∧
        routeAdds (newEvents (simDeleted simTwoLinks) (simApplied simTwoLinks)) =
          appliedAdds simNetlink tableLib [routeDirect] (simDeleted simTwoLinks).kernel) ∧
    (kernelTable simNetlink tableLib (simDeleted simNoRouteDel).kernel =
        [{ Dest := "", Gateway := "", Device := "lo", Source := "", Scope := 254 },
         { Dest := "", Gateway := "", Device := "eth0", Source := "", Scope := 0 }] ∧
      (updateRoutes simNetlink tableLib (some h0) [routeDirect]
          (simState simNoRouteDel)).value? =
        some (some [{ Dest := "", Gateway := "", Device := "lo", Source := "", Scope := 254 },
                    { Dest := "", Gateway := "", Device := "eth0", Source := "", Scope := 0 }],
          some EIO) ∧
      kernelTable simNetlink tableLib
          (updateRoute simNetlink tableLib (some h0) (some routeBadDest) true
            (simApplied simTwoLinks)).2.kernel =
        [{ Dest := "", Gateway := "", Device := "lo", Source := "", Scope := 254 }, routeDirect] ∧
      (updateRoutes simNetlink tableLib (some h0) [routeDirect, routeBadDest]
          (simState simTwoLinks)).value? =
        some (some [{ Dest := "", Gateway := "", Device := "lo", Source := "", Scope := 254 },
                    routeDirect], some badDestError) ∧
      appliedAdds simNetlink tableLib [routeDirect] (simDeleted simTwoLinks).kernel =
        [{ LinkIndex := 2,
           Dst := some { IP := NetIP.mk [10, 0, 0, 0], Mask := [255, 255, 255, 0] },
           Src := none, Gw := none, Scope := 253 }]) :=
  ⟨⟨Or.inl ⟨rfl, rfl⟩, rfl, by decide,
      (updateRoutes_abort simNetlink tableLib (some h0) [routeDirect] (simState simNoRouteDel)
        (simState simNoRouteDel) (simListed simNoRouteDel) h0 simNoRouteDel.routes
        (Or.inl ⟨rfl, rfl⟩) rfl).1 EIO (simDeleted simNoRouteDel) (by decide)⟩,
    ⟨Or.inl ⟨rfl, rfl⟩, rfl, by decide, by decide, by decide, by decide,
      (updateRoutes_abort simNetlink tableLib (some h0) [routeDirect, routeBadDest]
        (simState simTwoLinks) (simState simTwoLinks) (simListed simTwoLinks) h0
        simTwoLinks.routes (Or.inl ⟨rfl, rfl⟩) rfl).2 [routeDirect] routeBadDest [] badDestError
        (simDeleted simTwoLinks) (simApplied simTwoLinks)
        (updateRoute simNetlink tableLib (some h0) (some routeBadDest) true
          (simApplied simTwoLinks)).2 (by decide) (by decide) (by decide) (by decide)⟩,
    ⟨by decide, by decide, by decide, by decide, by decide⟩⟩

/-! ## Interfaces: theorems -/

/-- C7, counterexample: a name-only request made without a handle creates a handle
first.  When the creation fails the call returns that error, not invalid-argument;
when it succeeds the call has issued `NewHandle` and `Delete` before failing. -/
theorem updateInterface_name_only_counterexample :
    (updateInterface simNetlink tableLib none (some ifaceNameOnly)
        (simState { links := [lo, eth0], routes := [], addrs := [],
                    failing := [Call.NewHandle] })).value? = some (none, some EIO) ∧
    EIO.code? ≠ some Code.InvalidArgument ∧
    (updateInterface simNetlink tableLib none (some ifaceNameOnly)
        (simState { links := [lo, eth0], routes := [], addrs := [],
                    failing := [Call.NewHandle] })).state.trace =
      [Event.mk Call.NewHandle (some EIO)] ∧
    (updateInterface simNetlink tableLib none (some ifaceNameOnly)
        (simState simTwoLinks)).state.trace =
      [Event.mk Call.NewHandle none, Event.mk (Call.Delete (Handle.mk 1)) none] := by
  decide

/-- C7, amended: for a non-nil descriptor without hardware address, `updateInterface`
called with a handle fails with invalid-argument, returns no interface and issues no
kernel call; called without a handle it first creates one: when the creation fails it
returns that error and no interface, otherwise it fails with invalid-argument, returns
no interface, and its only kernel calls are the creation and the deletion of the
handle. -/
theorem updateInterface_no_hwaddr {K : Type} (nl : Netlink K) (lib : NetLib)
    (iface : Interface) (s : State K) (hhw : iface.HwAddr = "") :
    (∀ h, updateInterface nl lib (some h) (some iface) s =
        Res.ret (none, some (GoError.status Code.InvalidArgument "Interface HwAddr empty" [])) s) ∧
    (∀ err k, nl.NewHandle s.kernel = (Except.error err, k) →
      (updateInterface nl lib none (some iface) s).value? = some (none, some err) ∧
      newEvents s (updateInterface nl lib none (some iface) s).state =
        [Event.mk Call.NewHandle (some err)]) ∧
    (∀ h k, nl.NewHandle s.kernel = (Except.ok h, k) →
      (updateInterface nl lib none (some iface) s).value? =
        some (none, some (GoError.status Code.InvalidArgument "Interface HwAddr empty" [])) ∧
      newEvents s (updateInterface nl lib none (some iface) s).state =
        [Event.mk Call.NewHandle none, Event.mk (Call.Delete h) none]) := by
  refine ⟨?_, ?_, ?_⟩
  · intro h
    simp [updateInterface, updateInterfaceWith, hhw]
  · intro err k hn
    simp [updateInterface, invoke, hn, Res.value?, Res.state, newEvents, errOf]
  · intro h k hn
    simp [updateInterface, updateInterfaceWith, hhw, invoke, hn, Res.value?, Res.state,
      newEvents, errOf, thenDelete, deleteHandle]

/-- C7, witness: the name-only request on the concrete kernel, with a handle, without
one when no handle can be made, and without one when it can. -/
theorem updateInterface_no_hwaddr_witness :
    ifaceNameOnly.HwAddr = "" ∧
    updateInterface simNetlink tableLib (some h0) (some ifaceNameOnly) (simState simTwoLinks) =
      Res.ret (none, some hwAddrEmptyError) (simState simTwoLinks) ∧
    (simNetlink.NewHandle (simState simNoHandle).kernel = (Except.error EIO, simNoHandle) ∧
      (updateInterface simNetlink tableLib none (some ifaceNameOnly)
        (simState simNoHandle)).value? = some (none, some EIO) ∧
      newEvents (simState simNoHandle)
          (updateInterface simNetlink tableLib none (some ifaceNameOnly)
            (simState simNoHandle)).state = [Event.mk Call.NewHandle (some EIO)]) ∧
    (simNetlink.NewHandle (simState simTwoLinks).kernel = (Except.ok (Handle.mk 1), simTwoLinks) ∧
      (updateInterface simNetlink tableLib none (some ifaceNameOnly)
        (simState simTwoLinks)).value? = some (none, some hwAddrEmptyError) ∧
      newEvents (simState simTwoLinks)
          (updateInterface simNetlink tableLib none (some ifaceNameOnly)
            (simState simTwoLinks)).state =
        [Event.mk Call.NewHandle none, Event.mk (Call.Delete (Handle.mk 1)) none]) :=
  ⟨by decide,
    (updateInterface_no_hwaddr simNetlink tableLib ifaceNameOnly (simState simTwoLinks)
      (by decide)).1 h0,
    ⟨rfl, (updateInterface_no_hwaddr simNetlink tableLib ifaceNameOnly (simState simNoHandle)
      (by decide)).2.1 EIO simNoHandle rfl⟩,
    ⟨rfl, (updateInterface_no_hwaddr simNetlink tableLib ifaceNameOnly (simState simTwoLinks)
      (by decide)).2.2 (Handle.mk 1) simTwoLinks rfl⟩⟩

/-- With a handle at hand `updateInterface` is its main part, followed by the deferred
`Delete` when the handle was created by the call. -/
theorem updateInterface_of_ready {K : Type} (nl : Netlink K) (lib : NetLib)
    (netHandle : Option Handle) (iface : Interface) (s s0 : State K)
    (hacq : handleReady nl netHandle s s0) :
    (updateInterface nl lib netHandle (some iface) s).value? =
      (updateInterfaceWith nl lib iface s0).value? ∧
    ∃ post, (updateInterface nl lib netHandle (some iface) s).state.trace =
        (updateInterfaceWith nl lib iface s0).state.trace ++ post ∧
      (post = [] ∨ ∃ h, post = [Event.mk (Call.Delete h) none]) := by
  rcases hacq with ⟨h, hn, hs⟩ | ⟨hn, h, hinv⟩
  · subst hn; subst hs
    exact ⟨rfl, [], by simp [updateInterface], Or.inl rfl⟩
  · subst hn
    simp only [updateInterface, hinv]
    rcases updateInterfaceWith nl lib iface s0 with ⟨v, sf⟩ | sf
    · exact ⟨rfl, [Event.mk (Call.Delete h) none], rfl, Or.inr ⟨h, rfl⟩⟩
    · exact ⟨rfl, [Event.mk (Call.Delete h) none], rfl, Or.inr ⟨h, rfl⟩⟩

/-- The function `getInterface` returns: it lists the addresses once. -/
theorem getInterface_ret {K : Type} (nl : Netlink K) (lib : NetLib) (link : Link) (s : State K) :
    ∃ ifc cerr sg, getInterface nl lib link s = Res.ret (ifc, cerr) sg ∧
      sg.trace = s.trace ++ [Event.mk (Call.AddrList link) cerr] := by
  simp only [getInterface, Link.Attrs, invoke]
  rcases nl.AddrList link s.kernel with ⟨res, k⟩
  cases res with
  | error e => exact ⟨_, _, _, rfl, rfl⟩
  | ok addrs => exact ⟨_, _, _, rfl, rfl⟩

/-- C5: once the link is resolved, `updateInterface` returns, and `LinkSetUp` on that
link is the call issued after the update stage and the re-read, followed at most by the
deferred `Delete` of a handle the call created.  The returned error is the error of the
update stage (set-down or `updateLink`) whenever that stage failed, whatever
`LinkSetUp` returned; it is the error of `LinkSetUp` when the update stage succeeded;
and it is nil exactly when both succeeded. -/
theorem updateInterface_two_stage {K : Type} (nl : Netlink K) (lib : NetLib)
    (netHandle : Option Handle) (iface : Interface) (s s0 s1 : State K) (link : Link)
    (hhw : iface.HwAddr ≠ "") (hacq : handleReady nl netHandle s s0)
    (hres : linkByHwAddr nl iface.HwAddr s0 = (Except.ok link, s1)) :
    ∃ (ifc : Option Interface) (err : Option GoError) (sp : State K)
        (restoreErr : Option GoError) (post : List Event),
      (updateInterface nl lib netHandle (some iface) s).value? = some (ifc, err) ∧
      (∃ mid, sp.trace = (updateInterfaceBody nl lib link iface s1).2.trace ++ mid) ∧
      restoreErr = (nl.LinkSetUp link sp.kernel).1 ∧
      (updateInterface nl lib netHandle (some iface) s).state.trace =
        sp.trace ++ Event.mk (Call.LinkSetUp link) restoreErr :: post ∧
      (post = [] ∨ ∃ h, post = [Event.mk (Call.Delete h) none]) ∧
      (∀ e, (updateInterfaceBody nl lib link iface s1).1 = some e → err = some e) ∧
      ((updateInterfaceBody nl lib link iface s1).1 = none → err = restoreErr) ∧
      (err = none ↔ (updateInterfaceBody nl lib link iface s1).1 = none ∧ restoreErr = none) := by
  obtain ⟨hval, post, htr, hpost⟩ := updateInterface_of_ready nl lib netHandle iface s s0 hacq
  rw [hval, htr]
  simp only [updateInterfaceWith, hhw, hres, ne_eq, not_false_eq_true, if_true]
  rcases hb : (updateInterfaceBody nl lib link iface s1).1 with _ | e
  · refine ⟨some iface, (nl.LinkSetUp link (updateInterfaceBody nl lib link iface s1).2.kernel).1,
      (updateInterfaceBody nl lib link iface s1).2, _, post, ?_, ⟨[], by simp⟩, rfl, ?_, hpost,
      ?_, ?_, ?_⟩
    · simp [updateInterfaceDeferred, restoreUp, invokeErr, Res.value?]
    · simp [updateInterfaceDeferred, restoreUp, invokeErr, Res.state]
    · intro e he; simp at he
    · intro _; rfl
    · simp
  · obtain ⟨ifc, cerr, sg, hg, hgt⟩ := getInterface_ret nl lib link
      (updateInterfaceBody nl lib link iface s1).2
    refine ⟨ifc, some e, sg, (nl.LinkSetUp link sg.kernel).1, post, ?_, ⟨_, hgt⟩, rfl, ?_, hpost,
      ?_, ?_, ?_⟩
    · simp [updateInterfaceDeferred, hg, restoreUp, invokeErr, Res.value?]
    · simp [updateInterfaceDeferred, hg, restoreUp, invokeErr, Res.state]
    · intro e' he'; exact he'
    · intro h; simp at h
    · simp

/-- C5, witness: the request for `eth0` on the concrete kernel, with a handle. -/
theorem updateInterface_two_stage_witness :
    ifaceRequest.HwAddr ≠ "" ∧
    handleReady simNetlink (some h0) (simState simNoSetUp) (simState simNoSetUp) ∧
    linkByHwAddr simNetlink ifaceRequest.HwAddr (simState simNoSetUp) =
      (Except.ok eth0, (linkByHwAddr simNetlink ifaceRequest.HwAddr (simState simNoSetUp)).2) ∧
    ∃ (ifc : Option Interface) (err : Option GoError) (sp : State Sim)
        (restoreErr : Option GoError) (post : List Event),
      (updateInterface simNetlink tableLib (some h0) (some ifaceRequest)
        (simState simNoSetUp)).value? = some (ifc, err) ∧
      (∃ mid, sp.trace = (updateInterfaceBody simNetlink tableLib eth0 ifaceRequest
        (linkByHwAddr simNetlink ifaceRequest.HwAddr (simState simNoSetUp)).2).2.trace ++ mid) ∧
      restoreErr = (simNetlink.LinkSetUp eth0 sp.kernel).1 ∧
      (updateInterface simNetlink tableLib (some h0) (some ifaceRequest)
        (simState simNoSetUp)).state.trace =
        sp.trace ++ Event.mk (Call.LinkSetUp eth0) restoreErr :: post ∧
      (post = [] ∨ ∃ h, post = [Event.mk (Call.Delete h) none]) ∧
      (∀ e, (updateInterfaceBody simNetlink tableLib eth0 ifaceRequest
        (linkByHwAddr simNetlink ifaceRequest.HwAddr (simState simNoSetUp)).2).1 = some e →
          err = some e) ∧
      ((updateInterfaceBody simNetlink tableLib eth0 ifaceRequest
        (linkByHwAddr simNetlink ifaceRequest.HwAddr (simState simNoSetUp)).2).1 = none →
          err = restoreErr) ∧
      (err = none ↔ (updateInterfaceBody simNetlink tableLib eth0 ifaceRequest
        (linkByHwAddr simNetlink ifaceRequest.HwAddr (simState simNoSetUp)).2).1 = none ∧
          restoreErr = none) :=
  ⟨by decide, Or.inl ⟨h0, rfl, rfl⟩, rfl,
    updateInterface_two_stage simNetlink tableLib (some h0) ifaceRequest (simState simNoSetUp)
      (simState simNoSetUp) _ eth0 (by decide) (Or.inl ⟨h0, rfl, rfl⟩) rfl⟩

/-- What the deferred function of `updateInterface` returns for a call that resolved the
link: after a failed update stage, the descriptor `getInterface` builds for the link
object resolved before the update, with the error of the update stage; after a
successful update stage, the requested descriptor with the error of `LinkSetUp`. -/
theorem updateInterface_returned_descriptor {K : Type} (nl : Netlink K) (lib : NetLib)
    (netHandle : Option Handle) (iface : Interface) (s s0 s1 : State K) (link : Link)
    (hhw : iface.HwAddr ≠ "") (hacq : handleReady nl netHandle s s0)
    (hres : linkByHwAddr nl iface.HwAddr s0 = (Except.ok link, s1)) :
    (∀ e, (updateInterfaceBody nl lib link iface s1).1 = some e →
      ∃ (ifc : Option Interface) (cerr : Option GoError) (sg : State K),
        getInterface nl lib link (updateInterfaceBody nl lib link iface s1).2 =
          Res.ret (ifc, cerr) sg ∧
        (updateInterface nl lib netHandle (some iface) s).value? = some (ifc, some e)) ∧
    ((updateInterfaceBody nl lib link iface s1).1 = none →
      (updateInterface nl lib netHandle (some iface) s).value? =
        some (some iface,
          (nl.LinkSetUp link (updateInterfaceBody nl lib link iface s1).2.kernel).1)) := by
  obtain ⟨hval, _⟩ := updateInterface_of_ready nl lib netHandle iface s s0 hacq
  rw [hval]
  simp only [updateInterfaceWith, hhw, hres, ne_eq, not_false_eq_true, if_true]
  constructor
  · intro e hb
    obtain ⟨ifc, cerr, sg, hg, _⟩ := getInterface_ret nl lib link
      (updateInterfaceBody nl lib link iface s1).2
    refine ⟨ifc, cerr, sg, hg, ?_⟩
    simp [hb, updateInterfaceDeferred, hg, restoreUp, invokeErr, Res.value?]
  · intro hb
    simp [hb, updateInterfaceDeferred, restoreUp, invokeErr, Res.value?]

/-- C6, the code at two failing inputs.  On a kernel where renaming `eth0` to "net0"
succeeds and setting the MTU fails, `updateInterface` returns the error together with a
descriptor named "eth0" with MTU 1500, copied from the link object listed before the
update, while the kernel link with that hardware address is then named "net0".  On a
kernel where every update step succeeds and setting the link up fails, it returns that
error together with the requested descriptor. -/
theorem updateInterface_error_descriptor_diverges :
    ((updateInterface simNetlink tableLib (some h0) (some ifaceRequest)
        (simState simNoMTU)).value? =
      some (some { Device := "", Name := "eth0", Mtu := 1500, HwAddr := "02:00:ca:fe:00:01"
                   IPAddresses := [{ Family := 0, Address := "10.0.0.2", Mask := "24" }] },
        some mtuError) ∧
      (findByHwAddr ifaceRequest.HwAddr
        (updateInterface simNetlink tableLib (some h0) (some ifaceRequest)
          (simState simNoMTU)).state.kernel.links).map (fun l => l.attrs.Name) = some "net0") ∧
    ((updateInterfaceBody simNetlink tableLib eth0 ifaceRequest (simResolved simNoSetUp)).1 =
        none ∧
      (updateInterface simNetlink tableLib (some h0) (some ifaceRequest)
        (simState simNoSetUp)).value? = some (some ifaceRequest, some EIO)) := by
  decide

theorem FailStops_append {a b : List Event} (ha : FailStops a) (hb : FailStops b)
    (hab : b ≠ [] → ∀ e ∈ a, e.err = none) : FailStops (a ++ b) := by
  induction a with
  | nil => simpa using hb
  | cons e rest ih =>
    obtain ⟨h1, h2⟩ := ha
    refine ⟨?_, ih h2 (fun hne x hx => hab hne x (List.mem_cons_of_mem _ hx))⟩
    intro hne
    have hrest := h1 hne
    by_cases hbn : b = []
    · simp [hrest, hbn]
    · exact absurd (hab hbn e (List.mem_cons_self _ _)) hne

theorem FailStops_dropLast {evs : List Event} (h : FailStops evs) :
    ∀ e ∈ evs.dropLast, e.err = none := by
  induction evs with
  | nil => simp
  | cons x rest ih =>
    obtain ⟨h1, h2⟩ := h
    cases rest with
    | nil => simp
    | cons y rest2 =>
      intro e he
      rw [List.dropLast_cons₂] at he
      rcases List.mem_cons.mp he with h' | h'
      · subst h'
        by_contra hne
        exact absurd (h1 hne) (by simp)
      · exact ih h2 e h'

theorem FailStops_getLast {evs : List Event} (h : FailStops evs) {x : Event} (hx : x ∈ evs)
    (hne : x.err ≠ none) : evs.getLast? = some x := by
  induction evs with
  | nil => simp at hx
  | cons e rest ih =>
    obtain ⟨h1, h2⟩ := h
    rcases List.mem_cons.mp hx with hxe | hxr
    · subst hxe
      rw [h1 hne]; rfl
    · cases rest with
      | nil => simp at hxr
      | cons y rest2 =>
        rw [List.getLast?_cons_cons]
        exact ih h2 hxr

/-- The first loop of `updateLink`: it deletes a prefix of the listed addresses in
order, stops at the first failed call, and succeeds only after deleting all. -/
theorem delAddrs_spec {K : Type} (nl : Netlink K) (link : Link) (l : List Addr) (s : State K) :
    ∃ (dels : List Addr) (evs : List Event),
      (delAddrs nl link l s).2.trace = s.trace ++ evs ∧
      evs.map Event.call = dels.map (Call.AddrDel link) ∧ dels <+: l ∧ FailStops evs ∧
      (((delAddrs nl link l s).1 = none ∧ dels = l ∧ ∀ e ∈ evs, e.err = none) ∨
        (∃ err, (delAddrs nl link l s).1 = some err ∧ err.code? = some Code.Internal ∧
          ∃ e ∈ evs, e.err ≠ none)) := by
  induction l generalizing s with
  | nil => exact ⟨[], [], by simp [delAddrs], rfl, List.prefix_refl _, trivial, Or.inl ⟨rfl, rfl, by simp⟩⟩
  | cons a rest ih =>
    simp only [delAddrs, invokeErr]
    rcases hd : nl.AddrDel link a s.kernel with ⟨derr, k⟩
    cases derr with
    | some e =>
      refine ⟨[a], [Event.mk (Call.AddrDel link a) (some e)], rfl, rfl, ?_, ?_, Or.inr ?_⟩
      · exact (List.prefix_cons_inj a).mpr (List.nil_prefix)
      · exact ⟨fun _ => rfl, trivial⟩
      · exact ⟨_, rfl, rfl, _, List.mem_cons_self _ _, by simp⟩
    | none =>
      simp only []
      obtain ⟨dels, evs, ht, hm, hp, hf, hc⟩ := ih
        { s with kernel := k, trace := s.trace ++ [Event.mk (Call.AddrDel link a) none] }
      refine ⟨a :: dels, Event.mk (Call.AddrDel link a) none :: evs, ?_, ?_, ?_, ?_, ?_⟩
      · simpa using ht
      · simp [hm]
      · exact (List.prefix_cons_inj a).mpr hp
      · exact ⟨fun hne => absurd rfl hne, hf⟩
      · rcases hc with ⟨hn, hd', hok⟩ | ⟨err, he, hcode, e, hmem, hne⟩
        · refine Or.inl ⟨hn, by rw [hd'], ?_⟩
          intro e he
          rcases List.mem_cons.mp he with h' | h'
          · rw [h']
          · exact hok e h'
        · exact Or.inr ⟨err, he, hcode, e, List.mem_cons_of_mem _ hmem, hne⟩

/-- The second loop of `updateLink`: it adds the parsed form of a prefix of the
requested addresses in order, stops at the first failed call or failed parse, and
succeeds only after adding all. -/
theorem addAddrs_spec {K : Type} (nl : Netlink K) (lib : NetLib) (link : Link)
    (l : List IPAddress) (s : State K) :
    ∃ (adds : List Addr) (evs : List Event),
      (addAddrs nl lib link l s).2.trace = s.trace ++ evs ∧
      evs.map Event.call = adds.map (Call.AddrAdd link) ∧
      adds.length ≤ l.length ∧
      List.Forall₂ (fun a addr => lib.ParseAddr (netlinkAddrStr addr) = Except.ok a)
        adds (l.take adds.length) ∧
      FailStops evs ∧
      (((addAddrs nl lib link l s).1 = none ∧ adds.length = l.length ∧ ∀ e ∈ evs, e.err = none) ∨
        (∃ err, (addAddrs nl lib link l s).1 = some err ∧ err.code? = some Code.Internal ∧
          ((∃ e ∈ evs, e.err ≠ none) ∨
            ∃ addr perr, l.get? adds.length = some addr ∧
              lib.ParseAddr (netlinkAddrStr addr) = Except.error perr))) := by
  induction l generalizing s with
  | nil =>
    exact ⟨[], [], by simp [addAddrs], rfl, le_refl _, List.Forall₂.nil, trivial,
      Or.inl ⟨rfl, rfl, by simp⟩⟩
  | cons addr rest ih =>
    simp only [addAddrs, invokeErr]
    rcases hp : lib.ParseAddr (netlinkAddrStr addr) with perr | a
    · refine ⟨[], [], by simp, rfl, Nat.zero_le _, List.Forall₂.nil, trivial, Or.inr ?_⟩
      exact ⟨_, rfl, rfl, Or.inr ⟨addr, perr, rfl, hp⟩⟩
    · simp only []
      rcases ha : nl.AddrAdd link a s.kernel with ⟨aerr, k⟩
      cases aerr with
      | some e =>
        refine ⟨[a], [Event.mk (Call.AddrAdd link a) (some e)], rfl, rfl, by simp, ?_, ?_, Or.inr ?_⟩
        · simpa using hp
        · exact ⟨fun _ => rfl, trivial⟩
        · exact ⟨_, rfl, rfl, Or.inl ⟨_, List.mem_cons_self _ _, by simp⟩⟩
      | none =>
        simp only []
        obtain ⟨adds, evs, ht, hm, hlen, hfa, hf, hc⟩ := ih
          { s with kernel := k, trace := s.trace ++ [Event.mk (Call.AddrAdd link a) none] }
        refine ⟨a :: adds, Event.mk (Call.AddrAdd link a) none :: evs, ?_, ?_, ?_, ?_, ?_, ?_⟩
        · simpa using ht
        · simp [hm]
        · simpa using hlen
        · simpa using And.intro hp hfa
        · exact ⟨fun hne => absurd rfl hne, hf⟩
        · rcases hc with ⟨hn, hl', hok⟩ | ⟨err, he, hcode, hcause⟩
          · refine Or.inl ⟨hn, by simp [hl'], ?_⟩
            intro e he
            rcases List.mem_cons.mp he with h' | h'
            · rw [h']
            · exact hok e h'
          · refine Or.inr ⟨err, he, hcode, ?_⟩
            rcases hcause with ⟨e, hmem, hne⟩ | ⟨ad, perr, hget, hperr⟩
            · exact Or.inl ⟨e, List.mem_cons_of_mem _ hmem, hne⟩
            · exact Or.inr ⟨ad, perr, by simpa using hget, hperr⟩

/-- A run of `updateLink`: its calls are `AddrList`, `AddrDel` for a prefix of the listed
addresses, `AddrAdd` for the parsed form of a prefix of the requested addresses, then a
prefix of `LinkSetName`, `LinkSetMTU`; each phase starts only after the one before it
completed; a failed call is the last call; and the run ends with an error only at a
failed call or at a requested address that does not parse. -/
theorem updateLink_run {K : Type} (nl : Netlink K) (lib : NetLib) (link : Link)
    (iface : Interface) (s : State K) :
    ∃ (linkIPs dels adds : List Addr) (tail : List Call) (evs : List Event),
      (updateLink nl lib link iface s).2.trace = s.trace ++ evs ∧
      evs.map Event.call = Call.AddrList link ::
        (dels.map (Call.AddrDel link) ++ adds.map (Call.AddrAdd link) ++ tail) ∧
      ((nl.AddrList link s.kernel).1 = Except.ok linkIPs ∨
        ((∃ e, (nl.AddrList link s.kernel).1 = Except.error e) ∧ linkIPs = [])) ∧
      dels <+: linkIPs ∧
      adds.length ≤ iface.IPAddresses.length ∧
      List.Forall₂ (fun a addr => lib.ParseAddr (netlinkAddrStr addr) = Except.ok a)
        adds (iface.IPAddresses.take adds.length) ∧
      tail <+: [Call.LinkSetName link iface.Name, Call.LinkSetMTU link (uint64ToInt iface.Mtu)] ∧
      (adds ≠ [] → dels = linkIPs) ∧
      (tail ≠ [] → dels = linkIPs ∧ adds.length = iface.IPAddresses.length) ∧
      (∀ e ∈ evs.dropLast, e.err = none) ∧
      ((updateLink nl lib link iface s).1 = none ↔
        (∀ e ∈ evs, e.err = none) ∧
          tail = [Call.LinkSetName link iface.Name, Call.LinkSetMTU link (uint64ToInt iface.Mtu)]) ∧
      (∀ err, (updateLink nl lib link iface s).1 = some err → err.code? = some Code.Internal) ∧
      ((updateLink nl lib link iface s).1 ≠ none →
        (∃ e, evs.getLast? = some e ∧ e.err ≠ none) ∨
        (dels = linkIPs ∧ tail = [] ∧
          ∃ addr perr, iface.IPAddresses.get? adds.length = some addr ∧
            lib.ParseAddr (netlinkAddrStr addr) = Except.error perr)) := by
  simp only [updateLink, invoke, invokeErr]
  rcases hal : nl.AddrList link s.kernel with ⟨res, k⟩
  cases res with
  | error e =>
    refine ⟨[], [], [], [], [Event.mk (Call.AddrList link) (some e)], rfl, rfl,
      Or.inr ⟨⟨e, rfl⟩, rfl⟩, List.prefix_refl _, Nat.zero_le _, List.Forall₂.nil,
      List.nil_prefix, fun h => absurd rfl h, fun h => absurd rfl h, by simp, ?_, ?_, ?_⟩
    · simp [errOf]
    · intro err he
      simp only [Option.some.injEq] at he
      rw [← he]; rfl
    · intro _
      exact Or.inl ⟨_, rfl, by simp [errOf]⟩
  | ok linkIPs =>
    simp only []
    obtain ⟨dels, evsD, htD, hmD, hpD, hfD, hcD⟩ := delAddrs_spec nl link linkIPs
      { s with kernel := k, trace := s.trace ++
          [Event.mk (Call.AddrList link) (errOf (Except.ok linkIPs))] }
    rcases hdel : delAddrs nl link linkIPs
      { s with kernel := k, trace := s.trace ++
          [Event.mk (Call.AddrList link) (errOf (Except.ok linkIPs))] } with ⟨derr, s2⟩
    rw [hdel] at htD hcD
    simp only [errOf] at htD hcD
    have hAL : FailStops [Event.mk (Call.AddrList link) none] := ⟨fun _ => rfl, trivial⟩
    have hALok : ∀ e ∈ [Event.mk (Call.AddrList link) none], e.err = none := by
      intro e he; rw [List.mem_singleton.mp he]
    cases derr with
    | some e =>
      rcases hcD with ⟨hn, _⟩ | ⟨err, he, hcode, x, hx, hxne⟩
      · simp at hn
      · simp only [Option.some.injEq] at he
        subst he
        refine ⟨linkIPs, dels, [], [], Event.mk (Call.AddrList link) none :: evsD, ?_, ?_,
          Or.inl rfl, hpD, Nat.zero_le _, List.Forall₂.nil, List.nil_prefix,
          fun h => absurd rfl h, fun h => absurd rfl h, ?_, ?_, ?_, ?_⟩
        · simpa using htD
        · simp [hmD]
        · exact FailStops_dropLast (FailStops_append hAL hfD (fun _ => hALok))
        · constructor
          · intro h; simp at h
          · rintro ⟨hall, _⟩
            exact absurd (hall x (List.mem_cons_of_mem _ hx)) hxne
        · intro err he
          simp only [Option.some.injEq] at he
          rw [← he]; exact hcode
        · intro _
          exact Or.inl ⟨x, FailStops_getLast (FailStops_append hAL hfD (fun _ => hALok))
            (List.mem_cons_of_mem _ hx) hxne, hxne⟩
    | none =>
      rcases hcD with ⟨_, hdeq, hokD⟩ | ⟨err, he, _⟩
      swap
      · simp at he
      simp only []
      obtain ⟨adds, evsA, htA, hmA, hlenA, hfaA, hfA, hcA⟩ :=
        addAddrs_spec nl lib link iface.IPAddresses s2
      rcases hadd : addAddrs nl lib link iface.IPAddresses s2 with ⟨aerr, s3⟩
      rw [hadd] at htA hcA
      simp only at htA hcA
      have hDok : ∀ e ∈ [Event.mk (Call.AddrList link) none] ++ evsD, e.err = none := by
        intro e he
        rcases List.mem_append.mp he with h' | h'
        · exact hALok e h'
        · exact hokD e h'
      have hFD : FailStops ([Event.mk (Call.AddrList link) none] ++ evsD) :=
        FailStops_append hAL hfD (fun _ => hALok)
      have hFA : FailStops ([Event.mk (Call.AddrList link) none] ++ evsD ++ evsA) :=
        FailStops_append hFD hfA (fun _ => hDok)
      cases aerr with
      | some e =>
        rcases hcA with ⟨hn, _⟩ | ⟨err, he, hcode, hcause⟩
        · simp at hn
        · simp only [Option.some.injEq] at he
          subst he
          refine ⟨linkIPs, dels, adds, [],
            [Event.mk (Call.AddrList link) none] ++ evsD ++ evsA, ?_, ?_,
            Or.inl rfl, hpD, hlenA, hfaA, List.nil_prefix,
            fun _ => hdeq, fun h => absurd rfl h, FailStops_dropLast hFA, ?_, ?_, ?_⟩
          · rw [htA, htD]; simp
          · simp [hmD, hmA]
          · constructor
            · intro h; simp at h
            · rintro ⟨_, ht⟩
              simp at ht
          · intro err he
            simp only [Option.some.injEq] at he
            rw [← he]; exact hcode
          · intro _
            rcases hcause with ⟨x, hx, hxne⟩ | ⟨addr, perr, hget, hperr⟩
            · exact Or.inl ⟨x, FailStops_getLast hFA (List.mem_append.mpr (Or.inr hx)) hxne, hxne⟩
            · exact Or.inr ⟨hdeq, rfl, addr, perr, hget, hperr⟩
      | none =>
        rcases hcA with ⟨_, hleq, hokA⟩ | ⟨err, he, _⟩
        swap
        · simp at he
        simp only []
        have hAok : ∀ e ∈ [Event.mk (Call.AddrList link) none] ++ evsD ++ evsA, e.err = none := by
          intro e he
          rcases List.mem_append.mp he with h' | h'
          · exact hDok e h'
          · exact hokA e h'
        rcases hsn : nl.LinkSetName link iface.Name s3.kernel with ⟨nerr, k4⟩
        cases nerr with
        | some e =>
          refine ⟨linkIPs, dels, adds, [Call.LinkSetName link iface.Name],
            [Event.mk (Call.AddrList link) none] ++ evsD ++ evsA ++
              [Event.mk (Call.LinkSetName link iface.Name) (some e)], ?_, ?_,
            Or.inl rfl, hpD, hlenA, hfaA, ?_, fun _ => hdeq, fun _ => ⟨hdeq, hleq⟩, ?_, ?_, ?_, ?_⟩
          · simp [htA, htD]
          · simp [hmD, hmA]
          · exact (List.prefix_cons_inj _).mpr List.nil_prefix
          · exact FailStops_dropLast (FailStops_append hFA ⟨fun _ => rfl, trivial⟩ (fun _ => hAok))
          · constructor
            · intro h; simp at h
            · rintro ⟨_, ht⟩
              simp at ht
          · intro err he
            simp only [Option.some.injEq] at he
            rw [← he]; rfl
          · intro _
            exact Or.inl ⟨Event.mk (Call.LinkSetName link iface.Name) (some e),
              List.getLast?_concat _, by simp⟩
        | none =>
          simp only []
          have hNok : ∀ e ∈ [Event.mk (Call.AddrList link) none] ++ evsD ++ evsA ++
              [Event.mk (Call.LinkSetName link iface.Name) none], e.err = none := by
            intro e he
            rcases List.mem_append.mp he with h' | h'
            · exact hAok e h'
            · rw [List.mem_singleton.mp h']
          have hFN : FailStops ([Event.mk (Call.AddrList link) none] ++ evsD ++ evsA ++
              [Event.mk (Call.LinkSetName link iface.Name) none]) :=
            FailStops_append hFA ⟨fun _ => rfl, trivial⟩ (fun _ => hAok)
          rcases hsm : nl.LinkSetMTU link (uint64ToInt iface.Mtu) k4 with ⟨merr, k5⟩
          refine ⟨linkIPs, dels, adds,
            [Call.LinkSetName link iface.Name, Call.LinkSetMTU link (uint64ToInt iface.Mtu)],
            [Event.mk (Call.AddrList link) none] ++ evsD ++ evsA ++
              [Event.mk (Call.LinkSetName link iface.Name) none] ++
              [Event.mk (Call.LinkSetMTU link (uint64ToInt iface.Mtu)) merr], ?_, ?_,
            Or.inl rfl, hpD, hlenA, hfaA, List.prefix_refl _, fun _ => hdeq,
            fun _ => ⟨hdeq, hleq⟩, ?_, ?_, ?_, ?_⟩
          · cases merr <;> simp [htA, htD]
          · simp [hmD, hmA]
          · exact FailStops_dropLast (FailStops_append hFN ⟨fun _ => rfl, trivial⟩ (fun _ => hNok))
          · cases merr with
            | none =>
              simp only [true_iff, and_true]
              intro e he
              rcases List.mem_append.mp he with h' | h'
              · exact hNok e h'
              · rw [List.mem_singleton.mp h']
            | some e =>
              constructor
              · intro h; simp at h
              · rintro ⟨hall, _⟩
                have := hall (Event.mk (Call.LinkSetMTU link (uint64ToInt iface.Mtu)) (some e))
                  (by simp)
                simp at this
          · intro err he
            cases merr with
            | none => simp at he
            | some e =>
              simp only [Option.some.injEq] at he
              rw [← he]; rfl
          · intro hne
            cases merr with
            | none => simp at hne
            | some e =>
              exact Or.inl ⟨Event.mk (Call.LinkSetMTU link (uint64ToInt iface.Mtu)) (some e),
                List.getLast?_concat _, by simp⟩

/-- C8: the calls of `updateLink` are, in this order, `AddrList`, `AddrDel` for a prefix
of the listed addresses, `AddrAdd` for the parsed form of a prefix of the requested
addresses in input order, then a prefix of `LinkSetName`, `LinkSetMTU`.  An address is
added only after every listed address was deleted, name and MTU are set only after
every listed address was deleted and every requested address was added, a failed call
is the last call, the call succeeds exactly when every call succeeded and the MTU was
set, every failure is an internal error, and the run ends with an error only at a
failed call or at a requested address that does not parse.  When every call succeeds
and every requested address parses, the whole plan is carried out: the listing, the
deletion of every listed address, the addition of every requested address, the name
and the MTU, and the call returns nil. -/
theorem updateLink_order {K : Type} (nl : Netlink K) (lib : NetLib) (link : Link)
    (iface : Interface) (s : State K) :
    (∃ (linkIPs dels adds : List Addr) (tail : List Call) (evs : List Event),
      (updateLink nl lib link iface s).2.trace = s.trace ++ evs ∧
      evs.map Event.call = Call.AddrList link ::
        (dels.map (Call.AddrDel link) ++ adds.map (Call.AddrAdd link) ++ tail) ∧
      ((nl.AddrList link s.kernel).1 = Except.ok linkIPs ∨
        ((∃ e, (nl.AddrList link s.kernel).1 = Except.error e) ∧ linkIPs = [])) ∧
      dels <+: linkIPs ∧
      adds.length ≤ iface.IPAddresses.length ∧
      List.Forall₂ (fun a addr => lib.ParseAddr (netlinkAddrStr addr) = Except.ok a)
        adds (iface.IPAddresses.take adds.length) ∧
      tail <+: [Call.LinkSetName link iface.Name, Call.LinkSetMTU link (uint64ToInt iface.Mtu)] ∧
      (adds ≠ [] → dels = linkIPs) ∧
      (tail ≠ [] → dels = linkIPs ∧ adds.length = iface.IPAddresses.length) ∧
      (∀ e ∈ evs.dropLast, e.err = none) ∧
      ((updateLink nl lib link iface s).1 = none ↔
        (∀ e ∈ evs, e.err = none) ∧
          tail = [Call.LinkSetName link iface.Name, Call.LinkSetMTU link (uint64ToInt iface.Mtu)]) ∧
      (∀ err, (updateLink nl lib link iface s).1 = some err → err.code? = some Code.Internal) ∧
      ((updateLink nl lib link iface s).1 ≠ none →
        (∃ e, evs.getLast? = some e ∧ e.err ≠ none) ∨
        (dels = linkIPs ∧ tail = [] ∧
          ∃ addr perr, iface.IPAddresses.get? adds.length = some addr ∧
            lib.ParseAddr (netlinkAddrStr addr) = Except.error perr))) ∧
    ((∀ e ∈ newEvents s (updateLink nl lib link iface s).2, e.err = none) →
      (∀ addr ∈ iface.IPAddresses, (lib.ParseAddr (netlinkAddrStr addr)).isOk = true) →
      (updateLink nl lib link iface s).1 = none ∧
      ∃ (linkIPs adds : List Addr),
        (nl.AddrList link s.kernel).1 = Except.ok linkIPs ∧
        List.Forall₂ (fun a addr => lib.ParseAddr (netlinkAddrStr addr) = Except.ok a)
          adds iface.IPAddresses ∧
        (newEvents s (updateLink nl lib link iface s).2).map Event.call =
          Call.AddrList link ::
            (linkIPs.map (Call.AddrDel link) ++ adds.map (Call.AddrAdd link) ++
              [Call.LinkSetName link iface.Name,
                Call.LinkSetMTU link (uint64ToInt iface.Mtu)])) := by
  refine ⟨updateLink_run nl lib link iface s, ?_⟩
  obtain ⟨linkIPs, dels, adds, tail, evs, ht, hm, hlist, _, _, hfa, _, _, htail, _, hiff, _, hstop⟩ :=
    updateLink_run nl lib link iface s
  intro hok hparse
  rw [newEvents_of_trace ht] at hok ⊢
  have hres : (updateLink nl lib link iface s).1 = none := by
    by_contra hne
    rcases hstop hne with ⟨e, hlast, hfail⟩ | ⟨_, _, addr, perr, hget, hperr⟩
    · exact hfail (hok e (List.mem_of_getLast?_eq_some hlast))
    · have := hparse addr (List.get?_mem hget)
      rw [hperr] at this
      simp [Except.isOk, Except.toBool] at this
  obtain ⟨_, htl⟩ := hiff.mp hres
  obtain ⟨hdels, hadds⟩ := htail (by rw [htl]; simp)
  refine ⟨hres, linkIPs, adds, ?_, ?_, ?_⟩
  · rcases hlist with h | ⟨⟨e, he⟩, _⟩
    · exact h
    · exfalso
      rcases hk : nl.AddrList link s.kernel with ⟨r, k⟩
      rw [hk] at he
      simp only at he
      subst he
      simp [updateLink, invoke, hk] at hres
  · rw [hadds, List.take_length] at hfa
    exact hfa
  · rw [hm, hdels, htl]

/-- C8, witness: on a concrete kernel where `eth0` carries one address, every call
succeeds and the requested address parses; the old address is deleted, the requested
one added, then the name and the MTU are set. -/
theorem updateLink_order_witness :
    (∀ e ∈ newEvents (simState simWithAddr)
        (updateLink simNetlink tableLib eth0 ifaceRequest (simState simWithAddr)).2,
      e.err = none) ∧
    (∀ addr ∈ ifaceRequest.IPAddresses,
      (tableLib.ParseAddr (netlinkAddrStr addr)).isOk = true) ∧
    (updateLink simNetlink tableLib eth0 ifaceRequest (simState simWithAddr)).2.trace.map
        Event.call =
      [Call.AddrList eth0,
        Call.AddrDel eth0 { IP := NetIP.mk [10, 0, 0, 1], Mask := [255, 255, 255, 0] },
        Call.AddrAdd eth0 { IP := NetIP.mk [10, 0, 0, 2], Mask := [255, 255, 255, 0] },
        Call.LinkSetName eth0 "net0", Call.LinkSetMTU eth0 1400] ∧
    (updateLink simNetlink tableLib eth0 ifaceRequest (simState simWithAddr)).1 = none :=
  ⟨by decide, by decide, by decide,
    ((updateLink_order simNetlink tableLib eth0 ifaceRequest (simState simWithAddr)).2
      (by decide) (by decide)).1⟩

/-! ## Link not found: theorems -/

/-- With a handle at hand `removeInterface` is its main part, followed by the deferred
`Delete` when the handle was created by the call. -/
theorem removeInterface_of_ready {K : Type} (nl : Netlink K) (netHandle : Option Handle)
    (iface : Option Interface) (s s0 : State K) (hacq : handleReady nl netHandle s s0) :
    (removeInterface nl netHandle iface s).value? = (removeInterfaceWith nl iface s0).value? ∧
    (removeInterface nl netHandle iface s).state.ifaces =
      (removeInterfaceWith nl iface s0).state.ifaces ∧
    s0.ifaces = s.ifaces ∧
    ∃ post, (removeInterface nl netHandle iface s).state.trace =
        (removeInterfaceWith nl iface s0).state.trace ++ post ∧
      (post = [] ∨ ∃ h, post = [Event.mk (Call.Delete h) none]) := by
  rcases hacq with ⟨h, hn, hs⟩ | ⟨hn, h, hinv⟩
  · subst hn; subst hs
    exact ⟨rfl, rfl, rfl, [], by simp [removeInterface], Or.inl rfl⟩
  · subst hn
    have hs0 : s0.ifaces = s.ifaces := by
      have := congrArg (fun p => p.2.ifaces) hinv
      simpa [invoke] using this.symm
    simp only [removeInterface, hinv]
    rcases removeInterfaceWith nl iface s0 with ⟨v, sf⟩ | sf
    · exact ⟨rfl, rfl, hs0, [Event.mk (Call.Delete h) none], rfl, Or.inr ⟨h, rfl⟩⟩
    · exact ⟨rfl, rfl, hs0, [Event.mk (Call.Delete h) none], rfl, Or.inr ⟨h, rfl⟩⟩

/-- The interface map after `updateInterface`, with a handle at hand, is the map after
its main part. -/
theorem updateInterface_ifaces_of_ready {K : Type} (nl : Netlink K) (lib : NetLib)
    (netHandle : Option Handle) (iface : Interface) (s s0 : State K)
    (hacq : handleReady nl netHandle s s0) :
    (updateInterface nl lib netHandle (some iface) s).state.ifaces =
      (updateInterfaceWith nl lib iface s0).state.ifaces ∧ s0.ifaces = s.ifaces := by
  rcases hacq with ⟨h, hn, hs⟩ | ⟨hn, h, hinv⟩
  · subst hn; subst hs
    exact ⟨rfl, rfl⟩
  · subst hn
    have hs0 : s0.ifaces = s.ifaces := by
      have := congrArg (fun p => p.2.ifaces) hinv
      simpa [invoke] using this.symm
    simp only [updateInterface, hinv]
    rcases updateInterfaceWith nl lib iface s0 with ⟨v, sf⟩ | sf
    · exact ⟨rfl, hs0⟩
    · exact ⟨rfl, hs0⟩

/-- When the listing succeeds and no listed link has the hardware address,
`linkByHwAddr` fails with the not-found failure, having issued `LinkList` only. -/
theorem linkByHwAddr_not_found {K : Type} (nl : Netlink K) (hwAddr : String) (s0 : State K)
    (links : List Link) (k : K)
    (hlist : nl.LinkList s0.kernel = (Except.ok links, k))
    (hnone : findByHwAddr hwAddr links = none) :
    linkByHwAddr nl hwAddr s0 =
      (Except.error (linkNotFound hwAddr),
        { s0 with kernel := k, trace := s0.trace ++ [Event.mk Call.LinkList none] }) := by
  simp [linkByHwAddr, invoke, hlist, hnone, errOf, linkNotFound]

/-- C11, counterexample: for a hardware address no link has, `removeInterface` and
`updateInterface` fail with an error of class internal that wraps the not-found failure
of `linkByHwAddr`; the error they return is not that failure and not of class
not-found. -/
theorem link_not_found_counterexample :
    errOf (linkByHwAddr simNetlink ifaceUnknown.HwAddr (simState simTwoLinks)).1 =
      some (linkNotFound ifaceUnknown.HwAddr) ∧
    (removeInterface simNetlink (some h0) (some ifaceUnknown) (simState simTwoLinks)).value? =
      some (none, some (GoError.wrap Code.Internal "removeInterface: %v" []
        (linkNotFound ifaceUnknown.HwAddr))) ∧
    (updateInterface simNetlink tableLib (some h0) (some ifaceUnknown)
        (simState simTwoLinks)).value? =
      some (none, some (GoError.wrap Code.Internal "updateInterface: %v" []
        (linkNotFound ifaceUnknown.HwAddr))) ∧
    (GoError.wrap Code.Internal "removeInterface: %v" []
        (linkNotFound ifaceUnknown.HwAddr)).code? ≠ some Code.NotFound ∧
    (GoError.wrap Code.Internal "updateInterface: %v" []
        (linkNotFound ifaceUnknown.HwAddr)).code? ≠ some Code.NotFound := by
  decide

/-- C11, amended: when the link listing succeeds and no listed link has the requested
hardware address, `removeInterface` fails with an error of class internal that wraps
the not-found failure `linkByHwAddr` produced, returns no interface, leaves the
interface map of the sandbox as it was, and its only kernel call with the handle at
hand is the listing, followed at most by the deferred `Delete` of a handle it created;
`updateInterface` does the same for a request whose hardware address is not empty. -/
theorem link_not_found_wrapped {K : Type} (nl : Netlink K) (lib : NetLib)
    (netHandle : Option Handle) (iface : Interface) (s s0 : State K) (links : List Link) (k : K)
    (hacq : handleReady nl netHandle s s0)
    (hlist : nl.LinkList s0.kernel = (Except.ok links, k))
    (hnone : findByHwAddr iface.HwAddr links = none) :
    ((removeInterface nl netHandle (some iface) s).value? =
        some (none, some (GoError.wrap Code.Internal "removeInterface: %v" []
          (linkNotFound iface.HwAddr))) ∧
      (removeInterface nl netHandle (some iface) s).state.ifaces = s.ifaces ∧
      ∃ post, newEvents s0 (removeInterface nl netHandle (some iface) s).state =
          Event.mk Call.LinkList none :: post ∧
        (post = [] ∨ ∃ h, post = [Event.mk (Call.Delete h) none])) ∧
    (iface.HwAddr ≠ "" →
      (updateInterface nl lib netHandle (some iface) s).value? =
        some (none, some (GoError.wrap Code.Internal "updateInterface: %v" []
          (linkNotFound iface.HwAddr))) ∧
      (updateInterface nl lib netHandle (some iface) s).state.ifaces = s.ifaces ∧
      ∃ post, newEvents s0 (updateInterface nl lib netHandle (some iface) s).state =
          Event.mk Call.LinkList none :: post ∧
        (post = [] ∨ ∃ h, post = [Event.mk (Call.Delete h) none])) := by
  have hl := linkByHwAddr_not_found nl iface.HwAddr s0 links k hlist hnone
  constructor
  · obtain ⟨hval, hif, hs0, post, htr, hpost⟩ :=
      removeInterface_of_ready nl netHandle (some iface) s s0 hacq
    have htr2 : (removeInterface nl netHandle (some iface) s).state.trace =
        s0.trace ++ (Event.mk Call.LinkList none :: post) := by
      rw [htr]; simp [removeInterfaceWith, hl, Res.state]
    rw [hval, hif]
    simp only [removeInterfaceWith, hl]
    exact ⟨rfl, hs0, post, newEvents_of_trace htr2, hpost⟩
  · intro hhw
    obtain ⟨hval, post, htr, hpost⟩ := updateInterface_of_ready nl lib netHandle iface s s0 hacq
    obtain ⟨hif, hs0⟩ := updateInterface_ifaces_of_ready nl lib netHandle iface s s0 hacq
    have htr2 : (updateInterface nl lib netHandle (some iface) s).state.trace =
        s0.trace ++ (Event.mk Call.LinkList none :: post) := by
      rw [htr]; simp [updateInterfaceWith, hhw, hl, Res.state]
    rw [hval, hif]
    simp only [updateInterfaceWith, hhw, hl, ne_eq, not_false_eq_true, if_true]
    exact ⟨rfl, hs0, post, newEvents_of_trace htr2, hpost⟩

/-- C11, witness: the unknown hardware address on the concrete kernel, without a
handle passed in. -/
theorem link_not_found_wrapped_witness :
    handleReady simNetlink none (simState simTwoLinks)
      (invoke Call.NewHandle (simNetlink.NewHandle (simState simTwoLinks).kernel)
        (simState simTwoLinks)).2 ∧
    simNetlink.LinkList
        (invoke Call.NewHandle (simNetlink.NewHandle (simState simTwoLinks).kernel)
          (simState simTwoLinks)).2.kernel = (Except.ok [lo, eth0], simTwoLinks) ∧
    findByHwAddr ifaceUnknown.HwAddr [lo, eth0] = none ∧
    ifaceUnknown.HwAddr ≠ "" ∧
    ((removeInterface simNetlink none (some ifaceUnknown) (simState simTwoLinks)).value? =
        some (none, some (GoError.wrap Code.Internal "removeInterface: %v" []
          (linkNotFound ifaceUnknown.HwAddr))) ∧
      (removeInterface simNetlink none (some ifaceUnknown) (simState simTwoLinks)).state.ifaces =
        (simState simTwoLinks).ifaces) ∧
    ((updateInterface simNetlink tableLib none (some ifaceUnknown)
        (simState simTwoLinks)).value? =
        some (none, some (GoError.wrap Code.Internal "updateInterface: %v" []
          (linkNotFound ifaceUnknown.HwAddr))) ∧
      (updateInterface simNetlink tableLib none (some ifaceUnknown)
        (simState simTwoLinks)).state.ifaces = (simState simTwoLinks).ifaces) :=
  ⟨Or.inr ⟨rfl, Handle.mk 1, rfl⟩, rfl, by decide, by decide,
    ⟨(link_not_found_wrapped simNetlink tableLib none ifaceUnknown (simState simTwoLinks) _
        [lo, eth0] simTwoLinks (Or.inr ⟨rfl, Handle.mk 1, rfl⟩) rfl (by decide)).1.1,
      (link_not_found_wrapped simNetlink tableLib none ifaceUnknown (simState simTwoLinks) _
        [lo, eth0] simTwoLinks (Or.inr ⟨rfl, Handle.mk 1, rfl⟩) rfl (by decide)).1.2.1⟩,
    ⟨((link_not_found_wrapped simNetlink tableLib none ifaceUnknown (simState simTwoLinks) _
        [lo, eth0] simTwoLinks (Or.inr ⟨rfl, Handle.mk 1, rfl⟩) rfl (by decide)).2
          (by decide)).1,
      ((link_not_found_wrapped simNetlink tableLib none ifaceUnknown (simState simTwoLinks) _
        [lo, eth0] simTwoLinks (Or.inr ⟨rfl, Handle.mk 1, rfl⟩) rfl (by decide)).2
          (by decide)).2.1⟩⟩

/-! ## Serial port search: theorems -/

theorem IsNotExist_errno (n : Nat) : IsNotExist (GoError.errno n) = true ↔ n = 2 := by
  simp [IsNotExist, ENOENT]

/-- Ports that are passed over do not end the search. -/
theorem searchPorts_passed {env : SerialEnv} {serialName : String} (pre rest : List String)
    (hpre : ∀ x ∈ pre, portPassedOver env serialName x) :
    searchPorts env serialName (pre ++ rest) = searchPorts env serialName rest := by
  induction pre with
  | nil => rfl
  | cons x pre ih =>
    have hx := hpre x (List.mem_cons_self _ _)
    have ih2 := ih (fun y hy => hpre y (List.mem_cons_of_mem _ hy))
    simp only [List.cons_append, searchPorts]
    rcases hx with hx | ⟨content, hx, hc⟩
    · simp only [portNamePath] at hx
      rw [hx]
      simp [IsNotExist_errno, ih2]
    · simp only [portNamePath] at hx
      rw [hx]
      simp [hc, ih2]

/-- The search ends in exactly one of three ways. -/
theorem searchPorts_cases (env : SerialEnv) (serialName : String) (ports : List String) :
    (∃ pre port post, ports = pre ++ port :: post ∧
        (∀ x ∈ pre, portPassedOver env serialName x) ∧ portMatches env serialName port ∧
        searchPorts env serialName ports = Except.ok (env.Join [env.devRootPath, port])) ∨
    (∃ pre port post n, ports = pre ++ port :: post ∧
        (∀ x ∈ pre, portPassedOver env serialName x) ∧ portBroken env port n ∧
        searchPorts env serialName ports = Except.error (GoError.errno n)) ∨
    ((∀ x ∈ ports, portPassedOver env serialName x) ∧
        searchPorts env serialName ports = Except.error (portNotFound serialName)) := by
  induction ports with
  | nil => exact Or.inr (Or.inr ⟨by simp, rfl⟩)
  | cons x rest ih =>
    rcases hr : env.ReadFile (env.Join [env.virtIOPath, x, "name"]) with n | content
    · by_cases hn : n = 2
      · have hx : portPassedOver env serialName x := Or.inl (by rw [portNamePath, hr, hn])
        have hstep : searchPorts env serialName (x :: rest) = searchPorts env serialName rest := by
          simp [searchPorts, hr, IsNotExist_errno, hn]
        rw [hstep]
        rcases ih with ⟨pre, port, post, he, hp, hm, hs⟩ | ⟨pre, port, post, m, he, hp, hb, hs⟩ |
          ⟨hall, hs⟩
        · refine Or.inl ⟨x :: pre, port, post, by rw [he]; rfl, ?_, hm, hs⟩
          intro y hy
          rcases List.mem_cons.mp hy with h | h
          · rw [h]; exact hx
          · exact hp y h
        · refine Or.inr (Or.inl ⟨x :: pre, port, post, m, by rw [he]; rfl, ?_, hb, hs⟩)
          intro y hy
          rcases List.mem_cons.mp hy with h | h
          · rw [h]; exact hx
          · exact hp y h
        · refine Or.inr (Or.inr ⟨?_, hs⟩)
          intro y hy
          rcases List.mem_cons.mp hy with h | h
          · rw [h]; exact hx
          · exact hall y h
      · refine Or.inr (Or.inl ⟨[], x, rest, n, rfl, by simp, ⟨by rw [portNamePath, hr], hn⟩, ?_⟩)
        simp [searchPorts, hr, IsNotExist_errno, hn]
    · by_cases hc : Contains content serialName = true
      · refine Or.inl ⟨[], x, rest, rfl, by simp, ⟨content, by rw [portNamePath, hr], hc⟩, ?_⟩
        simp [searchPorts, hr, hc]
      · have hc2 : Contains content serialName = false := by simpa using hc
        have hx : portPassedOver env serialName x :=
          Or.inr ⟨content, by rw [portNamePath, hr], hc2⟩
        have hstep : searchPorts env serialName (x :: rest) = searchPorts env serialName rest := by
          simp [searchPorts, hr, hc2]
        rw [hstep]
        rcases ih with ⟨pre, port, post, he, hp, hm, hs⟩ | ⟨pre, port, post, m, he, hp, hb, hs⟩ |
          ⟨hall, hs⟩
        · refine Or.inl ⟨x :: pre, port, post, by rw [he]; rfl, ?_, hm, hs⟩
          intro y hy
          rcases List.mem_cons.mp hy with h | h
          · rw [h]; exact hx
          · exact hp y h
        · refine Or.inr (Or.inl ⟨x :: pre, port, post, m, by rw [he]; rfl, ?_, hb, hs⟩)
          intro y hy
          rcases List.mem_cons.mp hy with h | h
          · rw [h]; exact hx
          · exact hp y h
        · refine Or.inr (Or.inr ⟨?_, hs⟩)
          intro y hy
          rcases List.mem_cons.mp hy with h | h
          · rw [h]; exact hx
          · exact hall y h

/-- C13: when the port directory opens and lists, `findVirtualSerialPath` returns a path
exactly when some listed port matches and every port before it was passed over (its
"name" file missing, or read without containing the channel name), and the path is the
device node of that first match; it fails with a read error exactly when such an error,
other than a missing file, occurs at a port before which every port was passed over;
and it fails with not-found exactly when every listed port was passed over. -/
theorem findVirtualSerialPath_search (env : SerialEnv) (serialName : String)
    (ports : List String) (hopen : env.Open env.virtIOPath = none)
    (hlist : env.Readdirnames = Except.ok ports) :
    (∀ p, findVirtualSerialPath env serialName = Except.ok p ↔
      ∃ pre port post, ports = pre ++ port :: post ∧
        (∀ x ∈ pre, portPassedOver env serialName x) ∧ portMatches env serialName port ∧
        p = env.Join [env.devRootPath, port]) ∧
    (∀ n, findVirtualSerialPath env serialName = Except.error (GoError.errno n) ↔
      ∃ pre port post, ports = pre ++ port :: post ∧
        (∀ x ∈ pre, portPassedOver env serialName x) ∧ portBroken env port n) ∧
    (findVirtualSerialPath env serialName = Except.error (portNotFound serialName) ↔
      ∀ x ∈ ports, portPassedOver env serialName x) := by
  have hfind : findVirtualSerialPath env serialName = searchPorts env serialName ports := by
    simp [findVirtualSerialPath, hopen, hlist]
  rw [hfind]
  have hmatch : ∀ pre port post, ports = pre ++ port :: post →
      (∀ x ∈ pre, portPassedOver env serialName x) → portMatches env serialName port →
      searchPorts env serialName ports = Except.ok (env.Join [env.devRootPath, port]) := by
    intro pre port post he hp ⟨content, hr, hc⟩
    rw [he, searchPorts_passed pre _ hp]
    simp only [portNamePath] at hr
    simp [searchPorts, hr, hc]
  have hbroken : ∀ pre port post n, ports = pre ++ port :: post →
      (∀ x ∈ pre, portPassedOver env serialName x) → portBroken env port n →
      searchPorts env serialName ports = Except.error (GoError.errno n) := by
    intro pre port post n he hp ⟨hr, hn⟩
    rw [he, searchPorts_passed pre _ hp]
    simp only [portNamePath] at hr
    simp [searchPorts, hr, IsNotExist_errno, hn]
  have hnone : (∀ x ∈ ports, portPassedOver env serialName x) →
      searchPorts env serialName ports = Except.error (portNotFound serialName) := by
    intro hall
    have := @searchPorts_passed env serialName ports [] hall
    rw [List.append_nil] at this
    rw [this]; rfl
  refine ⟨?_, ?_, ?_⟩
  · intro p
    constructor
    · intro hs
      rcases searchPorts_cases env serialName ports with ⟨pre, port, post, he, hp, hm, hs2⟩ |
        ⟨pre, port, post, m, he, hp, hb, hs2⟩ | ⟨hall, hs2⟩
      · rw [hs2] at hs
        exact ⟨pre, port, post, he, hp, hm, (Except.ok.inj hs).symm⟩
      · rw [hs2] at hs; cases hs
      · rw [hs2] at hs; cases hs
    · rintro ⟨pre, port, post, he, hp, hm, rfl⟩
      exact hmatch pre port post he hp hm
  · intro n
    constructor
    · intro hs
      rcases searchPorts_cases env serialName ports with ⟨pre, port, post, he, hp, hm, hs2⟩ |
        ⟨pre, port, post, m, he, hp, hb, hs2⟩ | ⟨hall, hs2⟩
      · rw [hs2] at hs; cases hs
      · rw [hs2] at hs
        have hmn : m = n := by
          have := Except.error.inj hs
          exact GoError.errno.inj this
        subst hmn
        exact ⟨pre, port, post, he, hp, hb⟩
      · rw [hs2] at hs
        have := Except.error.inj hs
        simp [portNotFound] at this
    · rintro ⟨pre, port, post, he, hp, hb⟩
      exact hbroken pre port post n he hp hb
  · constructor
    · intro hs
      rcases searchPorts_cases env serialName ports with ⟨pre, port, post, he, hp, hm, hs2⟩ |
        ⟨pre, port, post, m, he, hp, hb, hs2⟩ | ⟨hall, hs2⟩
      · rw [hs2] at hs; cases hs
      · rw [hs2] at hs
        have := Except.error.inj hs
        simp [portNotFound] at this
      · exact hall
    · exact hnone

/-- C13, witness: four listed ports; the first has no "name" file, the second is named
for another channel, the third matches and its device node is returned. -/
theorem findVirtualSerialPath_search_witness :
    (serialEnv ["vport0p0", "vport0p1", "vport0p2", "vport0p3"]).Open
        (serialEnv ["vport0p0", "vport0p1", "vport0p2", "vport0p3"]).virtIOPath = none ∧
    (serialEnv ["vport0p0", "vport0p1", "vport0p2", "vport0p3"]).Readdirnames =
      Except.ok ["vport0p0", "vport0p1", "vport0p2", "vport0p3"] ∧
    findVirtualSerialPath (serialEnv ["vport0p0", "vport0p1", "vport0p2", "vport0p3"])
        "agent.channel.0" = Except.ok "/dev/vport0p2" ∧
    ∃ pre port post, ["vport0p0", "vport0p1", "vport0p2", "vport0p3"] = pre ++ port :: post ∧
      (∀ x ∈ pre, portPassedOver (serialEnv ["vport0p0", "vport0p1", "vport0p2", "vport0p3"])
        "agent.channel.0" x) ∧
      portMatches (serialEnv ["vport0p0", "vport0p1", "vport0p2", "vport0p3"])
        "agent.channel.0" port ∧
      "/dev/vport0p2" =
        (serialEnv ["vport0p0", "vport0p1", "vport0p2", "vport0p3"]).Join
          [(serialEnv ["vport0p0", "vport0p1", "vport0p2", "vport0p3"]).devRootPath, port] :=
  ⟨rfl, rfl, rfl,
    ((findVirtualSerialPath_search (serialEnv ["vport0p0", "vport0p1", "vport0p2", "vport0p3"])
      "agent.channel.0" ["vport0p0", "vport0p1", "vport0p2", "vport0p3"] rfl rfl).1
        "/dev/vport0p2").mp rfl⟩

/-! ## Waiting on the serial channel: theorems -/

/-- One result after which the loop keeps waiting is consumed. -/
theorem waitLoop_keeps_one (fd : Nat) (x : EpollResult) (rest : List EpollResult)
    (hx : keepsWaiting fd x = true) : waitLoop fd (x :: rest) = waitLoop fd rest := by
  rcases x with err | _ | ev
  · simp [keepsWaiting] at hx
  · rfl
  · simp only [keepsWaiting, Bool.or_eq_true, Bool.and_eq_true, decide_eq_true_eq] at hx
    by_cases hfd : ev.Fd = int32OfUintptr fd
    · rcases hx with hx | ⟨ho, he⟩
      · exact absurd hfd hx
      · simp [waitLoop, hfd, ho, he]
    · simp [waitLoop, hfd]

/-- Results after which the loop keeps waiting do not end it. -/
theorem waitLoop_keeps (fd : Nat) (pre rest : List EpollResult)
    (hpre : ∀ x ∈ pre, keepsWaiting fd x = true) :
    waitLoop fd (pre ++ rest) = waitLoop fd rest := by
  induction pre with
  | nil => rfl
  | cons x pre ih =>
    rw [List.cons_append, waitLoop_keeps_one fd x _ (hpre x (List.mem_cons_self _ _))]
    exact ih (fun y hy => hpre y (List.mem_cons_of_mem _ hy))

/-- The loop ends in exactly one of four ways. -/
theorem waitLoop_cases (fd : Nat) (results : List EpollResult) :
    (∃ pre ev post, results = pre ++ Except.ok (some ev) :: post ∧
        (∀ x ∈ pre, keepsWaiting fd x = true) ∧ ev.Fd = int32OfUintptr fd ∧
        ev.Events &&& EPOLLOUT ≠ 0 ∧ waitLoop fd results = WaitOutcome.returned none) ∨
    (∃ pre ev post, results = pre ++ Except.ok (some ev) :: post ∧
        (∀ x ∈ pre, keepsWaiting fd x = true) ∧ ev.Fd = int32OfUintptr fd ∧
        ev.Events &&& EPOLLOUT = 0 ∧ ev.Events &&& EPOLLERR ≠ 0 ∧
        waitLoop fd results = WaitOutcome.returned (some serialFailure)) ∨
    (∃ pre err post, results = pre ++ Except.error err :: post ∧
        (∀ x ∈ pre, keepsWaiting fd x = true) ∧
        waitLoop fd results = WaitOutcome.returned (some err)) ∨
    ((∀ x ∈ results, keepsWaiting fd x = true) ∧ waitLoop fd results = WaitOutcome.blocked) := by
  induction results with
  | nil => exact Or.inr (Or.inr (Or.inr ⟨by simp, rfl⟩))
  | cons x rest ih =>
    by_cases hx : keepsWaiting fd x = true
    · rw [waitLoop_keeps_one fd x rest hx]
      have hcons : ∀ pre : List EpollResult, (∀ y ∈ pre, keepsWaiting fd y = true) →
          ∀ y ∈ x :: pre, keepsWaiting fd y = true := by
        intro pre hp y hy
        rcases List.mem_cons.mp hy with h | h
        · rw [h]; exact hx
        · exact hp y h
      rcases ih with ⟨pre, ev, post, he, hp, hfd, ho, hs⟩ | ⟨pre, ev, post, he, hp, hfd, ho, her, hs⟩ |
        ⟨pre, err, post, he, hp, hs⟩ | ⟨hall, hs⟩
      · exact Or.inl ⟨x :: pre, ev, post, by rw [he]; rfl, hcons pre hp, hfd, ho, hs⟩
      · exact Or.inr (Or.inl ⟨x :: pre, ev, post, by rw [he]; rfl, hcons pre hp, hfd, ho, her, hs⟩)
      · exact Or.inr (Or.inr (Or.inl ⟨x :: pre, err, post, by rw [he]; rfl, hcons pre hp, hs⟩))
      · exact Or.inr (Or.inr (Or.inr ⟨hcons rest hall, hs⟩))
    · rcases x with err | _ | ev
      · exact Or.inr (Or.inr (Or.inl ⟨[], err, rest, rfl, by simp, rfl⟩))
      · exact absurd rfl hx
      · simp only [keepsWaiting, Bool.or_eq_true, Bool.and_eq_true, decide_eq_true_eq,
          not_or, not_and, not_not] at hx
        obtain ⟨hfd, hbits⟩ := hx
        by_cases ho : ev.Events &&& EPOLLOUT = 0
        · refine Or.inr (Or.inl ⟨[], ev, rest, rfl, by simp, hfd, ho, hbits ho, ?_⟩)
          simp [waitLoop, hfd, ho, hbits ho, serialFailure]
        · refine Or.inl ⟨[], ev, rest, rfl, by simp, hfd, ho, ?_⟩
          simp [waitLoop, hfd, ho]

/-- C14: with the set-up of `wait` done, an event on the serial descriptor with the
output-ready bit, reached after results that keep the loop waiting, makes `wait` return
nil; one with the error bit and without the output-ready bit makes it return a failure;
an event on the serial descriptor with the hang-up bit only, and an event for another
descriptor, are consumed and the loop goes on with the next result; while only such
results arrive `wait` does not return.  Whenever `wait` returns nil, an output-ready
event on the serial descriptor ended it; and whenever the loop returns an error, an
`EpollWait` error or an event carrying the error bit ended it, never a hang-up alone. -/
theorem serialChannel_wait_classification (sys : EpollSys) (fd : Nat) :
    (∀ epfd, 0 < fd → sys.EpollCreate1 = Except.ok epfd → sys.EpollCtl epfd fd = none →
      (∀ pre ev post, (∀ x ∈ pre, keepsWaiting fd x = true) → ev.Fd = int32OfUintptr fd →
        ev.Events &&& EPOLLOUT ≠ 0 →
        serialChannel.wait sys fd (pre ++ Except.ok (some ev) :: post) =
          WaitOutcome.returned none) ∧
      (∀ pre ev post, (∀ x ∈ pre, keepsWaiting fd x = true) → ev.Fd = int32OfUintptr fd →
        ev.Events &&& EPOLLOUT = 0 → ev.Events &&& EPOLLERR ≠ 0 →
        serialChannel.wait sys fd (pre ++ Except.ok (some ev) :: post) =
          WaitOutcome.returned (some serialFailure)) ∧
      (∀ ev rest, ev.Fd = int32OfUintptr fd → ev.Events &&& EPOLLHUP ≠ 0 →
        ev.Events &&& EPOLLOUT = 0 → ev.Events &&& EPOLLERR = 0 →
        serialChannel.wait sys fd (Except.ok (some ev) :: rest) = serialChannel.wait sys fd rest) ∧
      (∀ ev rest, ev.Fd ≠ int32OfUintptr fd →
        serialChannel.wait sys fd (Except.ok (some ev) :: rest) = serialChannel.wait sys fd rest) ∧
      (∀ results, (∀ x ∈ results, keepsWaiting fd x = true) →
        serialChannel.wait sys fd results = WaitOutcome.blocked) ∧
      (∀ results err, serialChannel.wait sys fd results = WaitOutcome.returned (some err) →
        ∃ pre x post, results = pre ++ x :: post ∧ (∀ y ∈ pre, keepsWaiting fd y = true) ∧
          (x = Except.error err ∨
            ∃ ev, x = Except.ok (some ev) ∧ ev.Fd = int32OfUintptr fd ∧
              ev.Events &&& EPOLLERR ≠ 0 ∧ err = serialFailure))) ∧
    (∀ results, serialChannel.wait sys fd results = WaitOutcome.returned none →
      ∃ pre ev post, results = pre ++ Except.ok (some ev) :: post ∧
        (∀ x ∈ pre, keepsWaiting fd x = true) ∧ ev.Fd = int32OfUintptr fd ∧
        ev.Events &&& EPOLLOUT ≠ 0) := by
  constructor
  · intro epfd hfd hcreate hctl
    have hwait : ∀ results, serialChannel.wait sys fd results = waitLoop fd results := by
      intro results
      have : ¬ fd ≤ 0 := by omega
      simp [serialChannel.wait, this, hcreate, hctl]
    simp only [hwait]
    refine ⟨?_, ?_, ?_, ?_, ?_, ?_⟩
    · intro pre ev post hp hev ho
      rw [waitLoop_keeps fd pre _ hp]
      simp [waitLoop, hev, ho]
    · intro pre ev post hp hev ho he
      rw [waitLoop_keeps fd pre _ hp]
      simp [waitLoop, hev, ho, he, serialFailure]
    · intro ev rest hev _ ho he
      exact waitLoop_keeps_one fd _ rest (by simp [keepsWaiting, ho, he])
    · intro ev rest hev
      exact waitLoop_keeps_one fd _ rest (by simp [keepsWaiting, hev])
    · intro results hall
      have := waitLoop_keeps fd results [] hall
      rw [List.append_nil] at this
      rw [this]; rfl
    · intro results err hs
      rcases waitLoop_cases fd results with ⟨pre, ev, post, he, hp, hfd2, ho, hs2⟩ |
        ⟨pre, ev, post, he, hp, hfd2, ho, her, hs2⟩ | ⟨pre, e2, post, he, hp, hs2⟩ | ⟨hall, hs2⟩
      · rw [hs2] at hs; cases hs
      · rw [hs2] at hs
        have herr : serialFailure = err := by
          have := WaitOutcome.returned.inj hs
          exact Option.some.inj this
        exact ⟨pre, _, post, he, hp, Or.inr ⟨ev, rfl, hfd2, her, herr.symm⟩⟩
      · rw [hs2] at hs
        have herr : e2 = err := by
          have := WaitOutcome.returned.inj hs
          exact Option.some.inj this
        subst herr
        exact ⟨pre, _, post, he, hp, Or.inl rfl⟩
      · rw [hs2] at hs; cases hs
  · intro results hs
    have hloop : waitLoop fd results = WaitOutcome.returned none := by
      unfold serialChannel.wait at hs
      by_cases hfd : fd ≤ 0
      · simp [hfd] at hs
      · simp only [hfd, if_false] at hs
        rcases hc : sys.EpollCreate1 with err | epfd
        · simp [hc] at hs
        · simp only [hc] at hs
          rcases hctl : sys.EpollCtl epfd fd with _ | err
          · simpa [hctl] using hs
          · simp [hctl] at hs
    rcases waitLoop_cases fd results with ⟨pre, ev, post, he, hp, hfd2, ho, hs2⟩ |
      ⟨pre, ev, post, he, hp, hfd2, ho, her, hs2⟩ | ⟨pre, e2, post, he, hp, hs2⟩ | ⟨hall, hs2⟩
    · exact ⟨pre, ev, post, he, hp, hfd2, ho⟩
    · rw [hs2] at hloop; cases hloop
    · rw [hs2] at hloop; cases hloop
    · rw [hs2] at hloop; cases hloop

/-- C14, witness: on descriptor 5 a hang-up, an output-ready event for descriptor 9 and
an empty wake-up are consumed, then an output-ready event on descriptor 5 ends the
wait with success. -/
theorem serialChannel_wait_classification_witness :
    0 < 5 ∧ epollReady.EpollCreate1 = Except.ok 3 ∧ epollReady.EpollCtl 3 5 = none ∧
    (∀ x ∈ [Except.ok (some (EpollEvent.mk 16 5)), Except.ok (some (EpollEvent.mk 4 9)),
        (Except.ok none : EpollResult)], keepsWaiting 5 x = true) ∧
    (EpollEvent.mk 20 5).Fd = int32OfUintptr 5 ∧ (EpollEvent.mk 20 5).Events &&& EPOLLOUT ≠ 0 ∧
    serialChannel.wait epollReady 5
        ([Except.ok (some (EpollEvent.mk 16 5)), Except.ok (some (EpollEvent.mk 4 9)),
          Except.ok none] ++ Except.ok (some (EpollEvent.mk 20 5)) :: []) =
      WaitOutcome.returned none :=
  ⟨by decide, rfl, rfl, by decide, by decide, by decide,
    ((serialChannel_wait_classification epollReady 5).1 3 (by decide) rfl rfl).1
      [Except.ok (some (EpollEvent.mk 16 5)), Except.ok (some (EpollEvent.mk 4 9)),
        Except.ok none] (EpollEvent.mk 20 5) [] (by decide) (by decide) (by decide)⟩

/-! ## Device validation: theorems -/

/-- The model of `addDevice` agrees with every row of the table of `TestAddDevice`. -/
theorem addDevice_agrees_with_TestAddDevice :
    ∀ row ∈ testAddDeviceData,
      ((addDevice noopHandlerList row.1 { st := (), invoked := [] }).1.isSome) = row.2 := by
  decide

/-- C12: for a handler table whose handler for the type of the descriptor succeeds,
`addDevice` succeeds exactly when the descriptor is valid (non-nil, type non-empty and
in the table, container-path non-empty, id or vm-path non-empty); for an invalid
descriptor it fails with invalid-argument and the state is untouched, so no handler
was invoked; for a valid one it returns what the handler of its type returns, and
that handler is the one invocation. -/
theorem addDevice_validation {σ : Type} (deviceHandlerList : String → Option (deviceHandler σ))
    (device : Option Device) (s : DevState σ) :
    ((∀ d devHandler, device = some d → deviceHandlerList d.Type_ = some devHandler →
        (devHandler d s.st).1 = none) →
      ((addDevice deviceHandlerList device s).1 = none ↔
        validDevice deviceHandlerList device = true)) ∧
    (validDevice deviceHandlerList device = false →
      ∃ err, (addDevice deviceHandlerList device s).1 = some err ∧
        err.code? = some Code.InvalidArgument ∧
        (addDevice deviceHandlerList device s).2.st = s.st ∧
        (addDevice deviceHandlerList device s).2.invoked = s.invoked) ∧
    (validDevice deviceHandlerList device = true →
      ∃ d devHandler, device = some d ∧ deviceHandlerList d.Type_ = some devHandler ∧
        (addDevice deviceHandlerList device s).1 = (devHandler d s.st).1 ∧
        (addDevice deviceHandlerList device s).2.st = (devHandler d s.st).2 ∧
        (addDevice deviceHandlerList device s).2.invoked = s.invoked ++ [d.Type_]) := by
  have hinvalid : validDevice deviceHandlerList device = false →
      ∃ err, (addDevice deviceHandlerList device s).1 = some err ∧
        err.code? = some Code.InvalidArgument ∧
        (addDevice deviceHandlerList device s).2.st = s.st ∧
        (addDevice deviceHandlerList device s).2.invoked = s.invoked := by
    intro hv
    cases device with
    | none => exact ⟨_, rfl, rfl, rfl, rfl⟩
    | some d =>
      by_cases ht : d.Type_ = ""
      · exact ⟨invalidDevice "missing type", by simp [addDevice, ht], rfl,
          by simp [addDevice, ht], by simp [addDevice, ht]⟩
      · by_cases hid : d.Id = "" ∧ d.VmPath = ""
        · exact ⟨invalidDevice "missing id and vm-path", by simp [addDevice, ht, hid], rfl,
            by simp [addDevice, ht, hid], by simp [addDevice, ht, hid]⟩
        · by_cases hc : d.ContainerPath = ""
          · exact ⟨invalidDevice "missing container-path", by simp [addDevice, ht, hid, hc], rfl,
              by simp [addDevice, ht, hid, hc], by simp [addDevice, ht, hid, hc]⟩
          · rcases hh : deviceHandlerList d.Type_ with _ | devHandler
            · exact ⟨invalidDevice "unknown device type", by simp [addDevice, ht, hid, hc, hh],
                rfl, by simp [addDevice, ht, hid, hc, hh], by simp [addDevice, ht, hid, hc, hh]⟩
            · exfalso
              have hid2 : d.Id ≠ "" ∨ d.VmPath ≠ "" := by
                by_contra hcon
                push_neg at hcon
                exact hid hcon
              simp [validDevice, ht, hh, hc] at hv
              rcases hid2 with h | h
              · exact h hv.1
              · exact h hv.2
  have hvalid : validDevice deviceHandlerList device = true →
      ∃ d devHandler, device = some d ∧ deviceHandlerList d.Type_ = some devHandler ∧
        (addDevice deviceHandlerList device s).1 = (devHandler d s.st).1 ∧
        (addDevice deviceHandlerList device s).2.st = (devHandler d s.st).2 ∧
        (addDevice deviceHandlerList device s).2.invoked = s.invoked ++ [d.Type_] := by
    intro hv
    cases device with
    | none => simp [validDevice] at hv
    | some d =>
      simp only [validDevice, Bool.and_eq_true, Bool.or_eq_true, decide_eq_true_eq] at hv
      obtain ⟨⟨⟨ht, hsome⟩, hc⟩, hid⟩ := hv
      rcases hh : deviceHandlerList d.Type_ with _ | devHandler
      · simp [hh] at hsome
      · refine ⟨d, devHandler, rfl, hh, ?_, ?_, ?_⟩ <;>
        · have hid2 : ¬ (d.Id = "" ∧ d.VmPath = "") := by
            rintro ⟨h1, h2⟩
            rcases hid with h | h
            · exact h h1
            · exact h h2
          simp [addDevice, ht, hid2, hc, hh]
  refine ⟨?_, hinvalid, hvalid⟩
  intro hsucc
  constructor
  · intro hnone
    by_contra hv
    have hv2 : validDevice deviceHandlerList device = false := by simpa using hv
    obtain ⟨err, he, _⟩ := hinvalid hv2
    rw [hnone] at he
    cases he
  · intro hv
    obtain ⟨d, devHandler, hd, hh, hres, _⟩ := hvalid hv
    rw [hres]
    exact hsucc d devHandler hd hh

/-- C12, witness: the handler table of `TestAddDevice` and its device with type "noop",
vm-path and container-path "/foo" and no id. -/
theorem addDevice_validation_witness :
    (∀ d devHandler,
        some { emptyDevice with Type_ := "noop", VmPath := "/foo", ContainerPath := "/foo" } =
          some d →
        noopHandlerList d.Type_ = some devHandler → (devHandler d ()).1 = none) ∧
    validDevice noopHandlerList
      (some { emptyDevice with Type_ := "noop", VmPath := "/foo", ContainerPath := "/foo" }) =
        true ∧
    (addDevice noopHandlerList
      (some { emptyDevice with Type_ := "noop", VmPath := "/foo", ContainerPath := "/foo" })
      { st := (), invoked := [] }).1 = none ∧
    validDevice noopHandlerList (some { emptyDevice with Type_ := "noop", VmPath := "/foo" }) =
      false ∧
    (∃ err, (addDevice noopHandlerList (some { emptyDevice with Type_ := "noop", VmPath := "/foo" })
          { st := (), invoked := [] }).1 = some err ∧
        err.code? = some Code.InvalidArgument ∧
        (addDevice noopHandlerList (some { emptyDevice with Type_ := "noop", VmPath := "/foo" })
          { st := (), invoked := [] }).2.st = () ∧
        (addDevice noopHandlerList (some { emptyDevice with Type_ := "noop", VmPath := "/foo" })
          { st := (), invoked := [] }).2.invoked = []) :=
  have hsucc : ∀ d devHandler,
      some { emptyDevice with Type_ := "noop", VmPath := "/foo", ContainerPath := "/foo" } =
        some d →
      noopHandlerList d.Type_ = some devHandler → (devHandler d ()).1 = none := by
    intro d devHandler hd hh
    cases hd
    have : noopDeviceHandlerReturnNil = devHandler := by
      simpa [noopHandlerList, emptyDevice] using hh
    rw [← this]; rfl
  ⟨hsucc, by decide,
    ((addDevice_validation noopHandlerList
      (some { emptyDevice with Type_ := "noop", VmPath := "/foo", ContainerPath := "/foo" })
      { st := (), invoked := [] }).1 hsucc).mpr (by decide),
    by decide,
    (addDevice_validation noopHandlerList
      (some { emptyDevice with Type_ := "noop", VmPath := "/foo" })
      { st := (), invoked := [] }).2.1 (by decide)⟩

end Agent
